import Mathlib

/-! # Reliable UDP session: a shallow embedding of `rudp.cpp`, `rudp.hpp` and `checksum.cpp`

Conventions of the embedding.

* A byte is a natural number below 256 and a `buffer_t` is a list of bytes.  Arithmetic on
  `uint8_t` values is written with an explicit `% 256`, on `size_t` values with `% 2 ^ 64`.
* A `std::array` of 256 slots is a function on slot numbers; only the slots `0 .. 255` are used.
* Outgoing segments are `shared_ptr`s that the send ring, the pending queue and a retransmission
  share and that `session::send` mutates in place; they are modelled as addresses into a heap of
  buffers kept in the session.  Incoming datagrams are owned by the receive ring alone (the
  demultiplexer allocates a fresh buffer for every datagram) and are kept by value.
* A C++ exception is an `error` returned next to the state reached when it was thrown.
* Timers are not clocked: an expiry is a step of its own, enabled while the wait is pending.
* The effects of the session on its environment (datagrams handed to the socket, completion
  callbacks invoked, the on-closed hook) are appended to logs kept in the session record.
-/

namespace rudp

/-! ## Bytes and the byte codec -/

/-- The byte vector `buffer_t` (a `static_vector< uint8_t, 2048 >`). -/
abbrev buffer_t := List Nat

/-- Every element of the buffer is a byte. -/
def is_bytes (b : buffer_t) : Prop := ∀ x ∈ b, x < 256

instance (b : buffer_t) : Decidable (is_bytes b) := by
  unfold is_bytes; infer_instance

/-- Element access `buf[ i ]`. -/
def byte (b : buffer_t) (i : Nat) : Nat := b.getD i 0

/-- A freshly constructed `buffer_t( n )`: `n` value-initialised (zero) bytes. -/
def new_buffer (n : Nat) : buffer_t := List.replicate n 0

/-- Reads a big-endian 16-bit value at `pos`: `( begin[ 0 ] << 8 ) | begin[ 1 ]`. -/
def from_be16 (b : buffer_t) (pos : Nat) : Nat :=
  ((byte b pos) <<< 8) ||| (byte b (pos + 1))

/-- Reads a big-endian 32-bit value at `pos`. -/
def from_be32 (b : buffer_t) (pos : Nat) : Nat :=
  ((byte b pos) <<< 24) ||| ((byte b (pos + 1)) <<< 16) |||
    ((byte b (pos + 2)) <<< 8) ||| (byte b (pos + 3))

/-- Writes `value` as a big-endian 16-bit value at `pos`. -/
def to_be16 (b : buffer_t) (pos : Nat) (value : Nat) : buffer_t :=
  (b.set pos ((value >>> 8) % 256)).set (pos + 1) (value % 256)

/-- Writes `value` as a big-endian 32-bit value at `pos`. -/
def to_be32 (b : buffer_t) (pos : Nat) (value : Nat) : buffer_t :=
  (((b.set pos ((value >>> 24) % 256)).set (pos + 1) ((value >>> 16) % 256)).set
    (pos + 2) ((value >>> 8) % 256)).set (pos + 3) (value % 256)

/-! ## Checksum (`checksum.cpp`) -/

/-- The accumulation step of `rudp::checksum`: add with end-around carry. -/
def checksum_add (sum v : Nat) : Nat :=
  if sum + v > 0xFFFF then sum + v - 0xFFFF else sum + v

/-- The `std::accumulate` over the `length / 2` 16-bit words, each read with `ntohs`. -/
def checksum_words : buffer_t → Nat → Nat
  | b0 :: b1 :: rest, sum => checksum_words rest (checksum_add sum ((b0 <<< 8) ||| b1))
  | _, sum => sum

/-- The function `rudp::checksum( begin, end )` over the bytes of `b`. -/
def checksum (b : buffer_t) : Nat :=
  if b.length = 0 then 0xFFFF
  else
    let sum := checksum_words b 0xFFFF
    let sum := if b.length % 2 ≠ 0 then checksum_add sum ((byte b (b.length - 1)) <<< 8) else sum
    let sum := (2 ^ 32 - 1 - sum) % 2 ^ 32
    if sum % 2 ^ 16 = 0 then 0xFFFF else sum % 2 ^ 16

/-! ## Session configuration -/

/-- The exceptions of `rudp.hpp` that the modelled code throws, the `std::bad_alloc` of a
`static_vector` asked for more than its capacity, and the two points at which the behaviour of
the source is undefined: the dereference of a null `buffer_ptr_t` that `session::resend` runs
into when it retransmits a SYN, and the end of `get_out_of_sequence_acknowlege_count`, reached
without a `return` statement. -/
inductive error where
  | unable_to_deserialize_session_config
  | unable_to_serialize_session_config
  | invalid_packet
  | bad_alloc
  | null_dereference
  | missing_return
  deriving DecidableEq, Repr

/-- The capacity `buffer_size` of a `buffer_t`. -/
def buffer_size : Nat := 2048

/-- The record `session_config`. -/
structure session_config where
  max_out_of_standing_segs : Nat
  option_flags : Nat
  maximum_segment_size : Nat
  retransmission_timeout_value : Nat
  cumulative_ack_timeout_value : Nat
  null_segment_timeout_value : Nat
  transfer_state_timeout_value : Nat
  max_retrans : Nat
  max_cum_ack : Nat
  max_out_of_seq : Nat
  max_auto_reset : Nat
  connection_identifier : Nat
  deriving DecidableEq, Repr

/-- The default constructor `session_config()`; `rand` is the value returned by `rand()`. -/
def session_config.default (rand : Nat) : session_config :=
  { max_out_of_standing_segs := 64
    option_flags := 0x02
    maximum_segment_size := 1350
    retransmission_timeout_value := 1000
    cumulative_ack_timeout_value := 500
    null_segment_timeout_value := 1000
    transfer_state_timeout_value := 1000
    max_retrans := 3
    max_cum_ack := 32
    max_out_of_seq := 32
    max_auto_reset := 0
    connection_identifier := rand % 2 ^ 32 }

/-- The parsing constructor `session_config( begin, end )` applied to the bytes
`[ first, last )` of `b`; `std::distance` is the signed difference `last - first`. -/
def session_config.parse (b : buffer_t) (first last : Nat) : Except error session_config :=
  if (last : Int) - (first : Int) ≠ 22 then .error error.unable_to_deserialize_session_config
  else if byte b first ≠ 0x10 then .error error.invalid_packet
  else .ok
    { max_out_of_standing_segs := byte b (first + 1)
      option_flags := byte b (first + 2)
      maximum_segment_size := from_be16 b (first + 4)
      retransmission_timeout_value := from_be16 b (first + 6)
      cumulative_ack_timeout_value := from_be16 b (first + 8)
      null_segment_timeout_value := from_be16 b (first + 10)
      transfer_state_timeout_value := from_be16 b (first + 12)
      max_retrans := byte b (first + 14)
      max_cum_ack := byte b (first + 15)
      max_out_of_seq := byte b (first + 16)
      max_auto_reset := byte b (first + 17)
      connection_identifier := from_be32 b (first + 18) }

/-- The member `session_config::dump( begin, end )` writing into the bytes `[ first, last )`
of `b`. -/
def session_config.dump (c : session_config) (b : buffer_t) (first last : Nat) :
    Except error buffer_t :=
  if (last : Int) - (first : Int) ≠ 22 then .error error.unable_to_serialize_session_config
  else
    let b := b.set first 0x10
    let b := b.set (first + 1) (c.max_out_of_standing_segs % 256)
    let b := b.set (first + 2) (c.option_flags % 256)
    let b := b.set (first + 3) 0x00
    let b := to_be16 b (first + 4) c.maximum_segment_size
    let b := to_be16 b (first + 6) c.retransmission_timeout_value
    let b := to_be16 b (first + 8) c.cumulative_ack_timeout_value
    let b := to_be16 b (first + 10) c.null_segment_timeout_value
    let b := to_be16 b (first + 12) c.transfer_state_timeout_value
    let b := b.set (first + 14) (c.max_retrans % 256)
    let b := b.set (first + 15) (c.max_cum_ack % 256)
    let b := b.set (first + 16) (c.max_out_of_seq % 256)
    let b := b.set (first + 17) (c.max_auto_reset % 256)
    .ok (to_be32 b (first + 18) c.connection_identifier)

/-- The merge `l &= r`: the pointwise minimum of the timeouts and of the `max_*` limits. -/
def session_config.merge (l r : session_config) : session_config :=
  { l with
    retransmission_timeout_value := min l.retransmission_timeout_value r.retransmission_timeout_value
    cumulative_ack_timeout_value := min l.cumulative_ack_timeout_value r.cumulative_ack_timeout_value
    null_segment_timeout_value := min l.null_segment_timeout_value r.null_segment_timeout_value
    transfer_state_timeout_value := min l.transfer_state_timeout_value r.transfer_state_timeout_value
    max_retrans := min l.max_retrans r.max_retrans
    max_cum_ack := min l.max_cum_ack r.max_cum_ack
    max_out_of_seq := min l.max_out_of_seq r.max_out_of_seq
    max_auto_reset := min l.max_auto_reset r.max_auto_reset }

/-! ## Session state -/

/-- The enumeration `session_state`. -/
inductive session_state where
  | initial
  | opened
  | broken
  | closed
  deriving DecidableEq, Repr

/-- The completion callbacks (`send_cb_t`) that occur: a default-constructed `std::function`,
the lambda `[]( bool ){}` of the session's own control segments, a callback of the application
(identified by a number), the lambda that `connect` wraps around the application's callback and
the lambda of `disconnect`, which calls `close()`. -/
inductive send_cb where
  | empty
  | ignore
  | user (id : Nat)
  | connect (id : Nat)
  | disconnect
  deriving DecidableEq, Repr

/-- The members of `class session`, followed by the environment of the session: the heap of
outgoing buffers, the pending waits of retransmission timers, the values that `rand()` will
return, and the logs of datagrams handed to the socket, of callbacks invoked and of calls of the
on-closed hook. -/
structure session where
  self_config : session_config
  remote_config : session_config
  receive_buffer : Nat → Option buffer_t
  receive_head : Nat
  send_buffer : Nat → Option Nat × send_cb
  send_head : Nat
  acknowledge_head : Nat
  out_of_sequence_count : Nat
  unacknowledged_packet_count : Nat
  pending : List (Option Nat × send_cb)
  cumulative_ack_count : Nat
  cumulative_ack_timer : Bool
  null_segment_timer : Bool
  tcs_timer : Bool
  retransmission_timer : Nat → Option Nat × Nat
  state : session_state
  client : Bool
  heap : Nat → buffer_t
  heap_size : Nat
  waiting : List (Nat × Nat)
  timer_count : Nat
  rand : List Nat
  sent : List buffer_t
  called : List (send_cb × Bool)
  on_closed : Nat

/-- The constructor of `session`.  It leaves `out_of_sequence_count` and
`unacknowledged_packet_count` without an initial value: what they read as is given by
`oos` and `unack`.  The two configurations are default-constructed from `rand()`. -/
def session.new (oos unack : Nat) (rand : List Nat) : session :=
  { self_config := session_config.default (rand.getD 0 0)
    remote_config := session_config.default (rand.getD 1 0)
    receive_buffer := fun _ => none
    receive_head := 0
    send_buffer := fun _ => (none, send_cb.empty)
    send_head := 0
    acknowledge_head := 0
    out_of_sequence_count := oos
    unacknowledged_packet_count := unack
    pending := []
    cumulative_ack_count := 0
    cumulative_ack_timer := false
    null_segment_timer := false
    tcs_timer := false
    retransmission_timer := fun _ => (none, 0)
    state := session_state.initial
    client := false
    heap := fun _ => []
    heap_size := 0
    waiting := []
    timer_count := 0
    rand := rand.drop 2
    sent := []
    called := []
    on_closed := 0 }

/-- The outcome of a member function: the state reached and the exception thrown, if any. -/
structure result where
  s : session
  thrown : Option error

/-- Normal return. -/
def result.ok (s : session) : result := ⟨s, none⟩

/-- An exception leaving the function in state `s`. -/
def result.throw (s : session) (e : error) : result := ⟨s, some e⟩

/-- Sequencing: the continuation runs unless an exception is propagating. -/
def result.and_then (r : result) (f : session → result) : result :=
  match r.thrown with
  | none => f r.s
  | some _ => r

/-- The expression `new buffer_t( ... )` filled with `b`: a fresh address on the heap. -/
def allocate (s : session) (b : buffer_t) : session × Nat :=
  ({ s with heap := fun p => if p = s.heap_size then b else s.heap p
            heap_size := s.heap_size + 1 }, s.heap_size)

/-! ## Header predicates -/

/-- The test `buf[ 0 ] & mask`. -/
def flag (b : buffer_t) (mask : Nat) : Bool := (byte b 0 &&& mask) != 0

/-- The member `session::check_common_header`. -/
def check_common_header (incoming : buffer_t) : Bool :=
  let syn := flag incoming 0x80
  let ack := flag incoming 0x40
  let eak := flag incoming 0x20
  let rst := flag incoming 0x10
  let nul := flag incoming 0x08
  let tcs := flag incoming 0x02
  let role_count := 0
  let role_count := if syn then role_count + 1 else role_count
  let role_count := if eak then role_count + 1 else role_count
  let role_count := if rst then role_count + 1 else role_count
  let role_count := if nul then role_count + 1 else role_count
  let role_count := if tcs then role_count + 1 else role_count
  let role_count := if role_count == 0 && ack then role_count + 1 else role_count
  if (eak || nul) && !ack then false
  else role_count == 1

/-- The member `session::is_valid_sequence_number`. -/
def is_valid_sequence_number (s : session) (sequence_number : Nat) : Bool :=
  if sequence_number = (s.acknowledge_head + 256 - 1) % 256 then true
  else if s.acknowledge_head < s.send_head then
    decide (s.acknowledge_head ≤ sequence_number) && decide (sequence_number < s.send_head)
  else if s.send_head < s.acknowledge_head then
    decide (sequence_number < s.send_head) || decide (s.acknowledge_head ≤ sequence_number)
  else false

/-- The member `session::ready_to_send`; `send_head + 1` is computed in `int`. -/
def ready_to_send (s : session) : Bool :=
  decide (s.send_head + 1 ≠ s.acknowledge_head) &&
    decide (s.unacknowledged_packet_count ≤ s.remote_config.max_out_of_standing_segs)

/-! ## Timers -/

/-- One iteration of the loop of `clear_retransmission_timer`: cancel and release the timer of
slot `i`, and reset its attempt counter. -/
def clear_retransmission_timer_at (s : session) (i : Nat) : session :=
  match (s.retransmission_timer i).1 with
  | some t =>
    { s with waiting := s.waiting.filter (fun w => w.1 != t)
             retransmission_timer := fun j => if j = i then (none, 0) else s.retransmission_timer j }
  | none =>
    { s with retransmission_timer :=
               fun j => if j = i then (none, 0) else s.retransmission_timer j }

/-- The loop `for( uint8_t i = first; i != last; ++i )` of `clear_retransmission_timer`,
with the number of iterations left. -/
def clear_retransmission_timer_loop : Nat → session → Nat → session
  | 0, s, _ => s
  | n + 1, s, i => clear_retransmission_timer_loop n (clear_retransmission_timer_at s i) ((i + 1) % 256)

/-- The member `session::clear_retransmission_timer( first, last )`. -/
def clear_retransmission_timer (s : session) (first last : Nat) : session :=
  clear_retransmission_timer_loop ((last + 256 - first) % 256) s first

/-- The member `session::cancel_all_timers`. -/
def cancel_all_timers (s : session) : session :=
  let s := { s with cumulative_ack_timer := false }
  let s := { s with null_segment_timer := false }
  clear_retransmission_timer s 0 255

/-- The member `session::close`. -/
def close (s : session) : session :=
  let s := { s with state := session_state.opened }
  let s := cancel_all_timers s
  { s with on_closed := s.on_closed + 1 }

/-- The call `cb( status )` of a completion callback. -/
def invoke (s : session) (cb : send_cb) (status : Bool) : session :=
  let s := { s with called := s.called ++ [(cb, status)] }
  match cb with
  | send_cb.disconnect => close s
  | _ => s

/-- The loop `for( auto &cb: cbs ) cb( status )`. -/
def invoke_all (s : session) (cbs : List send_cb) (status : Bool) : session :=
  cbs.foldl (fun s cb => invoke s cb status) s

/-- The member `session::reset_cumulative_ack_counter`. -/
def reset_cumulative_ack_counter (s : session) : session :=
  { s with cumulative_ack_timer := false, cumulative_ack_count := 0 }

/-- The member `session::set_null_segment_timer`: cancels the current wait and starts one. -/
def set_null_segment_timer (s : session) : session :=
  { s with null_segment_timer := true }

/-- The member `session::set_retransmission_timer( slot )`, without the handler: a new timer
replaces the one of the slot and its wait is started.  The wait of the replaced timer stays
pending, its handler owns a copy of the pointer. -/
def set_retransmission_timer (s : session) (slot : Nat) : session :=
  { s with retransmission_timer :=
             fun j => if j = slot then (some s.timer_count, (s.retransmission_timer slot).2)
                      else s.retransmission_timer j
           waiting := s.waiting ++ [(s.timer_count, slot)]
           timer_count := s.timer_count + 1 }

/-! ## Segment generators -/

/-- Writing the listed values from position `pos` on: `std::copy` to `pos`, or a loop of
`*( iter++ ) = x`. -/
def write_from (b : buffer_t) : Nat → List Nat → buffer_t
  | _, [] => b
  | pos, x :: xs => write_from (b.set pos x) (pos + 1) xs

/-- The member `session::generate_ack()`. -/
def generate_ack (s : session) : session × Nat :=
  let buffer := new_buffer 6
  let buffer := buffer.set 0 0x40
  let buffer := buffer.set 1 6
  allocate s buffer

/-- The member template `session::generate_ack( begin, end )` framing a payload; the
constructor `buffer_t( 6 + size )` throws when `6 + size` exceeds the capacity. -/
def generate_ack_data (s : session) (payload : buffer_t) : Except error (session × Nat) :=
  let size := payload.length
  if 6 + size > buffer_size then .error error.bad_alloc
  else
    let buffer := new_buffer (6 + size)
    let buffer := buffer.set 0 0x40
    let buffer := buffer.set 1 6
    let buffer := write_from buffer 6 payload
    .ok (allocate s buffer)

/-- The member `session::generate_rst`. -/
def generate_rst (s : session) : session × Nat :=
  let buffer := new_buffer 6
  let buffer := buffer.set 0 0x10
  let buffer := buffer.set 1 6
  allocate s buffer

/-- The member `session::generate_nul`. -/
def generate_nul (s : session) : session × Nat :=
  let buffer := new_buffer 6
  let buffer := buffer.set 0 0x48
  let buffer := buffer.set 1 6
  allocate s buffer

/-- The member `session::generate_syn( ack )`. -/
def generate_syn (s : session) (ack : Bool) : Except error (session × Nat) :=
  let buffer := new_buffer 28
  let buffer := buffer.set 0 (if ack then 0xC0 else 0x80)
  let buffer := buffer.set 1 28
  match s.self_config.dump buffer 4 26 with
  | .ok buffer => .ok (allocate s buffer)
  | .error e => .error e

/-- The slots among `i, i + 1, ..., i + n - 1` of a ring whose pointer is not null. -/
def occupied_slots {α : Type} (ring : Nat → Option α) : Nat → Nat → List Nat
  | 0, _ => []
  | n + 1, i => if (ring i).isSome then i :: occupied_slots ring n (i + 1)
                else occupied_slots ring n (i + 1)

/-- The member `session::get_out_of_sequence_acknowlege_count`, declared to return `size_t`.
The source evaluates the `std::count_if` over the receive ring as an expression statement,
discards the value and reaches the closing brace without a `return` statement: the behaviour is
undefined from there on, and the call ends in `missing_return`. -/
def get_out_of_sequence_acknowlege_count (_s : session) : Except error Nat :=
  .error error.missing_return

/-- The member `session::generate_eak`; the statement after its `return` is never reached. -/
def generate_eak (s : session) : Except error (session × Nat) :=
  match get_out_of_sequence_acknowlege_count s with
  | .error e => .error e
  | .ok oos_ack_count =>
    let buffer := new_buffer (6 + oos_ack_count)
    let buffer := buffer.set 0 0x60
    let buffer := buffer.set 1 ((6 + oos_ack_count) % 256)
    let buffer := write_from buffer 4
      (occupied_slots s.receive_buffer (256 - s.receive_head) s.receive_head ++
        occupied_slots s.receive_buffer s.receive_head 0)
    .ok (allocate s buffer)

/-! ## Sending -/

/-- The callbacks `v.second` of the slots `i, ..., i + n - 1` of the send ring whose buffer
pointer `v.first` is not null, in slot order. -/
def occupied_callbacks (ring : Nat → Option Nat × send_cb) : Nat → Nat → List send_cb
  | 0, _ => []
  | n + 1, i => if (ring i).1.isSome then (ring i).2 :: occupied_callbacks ring n (i + 1)
                else occupied_callbacks ring n (i + 1)

/-- The `std::count_if` over the slots `i, ..., i + n - 1` of the send ring. -/
def count_occupied (ring : Nat → Option Nat × send_cb) : Nat → Nat → Nat
  | 0, _ => 0
  | n + 1, i => (if (ring i).1.isSome then 1 else 0) + count_occupied ring n (i + 1)

/-- The SYN branch of `session::send` (the statements under `if( syn )`): the callbacks of the
outstanding sends are captured, the send ring is emptied, `send_head` is drawn from `rand()`
and `self_config` is parsed back from the header.  The source takes `incoming` by reference;
`from_ring` tells that it refers to a slot of `send_buffer`, as in the call made by
`session::resend`: emptying the ring then nulls the very pointer that is dereferenced next. -/
def send_syn (s : session) (buf : buffer_t) (from_ring : Bool) :
    Except (session × error) (session × List send_cb) :=
  let header_size := byte buf 1
  let cbs := occupied_callbacks s.send_buffer 256 0
  let s := { s with send_buffer := fun i => (none, (s.send_buffer i).2) }
  let s := { s with send_head := s.rand.headD 0 % 256, rand := s.rand.tail }
  let s := { s with acknowledge_head := s.send_head }
  if from_ring then .error (s, error.null_dereference)
  else
    match session_config.parse buf 4 (header_size - 2) with
    | .error e => .error (s, e)
    | .ok c =>
      let s := { s with self_config := c }
      .ok ({ s with state := session_state.opened }, cbs)

/-- The header fields written by `session::send`: the CHK bit is set when a payload follows
the header and cleared otherwise, the sequence number is stored, and the acknowledgement number
`receive_head - 1` is stored when ACK is set. -/
def stamp_header (buf : buffer_t) (sequence_number receive_head : Nat) : buffer_t :=
  let ack := flag buf 0x40
  let header_size := byte buf 1
  let buf := if header_size != buf.length then buf.set 0 (byte buf 0 ||| 0x04)
             else buf.set 0 (byte buf 0 &&& 0xFB)
  let buf := buf.set 2 sequence_number
  if ack then buf.set 3 ((receive_head + 256 - 1) % 256) else buf

/-- The segment as `session::send` hands it to the socket: the header fields are written, the
checksum field is zeroed, and the checksum of the whole datagram is stored in it. -/
def stamp (buf : buffer_t) (sequence_number receive_head : Nat) : buffer_t :=
  let header_size := byte buf 1
  let buf := stamp_header buf sequence_number receive_head
  let buf := to_be16 buf (header_size - 2) 0
  let sum := checksum buf
  to_be16 buf (header_size - 2) sum

/-- The statements of `session::send` from `if( rst )` to the arming of the retransmission
timer: the segment `buf`, kept at address `p`, gets the sequence number `send_head++`, is
stamped, stored in the send ring and handed to the socket. -/
def send_transmit (s : session) (p : Nat) (buf : buffer_t) (cb : send_cb) : session :=
  let rst := flag buf 0x10
  let nul := flag buf 0x08
  let header_size := byte buf 1
  let has_data := header_size != buf.length
  let s := if rst then { s with state := session_state.closed } else s
  let sequence_number := s.send_head
  let s := { s with send_head := (s.send_head + 1) % 256 }
  let buf := stamp buf sequence_number s.receive_head
  let s := { s with send_buffer :=
                      fun i => if i = sequence_number then (some p, cb) else s.send_buffer i }
  let s := { s with heap := fun q => if q = p then buf else s.heap q }
  let s := { s with sent := s.sent ++ [buf] }
  let s := { s with unacknowledged_packet_count := (s.unacknowledged_packet_count + 1) % 2 ^ 64 }
  let s := reset_cumulative_ack_counter s
  let s := set_null_segment_timer s
  if has_data || nul || rst then set_retransmission_timer s sequence_number else s

/-- The body of `session::send( incoming, resend, cb )`; for `from_ring` see `send_syn`. -/
def send_body (s : session) (incoming : Option Nat) (resend : Bool) (cb : send_cb)
    (from_ring : Bool) : result :=
  match incoming with
  | none => result.ok (invoke s cb false)
  | some p =>
    let buf := s.heap p
    let syn := flag buf 0x80
    let tcs := flag buf 0x02
    if !resend && s.state != session_state.opened && !syn && !tcs then
      result.ok (invoke s cb false)
    else if !ready_to_send s then
      result.ok { s with pending := s.pending ++ [(some p, cb)] }
    else if !check_common_header buf then result.throw s error.invalid_packet
    else if byte buf 1 > buf.length then result.throw s error.invalid_packet
    else if byte buf 1 < 4 then result.throw s error.invalid_packet
    else
      match (if syn then send_syn s buf from_ring else .ok (s, [])) with
      | .error (s, e) => result.throw s e
      | .ok (s, cbs) => result.ok (invoke_all (send_transmit s p buf cb) cbs false)

/-- The member `session::send( incoming, resend, cb )` called with a pointer of the caller. -/
def send (s : session) (incoming : Option Nat) (resend : Bool) (cb : send_cb) : result :=
  send_body s incoming resend cb false

/-- The member template `session::send( begin, end, cb )` of the application. -/
def send_data (s : session) (payload : buffer_t) (cb : send_cb) : result :=
  match generate_ack_data s payload with
  | .error e => result.throw s e
  | .ok (s, p) => send s (some p) false cb

/-- The loop of `session::resend` from slot `seq` on, with the number of iterations left. -/
def resend_loop : Nat → session → Nat → result
  | 0, s, _ => result.ok s
  | n + 1, s, seq =>
    (if (s.send_buffer seq).1.isSome then
      send_body s (s.send_buffer seq).1 false (s.send_buffer seq).2 true
     else result.ok s).and_then (fun s => resend_loop n s ((seq + 1) % 256))

/-- The member `session::resend( first, last )`: `for( uint8_t seq = first; seq != last; ++seq )`. -/
def resend (s : session) (first last : Nat) : result :=
  resend_loop ((last + 256 - first) % 256) s first

/-- The member `session::connect( cb )`; `id` names the callback of the application. -/
def connect (s : session) (id : Nat) : result :=
  let s := { s with client := true }
  match generate_syn s false with
  | .error e => result.throw s e
  | .ok (s, p) => send s (some p) false (send_cb.connect id)

/-- The member `session::disconnect`. -/
def disconnect (s : session) : result :=
  let (s, p) := generate_rst s
  send s (some p) false send_cb.disconnect

/-- The member `session::increment_cumulative_ack_counter`, without the timer handler. -/
def increment_cumulative_ack_counter (s : session) : result :=
  let s := { s with cumulative_ack_count := (s.cumulative_ack_count + 1) % 2 ^ 64 }
  if s.cumulative_ack_count = 1 then result.ok { s with cumulative_ack_timer := true }
  else if s.cumulative_ack_count > s.self_config.max_cum_ack then
    let s := { s with cumulative_ack_timer := false }
    let s := { s with cumulative_ack_count := 0 }
    let (s, p) := generate_ack s
    send s (some p) false send_cb.ignore
  else result.ok s

/-! ## Receiving -/

/-- The call `std::find( first, receive_buffer.end(), buffer_ptr_t() )`: the first slot at or
after `i` that is null, among the next `n` slots, and `i + n` when there is none. -/
def find_null (ring : Nat → Option buffer_t) : Nat → Nat → Nat
  | 0, i => i
  | n + 1, i => if (ring i).isNone then i else find_null ring n (i + 1)

/-- The delivery loop of `update_receive_head` over the slots `i, ..., i + n - 1`: a segment is
appended to `received` when `size() > 2` and `size()` exceeds its header-length byte. -/
def deliver (ring : Nat → Option buffer_t) (received : List buffer_t) : Nat → Nat → List buffer_t
  | 0, _ => received
  | n + 1, i =>
    match ring i with
    | some b =>
      if b.length > 2 ∧ b.length > byte b 1 then deliver ring (received ++ [b]) n (i + 1)
      else deliver ring received n (i + 1)
    | none => deliver ring received n (i + 1)

/-- The call `std::fill( first, last, buffer_ptr_t() )` on a ring. -/
def fill_null {α : Type} (ring : Nat → Option α) (first last : Nat) : Nat → Option α :=
  fun i => if first ≤ i ∧ i < last then none else ring i

/-- The member `session::update_receive_head( received )`. -/
def update_receive_head (s : session) (received : List buffer_t) : session × List buffer_t :=
  let old_receive_head := s.receive_head
  let head_iter := s.receive_head
  let end_iter := find_null s.receive_buffer (256 - head_iter) head_iter
  let received := deliver s.receive_buffer received (end_iter - head_iter) head_iter
  let s := { s with receive_buffer := fill_null s.receive_buffer head_iter end_iter }
  let s := { s with receive_head := end_iter % 256 }
  let (s, received) :=
    if end_iter = 256 then
      let head_iter := 0
      let end_iter := find_null s.receive_buffer 256 head_iter
      let received := deliver s.receive_buffer received (end_iter - head_iter) head_iter
      let s := { s with receive_buffer := fill_null s.receive_buffer head_iter end_iter }
      ({ s with receive_head := end_iter % 256 }, received)
    else (s, received)
  if old_receive_head = s.receive_head then
    ({ s with out_of_sequence_count := (s.out_of_sequence_count + 1) % 256 }, received)
  else ({ s with out_of_sequence_count := 0 }, received)

/-- The `std::for_each` of `update_ack` over the slots `[ first, last )` of the send ring:
`v.first = buffer_ptr_t()`. -/
def release (ring : Nat → Option Nat × send_cb) (first last : Nat) : Nat → Option Nat × send_cb :=
  fun i => if first ≤ i ∧ i < last then (none, (ring i).2) else ring i

/-- The member `session::update_ack( new_acknowledge_head )`. -/
def update_ack (s : session) (new_acknowledge_head : Nat) : session × List send_cb :=
  if new_acknowledge_head = (s.acknowledge_head + 256 - 1) % 256 then (s, [])
  else if !is_valid_sequence_number s new_acknowledge_head then (s, [])
  else
    let new_acknowledge_head := (new_acknowledge_head + 1) % 256
    let (s, acknowledged_count, cbs) :=
      if s.acknowledge_head < new_acknowledge_head then
        let acknowledged_count :=
          count_occupied s.send_buffer (new_acknowledge_head - s.acknowledge_head) s.acknowledge_head
        let cbs :=
          occupied_callbacks s.send_buffer (new_acknowledge_head - s.acknowledge_head)
            s.acknowledge_head
        ({ s with send_buffer := release s.send_buffer s.acknowledge_head new_acknowledge_head },
          acknowledged_count, cbs)
      else if s.acknowledge_head > new_acknowledge_head then
        let acknowledged_count :=
          count_occupied s.send_buffer (256 - s.acknowledge_head) s.acknowledge_head
        let acknowledged_count :=
          acknowledged_count + count_occupied s.send_buffer new_acknowledge_head 0
        let cbs := occupied_callbacks s.send_buffer (256 - s.acknowledge_head) s.acknowledge_head
        let s := { s with send_buffer := release s.send_buffer s.acknowledge_head 256 }
        let cbs := cbs ++ occupied_callbacks s.send_buffer new_acknowledge_head 0
        ({ s with send_buffer := release s.send_buffer 0 new_acknowledge_head },
          acknowledged_count, cbs)
      else (s, 0, [])
    let s := { s with unacknowledged_packet_count :=
                        (s.unacknowledged_packet_count + 2 ^ 64 - acknowledged_count) % 2 ^ 64 }
    let s := clear_retransmission_timer s s.acknowledge_head new_acknowledge_head
    ({ s with acknowledge_head := new_acknowledge_head }, cbs)

/-- The member `session::update_eak( begin, end )` over the listed sequence numbers. -/
def update_eak : session → List Nat → List send_cb → session × List send_cb
  | s, [], cbs => (s, cbs)
  | s, x :: rest, cbs =>
    if is_valid_sequence_number s x && (s.send_buffer x).1.isSome then
      let cb := (s.send_buffer x).2
      let s := { s with send_buffer := fun i => if i = x then (none, cb) else s.send_buffer i }
      let s := { s with unacknowledged_packet_count :=
                          (s.unacknowledged_packet_count + 2 ^ 64 - 1) % 2 ^ 64 }
      let s := clear_retransmission_timer s x ((x + 1) % 256)
      update_eak s rest (cbs ++ [cb])
    else update_eak s rest cbs

/-- The loop `while( ready_to_send() && !pending.empty() )` at the end of `receive`, with the
number of iterations left. -/
def send_pending : Nat → session → result
  | 0, s => result.ok s
  | n + 1, s =>
    if ready_to_send s then
      match s.pending with
      | [] => result.ok s
      | front :: _ =>
        (send s front.1 true front.2).and_then
          (fun s => send_pending n { s with pending := s.pending.tail })
    else result.ok s

/-- The outcome of `session::receive`: the state, the content of the output iterator
`received` and the exception thrown, if any. -/
structure receive_result where
  s : session
  received : List buffer_t
  thrown : Option error

/-- The datagram after `to_be16( std::next( incoming->data(), header_size - 2 ), 0 )`: the
receiver zeroes the two checksum bytes in place before anything else is read. -/
def zero_checksum (incoming : buffer_t) : buffer_t :=
  to_be16 incoming (byte incoming 1 - 2) 0

/-- The checksum test of `session::receive`: the sum read from the last two header bytes
equals the sum recomputed, with those bytes zeroed, over the whole datagram when CHK is set and
over the header otherwise. -/
def checksum_ok (incoming : buffer_t) : Bool :=
  let chk := flag incoming 0x04
  let header_size := byte incoming 1
  let expected_sum := from_be16 incoming (header_size - 2)
  let zeroed := zero_checksum incoming
  let sum := checksum (if chk then zeroed else zeroed.take header_size)
  expected_sum == sum

/-- The SYN branch of `session::receive` (the statements under `if( syn )`); `incoming` has its
checksum bytes zeroed. -/
def receive_syn (s : session) (incoming : buffer_t) : Except (session × error) session :=
  let header_size := byte incoming 1
  let sequence_number := byte incoming 2
  if !s.client && s.state != session_state.initial then .error (s, error.invalid_packet)
  else
    let s := { s with receive_buffer := fun _ => none }
    let s := { s with receive_head := sequence_number }
    match session_config.parse incoming 4 (header_size - 2) with
    | .error e => .error (s, e)
    | .ok c =>
      let s := { s with remote_config := c }
      let s := { s with self_config := s.self_config.merge s.remote_config }
      let s := { s with remote_config := s.remote_config.merge s.self_config }
      .ok { s with state := session_state.opened }

/-- The TCS branch of `session::receive` (the statements under `if( tcs )`). -/
def receive_tcs (s : session) (incoming : buffer_t) : session :=
  let sequence_number := byte incoming 2
  let adj := byte incoming 4
  if adj ≠ 0 then
    let s := { s with receive_head := sequence_number }
    let copied := s.receive_buffer
    { s with receive_buffer := fun j => copied ((j + 256 - adj) % 256) }
  else s

/-- The answer of `session::receive` to a SYN: a SYN-ACK to a SYN without ACK, a plain ACK to a
SYN with ACK. -/
def answer_syn (s : session) (syn ack : Bool) : result :=
  (if syn && !ack then
    match generate_syn s true with
    | .error e => result.throw s e
    | .ok (s, p) => send s (some p) false send_cb.ignore
   else result.ok s).and_then fun s =>
  if syn && ack then send (generate_ack s).1 (some (generate_ack s).2) false send_cb.ignore
  else result.ok s

/-- The EAK branch of `session::receive` (the statements under `if( eak && header_size > 6 )`):
the listed slots are released, then everything from `acknowledge_head` up to the last listed
sequence number is sent again. -/
def receive_eak (s : session) (incoming : buffer_t) (cbs : List send_cb) :
    result × List send_cb :=
  let header_size := byte incoming 1
  let u := update_eak s ((incoming.take (header_size - 2)).drop 4) cbs
  (resend u.1 u.1.acknowledge_head (byte incoming (header_size - 3)), u.2)

/-- The answer of `session::receive` to a NUL segment and the extended acknowledgement sent
when `out_of_sequence_count` has reached `max_out_of_seq`. -/
def answer_nul_eak (s : session) (nul : Bool) : result :=
  (if nul then send (generate_ack s).1 (some (generate_ack s).2) false send_cb.ignore
   else result.ok s).and_then fun s =>
  if s.out_of_sequence_count ≥ s.self_config.max_out_of_seq then
    match generate_eak s with
    | .error e => result.throw s e
    | .ok (s, p) => send s (some p) false send_cb.ignore
  else result.ok s

/-- The part of `session::receive` after `update_receive_head`: acknowledgement processing,
the answers of the session, the deferred sends and the captured completion callbacks.
The datagram `incoming` has its checksum bytes zeroed. -/
def receive_tail (s : session) (incoming : buffer_t) : result :=
  let syn := flag incoming 0x80
  let ack := flag incoming 0x40
  let eak := flag incoming 0x20
  let nul := flag incoming 0x08
  let tcs := flag incoming 0x02
  let header_size := byte incoming 1
  let has_data := header_size != incoming.length
  let u := if ack then update_ack s (byte incoming 3) else (s, [])
  (answer_syn u.1 syn ack).and_then fun s =>
  (if has_data || tcs then increment_cumulative_ack_counter s else result.ok s).and_then fun s =>
  let e := if eak && header_size > 6 then receive_eak s incoming u.2 else (result.ok s, u.2)
  e.1.and_then fun s =>
  (answer_nul_eak s nul).and_then fun s =>
  (send_pending s.pending.length s).and_then fun s =>
  result.ok (invoke_all s e.2 true)

/-- The statements of `session::receive` from the duplicate test on; `incoming` has its checksum
bytes zeroed. -/
def receive_store (s : session) (incoming : buffer_t) (received : List buffer_t) :
    receive_result :=
  let sequence_number := byte incoming 2
  if (s.receive_buffer sequence_number).isSome then ⟨s, received, none⟩
  else
    let s := { s with receive_buffer :=
                        fun i => if i = sequence_number then some incoming
                                 else s.receive_buffer i }
    let u := update_receive_head s received
    let r := receive_tail u.1 incoming
    ⟨r.s, u.2, r.thrown⟩

/-- The member `session::receive( incoming, received )`.  The datagram is passed by value:
the caller hands over a buffer of its own for every datagram. -/
def receive (s : session) (incoming : Option buffer_t) (received : List buffer_t) :
    receive_result :=
  match incoming with
  | none => ⟨s, received, none⟩
  | some incoming =>
    let syn := flag incoming 0x80
    let ack := flag incoming 0x40
    let tcs := flag incoming 0x02
    if !check_common_header incoming then ⟨s, received, some error.invalid_packet⟩
    else if byte incoming 1 > incoming.length then ⟨s, received, some error.invalid_packet⟩
    else if byte incoming 1 < 4 then ⟨s, received, some error.invalid_packet⟩
    else if !checksum_ok incoming then ⟨s, received, some error.invalid_packet⟩
    else
      let incoming := zero_checksum incoming
      if ack && !is_valid_sequence_number s (byte incoming 3) then
        ⟨s, received, some error.invalid_packet⟩
      else
        match (if syn then receive_syn s incoming else .ok s) with
        | .error (s, e) => ⟨s, received, some e⟩
        | .ok s =>
          let s := if tcs then receive_tcs s incoming else s
          receive_store s incoming received

/-! ## Timer handlers -/

/-- The handler installed by `set_retransmission_timer( slot )`, run when the wait of timer
`t` completes without error. -/
def retransmission_timeout (s : session) (t slot : Nat) : result :=
  if (t, slot) ∈ s.waiting then
    let s := { s with waiting := s.waiting.filter (fun w => w != (t, slot)) }
    (resend s slot ((slot + 1) % 256)).and_then fun s =>
    let s := { s with retransmission_timer :=
                        fun j => if j = slot then ((s.retransmission_timer slot).1,
                                                  ((s.retransmission_timer slot).2 + 1) % 2 ^ 64)
                                 else s.retransmission_timer j }
    if (s.retransmission_timer slot).2 > s.self_config.max_retrans then result.ok (close s)
    else result.ok (set_retransmission_timer s slot)
  else result.ok s

/-- The handler installed by `increment_cumulative_ack_counter`, run on expiry. -/
def cumulative_ack_timeout (s : session) : result :=
  if s.cumulative_ack_timer then
    let s := { s with cumulative_ack_timer := false }
    let s := { s with cumulative_ack_count := 0 }
    let (s, p) := generate_ack s
    send s (some p) false send_cb.ignore
  else result.ok s

/-- The member `session::wait_for_tcs`, without the timer handler. -/
def wait_for_tcs (s : session) : session :=
  let s := { s with state := session_state.broken }
  { s with tcs_timer := true }

/-- The handler installed by `set_null_segment_timer`, run on expiry. -/
def null_segment_timeout (s : session) : result :=
  if s.null_segment_timer then
    let s := { s with null_segment_timer := false }
    if s.client then
      if s.state = session_state.opened then
        let (s, p) := generate_nul s
        send s (some p) false send_cb.ignore
      else result.ok s
    else result.ok (wait_for_tcs s)
  else result.ok s

/-- The handler installed by `wait_for_tcs`, run on expiry. -/
def tcs_timeout (s : session) : result :=
  if s.tcs_timer then result.ok (close { s with tcs_timer := false })
  else result.ok s

/-! ## Definitions used in the statements and proofs -/

/-- Two session states with the same receive ring and the same `receive_head`. -/
def same_receive_side (s' s : session) : Prop :=
  s'.receive_buffer = s.receive_buffer ∧ s'.receive_head = s.receive_head

/-- The test of the delivery loop of `update_receive_head`: the segment carries a payload. -/
def deliverable (b : buffer_t) : Bool := decide (b.length > 2 ∧ b.length > byte b 1)

/-- Successive calls of `session::receive`, one for every datagram of the list, each with an
output container of its own, as the demultiplexer makes them. -/
def receive_all (s : session) : List buffer_t → List receive_result
  | [] => []
  | d :: ds => receive s (some d) [] :: receive_all (receive s (some d) []).s ds

/-- A data segment with sequence number `seq`: neither SYN nor TCS, a header of at least five
bytes (the sequence number lies before the checksum field) and a payload that is not empty. -/
def is_data_segment (d : buffer_t) (seq : Nat) : Prop :=
  flag d 0x80 = false ∧ flag d 0x02 = false ∧ 5 ≤ byte d 1 ∧ byte d 1 < d.length ∧
    byte d 2 = seq

instance (d : buffer_t) (seq : Nat) : Decidable (is_data_segment d seq) := by
  unfold is_data_segment; infer_instance

/-- The state of the receive side after the segments numbered by `A` have arrived, the first
`m` of them having been delivered: `receive_head` stands at segment `m`, which has not arrived,
and the ring holds exactly the arrived segments from `m` on. -/
def reorder_inv (h0 : Nat) (Z : Nat → buffer_t) (s : session) (A : List Nat) (m : Nat) : Prop :=
  (∀ j, j < m → j ∈ A) ∧ m ∉ A ∧ s.receive_head = (h0 + m) % 256 ∧
  (∀ j, j ∈ A → m ≤ j → s.receive_buffer ((h0 + j) % 256) = some (Z j)) ∧
  (∀ i, i < 256 → (∀ j, j ∈ A → m ≤ j → (h0 + j) % 256 ≠ i) → s.receive_buffer i = none)

/-- Three data segments (flags ACK and CHK, a header of six bytes, acknowledgement number 255)
with the sequence numbers 0, 1 and 2 and the payloads `1 2 3`, `4 5` and `7 8`. -/
def reorder_example : Nat → buffer_t
  | 0 => [68, 6, 0, 255, 182, 248, 1, 2, 3]
  | 1 => [68, 6, 1, 255, 181, 245, 4, 5]
  | _ => [68, 6, 2, 255, 177, 242, 7, 8]

/-- A data segment (flags ACK and CHK, a header of six bytes, acknowledgement number 255) with
the given sequence number and payload, its checksum filled in. -/
def data_segment (seq : Nat) (payload : buffer_t) : buffer_t :=
  to_be16 ([0x44, 6, seq, 255, 0, 0] ++ payload) 4
    (checksum ([0x44, 6, seq, 255, 0, 0] ++ payload))

/-- The datagrams of a peer that sends the segment 0 twice and then the segments 1 to 255,
once each and in order. -/
def duplicate_trace : List buffer_t :=
  data_segment 0 [7] :: data_segment 0 [7] ::
    (List.range' 1 255).map (fun j => data_segment j [j])

/-- The members of the session that a completion callback leaves alone: calling `close()`
touches the state, the timers and the on-closed hook only. -/
def transfer_view (s : session) :=
  (s.self_config, s.remote_config, s.receive_buffer, s.receive_head, s.send_buffer, s.send_head,
    s.acknowledge_head, s.out_of_sequence_count, s.unacknowledged_packet_count, s.pending,
    s.cumulative_ack_count, s.client, s.heap, s.heap_size, s.rand, s.sent)

/-- A client session after `connect`: state Opened, `send_head` 11, `acknowledge_head` 10. -/
def opened_example : session := (connect (session.new 0 0 [1, 2, 10]) 0).s

/-- The session `opened_example` with a framed data segment of payload `1 2 3` at address 1. -/
def framed_example : session := (allocate opened_example [64, 6, 0, 0, 0, 0, 1, 2, 3]).1

/-- The callbacks of the occupied slots among the `len` slots of the send ring that start at
`acknowledge_head`, in wraparound order. -/
def window_callbacks (s : session) (len : Nat) : List send_cb :=
  (List.range len).filterMap
    (fun t => if (s.send_buffer ((s.acknowledge_head + t) % 256)).1.isSome = true
              then some (s.send_buffer ((s.acknowledge_head + t) % 256)).2 else none)

/-- The session `opened_example` after the application has sent the payloads `1`, `2` and `3`:
the SYN and the three data segments occupy the slots 10 to 13 of the send ring. -/
def window_example : session :=
  (send_data (send_data (send_data opened_example [1] (send_cb.user 1)).s [2]
    (send_cb.user 2)).s [3] (send_cb.user 3)).s

/-- A buffer with its checksum field, which is zero, filled in: the datagram of a peer. -/
def with_checksum (b : buffer_t) : buffer_t := to_be16 b (byte b 1 - 2) (checksum b)

/-- The SYN-ACK of a peer that draws the sequence number 20, acknowledges the SYN numbered 3 and
advertises `limit` as its `max_out_of_standing_segs`, the other parameters being the defaults. -/
def peer_syn_ack (limit : Nat) : buffer_t :=
  with_checksum ([0xC0, 28, 20, 3, 0x10, limit, 2, 0, 5, 70, 3, 232, 1, 244, 3, 232, 3, 232,
    3, 32, 32, 0, 0, 0, 0, 9, 0, 0])

/-- The plain ACK of the peer, numbered 21, that acknowledges sequence number 4. -/
def peer_ack : buffer_t := with_checksum [0x40, 6, 21, 4, 0, 0]

/-- The EAK of the peer, numbered 22, with acknowledgement number 4 and the listed sequence
numbers as its body. -/
def peer_eak (listed : List Nat) : buffer_t :=
  with_checksum ([0x60, 6 + listed.length, 22, 4] ++ listed ++ [0, 0])

/-- The payload `[ n ]` sent by the application, with a callback of its own. -/
def send_number (s : session) (n : Nat) : session := (send_data s [n] (send_cb.user n)).s

/-- A client whose SYN is numbered 3 and whose peer advertises the limit `limit`: it connects,
receives the SYN-ACK (and answers with the ACK numbered 4), sends the payloads 5, 6 and 7,
receives the ACK of the peer for sequence number 4 and sends the payload 8.  The segments 5, 6,
7 and 8 are then outstanding and `acknowledge_head` is 5. -/
def eak_example (limit : Nat) : session :=
  send_number (receive (send_number (send_number (send_number
    (receive (connect (session.new 0 0 [1, 2, 3]) 0).s (some (peer_syn_ack limit)) []).s
      5) 6) 7) (some peer_ack) []).s 8

/-- The occupied slots of the send ring. -/
def occupied (s : session) : List Nat :=
  (List.range 256).filter (fun i => (s.send_buffer i).1.isSome)

/-- A client after the handshake with a peer that advertises the default limit: the SYN was
numbered 3, the ACK that completed the handshake 4, `send_head` is 5 and `max_retrans` is 3. -/
def connected_example : session :=
  (receive (connect (session.new 0 0 [1, 2, 3]) 0).s (some (peer_syn_ack 64)) []).s

/-- The session `connected_example` after the application has sent the payload `7`: the data
segment is numbered 5 and the retransmission timer of slot 5 is armed. -/
def retransmission_example : session := send_number connected_example 7

/-- The expiry of the retransmission timer that was armed first among those still waiting. -/
def expire_first (s : session) : session :=
  match s.waiting with
  | (t, slot) :: _ => (retransmission_timeout s t slot).s
  | [] => s

/-- The expiry of the retransmission timer of the given slot. -/
def expire_slot (slot : Nat) (s : session) : session :=
  match s.waiting.filter (fun w => w.2 == slot) with
  | (t, _) :: _ => (retransmission_timeout s t slot).s
  | [] => s

/-- The given number of expiries, each of the timer that was armed first. -/
def expire_rounds : Nat → session → session
  | 0, s => s
  | n + 1, s => expire_rounds n (expire_first s)

/-- The datagrams that the session has transmitted since the handshake of `connected_example`. -/
def transmitted_since_handshake (s : session) : List buffer_t :=
  s.sent.drop connected_example.sent.length

/-- The SYN segment built by `generate_syn` from the configuration `c`, written out: flags,
header length 28, two bytes for the sequence and acknowledgement numbers, the 22 bytes of the
configuration record and the checksum field. -/
def syn_segment (c : session_config) (ack : Bool) : buffer_t :=
  [if ack then 0xC0 else 0x80, 28, 0, 0,
    0x10, c.max_out_of_standing_segs % 256, c.option_flags % 256, 0,
    (c.maximum_segment_size >>> 8) % 256, c.maximum_segment_size % 256,
    (c.retransmission_timeout_value >>> 8) % 256, c.retransmission_timeout_value % 256,
    (c.cumulative_ack_timeout_value >>> 8) % 256, c.cumulative_ack_timeout_value % 256,
    (c.null_segment_timeout_value >>> 8) % 256, c.null_segment_timeout_value % 256,
    (c.transfer_state_timeout_value >>> 8) % 256, c.transfer_state_timeout_value % 256,
    c.max_retrans % 256, c.max_cum_ack % 256, c.max_out_of_seq % 256, c.max_auto_reset % 256,
    (c.connection_identifier >>> 24) % 256, (c.connection_identifier >>> 16) % 256,
    (c.connection_identifier >>> 8) % 256, c.connection_identifier % 256, 0, 0]

/-- The fields of a configuration fit the widths of their types. -/
def session_config.in_range (c : session_config) : Prop :=
  c.max_out_of_standing_segs < 256 ∧ c.option_flags < 256 ∧ c.maximum_segment_size < 65536 ∧
  c.retransmission_timeout_value < 65536 ∧ c.cumulative_ack_timeout_value < 65536 ∧
  c.null_segment_timeout_value < 65536 ∧ c.transfer_state_timeout_value < 65536 ∧
  c.max_retrans < 256 ∧ c.max_cum_ack < 256 ∧ c.max_out_of_seq < 256 ∧
  c.max_auto_reset < 256 ∧ c.connection_identifier < 2 ^ 32

/-- The state in which `session::send` transmits a SYN: the send ring emptied, `send_head` and
`acknowledge_head` drawn from `rand()`, `self_config` read back from the segment, state
Opened. -/
def syn_state (s : session) (c : session_config) : session :=
  { s with send_buffer := fun i => (none, (s.send_buffer i).2)
           send_head := s.rand.headD 0 % 256
           rand := s.rand.tail
           acknowledge_head := s.rand.headD 0 % 256
           self_config := c
           state := session_state.opened }

/-- The segment built by `generate_ack()`. -/
def ack_segment : buffer_t := [0x40, 6, 0, 0, 0, 0]

/-- The state in which `session::receive` has taken in a SYN with sequence number `seq` and
configuration `c`, after the walk of `update_receive_head`: the receive ring emptied,
`receive_head` past the SYN, the configurations merged, state Opened. -/
def syn_received (s : session) (c : session_config) (seq : Nat) : session :=
  { s with receive_buffer := fun _ => none
           receive_head := (seq + 1) % 256
           out_of_sequence_count := 0
           remote_config := c.merge (s.self_config.merge c)
           self_config := s.self_config.merge c
           state := session_state.opened }

/-- The configuration `c` is the pointwise minimum of the proposals `p` and `q` in every timeout
and every `max_*` field. -/
def negotiated (p q c : session_config) : Prop :=
  c.max_out_of_standing_segs = min p.max_out_of_standing_segs q.max_out_of_standing_segs ∧
  c.retransmission_timeout_value =
    min p.retransmission_timeout_value q.retransmission_timeout_value ∧
  c.cumulative_ack_timeout_value =
    min p.cumulative_ack_timeout_value q.cumulative_ack_timeout_value ∧
  c.null_segment_timeout_value = min p.null_segment_timeout_value q.null_segment_timeout_value ∧
  c.transfer_state_timeout_value =
    min p.transfer_state_timeout_value q.transfer_state_timeout_value ∧
  c.max_retrans = min p.max_retrans q.max_retrans ∧
  c.max_cum_ack = min p.max_cum_ack q.max_cum_ack ∧
  c.max_out_of_seq = min p.max_out_of_seq q.max_out_of_seq ∧
  c.max_auto_reset = min p.max_auto_reset q.max_auto_reset

/-- The role-bit rule in the words of the specification: exactly one of the role bits SYN, EAK,
RST, NUL and TCS is set, or none of them is set and ACK is set; and EAK or NUL being set
implies that ACK is set. -/
def role_bit_rule (F : Nat) : Prop :=
  ((([0x80, 0x20, 0x10, 0x08, 0x02].filter (fun m => F &&& m != 0)).length = 1) ∨
    (([0x80, 0x20, 0x10, 0x08, 0x02].filter (fun m => F &&& m != 0)).length = 0 ∧
      F &&& 0x40 ≠ 0)) ∧
  ((F &&& 0x20 ≠ 0 ∨ F &&& 0x08 ≠ 0) → F &&& 0x40 ≠ 0)

instance (F : Nat) : Decidable (role_bit_rule F) := by
  unfold role_bit_rule; infer_instance

/-- The flow-control predicate in the words of the specification: the first conjunct is
evaluated in 8-bit wraparound arithmetic. -/
def ready_to_send_wraparound (s : session) : Bool :=
  decide ((s.send_head + 1) % 256 ≠ s.acknowledge_head) &&
    decide (s.unacknowledged_packet_count ≤ s.remote_config.max_out_of_standing_segs)

/-- A session whose send window spans 255 slots: `acknowledge_head` 5, `send_head` 4. -/
def full_window_example : session :=
  { session.new 0 0 [] with acknowledge_head := 5, send_head := 4 }

/-- A session whose send window holds one segment: `acknowledge_head` 10, `send_head` 11. -/
def single_window_example : session :=
  { session.new 0 0 [] with acknowledge_head := 10, send_head := 11 }

/-- A session with `send_head` 255 and `acknowledge_head` 0. -/
def wrap_example : session :=
  { session.new 0 0 [] with acknowledge_head := 0, send_head := 255 }

/-- A receive side with `receive_head` 254 whose ring holds segments in the slots 254, 255, 0
and 2: the occupied run at `receive_head` wraps and ends before the gap at slot 1. -/
def wrapping_run_example : session :=
  { session.new 0 0 [] with
    receive_head := 254
    receive_buffer := fun i =>
      if i = 254 ∨ i = 255 ∨ i = 0 ∨ i = 2 then some [0x44, 6, i, 0, 0, 0, 9] else none }

/-- A client after `connect` whose SYN is numbered 0: `acknowledge_head` 0, `send_head` 1; the
acknowledgement numbers 255 and 0 pass `is_valid_sequence_number`. -/
def syn_sent_example : session := (connect (session.new 0 0 [1, 2, 0]) 0).s

/-- A datagram of four bytes: ACK alone, header length 4, so that the sequence and
acknowledgement numbers are at the same time the checksum field; the two bytes hold the checksum
0xBFFB of the header with the field zeroed. -/
def overlapping_ack : buffer_t := [0x40, 4, 0xBF, 0xFB]

/-- A SYN of six bytes: the configuration record is missing. -/
def short_syn : buffer_t := with_checksum [0x80, 6, 0, 0, 0, 0]

/-- The session `retransmission_example` (payload `7` outstanding in slot 5 with the callback
`user 7`) after the retransmission timer of slot 5 has expired once and the acknowledgement of
the peer for sequence number 6 has arrived. -/
def acknowledged_after_retransmission : receive_result :=
  receive (expire_slot 5 retransmission_example) (some (with_checksum [0x40, 6, 21, 6, 0, 0])) []

/-- A client whose peer advertises the limit 1: it connects (SYN numbered 3), receives the
SYN-ACK and answers with the ACK numbered 4, and sends the payload 5. -/
def limited_example : session :=
  send_number
    (receive (connect (session.new 0 0 [1, 2, 3]) 0).s (some (peer_syn_ack 1)) []).s 5

/-- The session `limited_example` after the EAK of the peer that acknowledges the sequence
number 4 and lists the sequence number 5 has arrived and the application has sent the payloads
6 and 7. -/
def window_overrun_example : session :=
  send_number (send_number (receive limited_example (some (peer_eak [5])) []).s 6) 7

/-- The sum of the big-endian 16-bit words of a byte sequence, an odd trailing byte `b` counting
as `b * 256`. -/
def word_sum : buffer_t → Nat
  | b0 :: b1 :: rest => (b0 * 256 + b1) + word_sum rest
  | [b0] => b0 * 256
  | [] => 0

/-- The reference definition of the checksum: with `r` the word sum modulo 65535, the value
0xFFFF when `r = 0` and `0xFFFF - r` otherwise. -/
def checksum_reference (B : buffer_t) : Nat :=
  if word_sum B % 65535 = 0 then 0xFFFF else 0xFFFF - word_sum B % 65535

/-- The accumulator of `rudp::checksum` before it is complemented: the words, then the odd
trailing byte. -/
def checksum_accumulator (b : buffer_t) (sum : Nat) : Nat :=
  if b.length % 2 ≠ 0 then checksum_add (checksum_words b sum) ((byte b (b.length - 1)) <<< 8)
  else checksum_words b sum

/-- The 22 bytes that `session_config::dump` writes, as the code computes them. -/
def config_record (c : session_config) : buffer_t :=
  [0x10, c.max_out_of_standing_segs % 256, c.option_flags % 256, 0,
    (c.maximum_segment_size >>> 8) % 256, c.maximum_segment_size % 256,
    (c.retransmission_timeout_value >>> 8) % 256, c.retransmission_timeout_value % 256,
    (c.cumulative_ack_timeout_value >>> 8) % 256, c.cumulative_ack_timeout_value % 256,
    (c.null_segment_timeout_value >>> 8) % 256, c.null_segment_timeout_value % 256,
    (c.transfer_state_timeout_value >>> 8) % 256, c.transfer_state_timeout_value % 256,
    c.max_retrans % 256, c.max_cum_ack % 256, c.max_out_of_seq % 256, c.max_auto_reset % 256,
    (c.connection_identifier >>> 24) % 256, (c.connection_identifier >>> 16) % 256,
    (c.connection_identifier >>> 8) % 256, c.connection_identifier % 256]

/-- The wire layout of the configuration record in the words of the specification: the marker,
two bytes, a reserved zero byte, five big-endian 16-bit values, four bytes and a big-endian
32-bit value. -/
def wire_layout (c : session_config) : buffer_t :=
  [0x10, c.max_out_of_standing_segs, c.option_flags, 0x00,
    c.maximum_segment_size / 256, c.maximum_segment_size % 256,
    c.retransmission_timeout_value / 256, c.retransmission_timeout_value % 256,
    c.cumulative_ack_timeout_value / 256, c.cumulative_ack_timeout_value % 256,
    c.null_segment_timeout_value / 256, c.null_segment_timeout_value % 256,
    c.transfer_state_timeout_value / 256, c.transfer_state_timeout_value % 256,
    c.max_retrans, c.max_cum_ack, c.max_out_of_seq, c.max_auto_reset,
    c.connection_identifier / 2 ^ 24, c.connection_identifier / 2 ^ 16 % 256,
    c.connection_identifier / 2 ^ 8 % 256, c.connection_identifier % 256]

/-- The SYN-ACK of a peer that draws the sequence number 20, acknowledges the SYN numbered 3 and
advertises `m` as its `max_cum_ack`, the other parameters being the defaults. -/
def peer_syn_ack_cum (m : Nat) : buffer_t :=
  with_checksum [0xC0, 28, 20, 3, 0x10, 64, 2, 0, 5, 70, 3, 232, 1, 244, 3, 232, 3, 232, 3, m, 32,
    0, 0, 0, 0, 9, 0, 0]

/-- A data segment of the peer (flags ACK and CHK, a header of six bytes, acknowledgement
number 3) with the given sequence number and payload. -/
def peer_data (seq : Nat) (payload : buffer_t) : buffer_t :=
  with_checksum ([0x44, 6, seq, 3, 0, 0] ++ payload)

/-- A client after the handshake with a peer that advertises `m` as `max_cum_ack`: the client
has sent its SYN (numbered 3) and the ACK that completes the handshake (numbered 4), and
`receive_head` is 21. -/
def delayed_ack_example (m : Nat) : session :=
  (receive (connect (session.new 0 0 [1, 2, 3]) 0).s (some (peer_syn_ack_cum m)) []).s

/-- The outcomes of `receive` for the first `n` data segments of the peer, numbered from 21 on,
arriving in order at `delayed_ack_example m`. -/
def delayed_ack_trace (m n : Nat) : List receive_result :=
  receive_all (delayed_ack_example m) ((List.range n).map (fun i => peer_data (21 + i) [i]))

/-- The session `window_example` (the SYN in slot 10 and three data segments in the slots 11 to
13 outstanding) with a new SYN segment built by `generate_syn` at address 4. -/
def collision_example : session :=
  (allocate window_example (syn_segment (session_config.default 1) false)).1

/-- The peer address `boost::asio::ip::udp::endpoint`, a key of the map `sessions`. -/
abbrev endpoint := Nat

/-- The two maps of `class rudp_server` and the log of the callbacks that the server invokes
itself.  An entry of `sessions` is absent (`none`), holds a null `shared_ptr` (`some none`, as
`sessions[ *from ]` creates it) or a live session. -/
structure rudp_server where
  sessions : endpoint → Option (Option session)
  session_bindings : Nat → Option endpoint
  called : List (send_cb × Bool)

/-- The member template `rudp_server::send( session_id, begin, end, cb )`, with the exception
that leaves the session's `send`, if any. -/
def rudp_server.send (srv : rudp_server) (session_id : Nat) (payload : buffer_t)
    (cb : send_cb) : rudp_server × Option error :=
  match srv.session_bindings session_id with
  | some ep =>
    match srv.sessions ep with
    | some (some sess) =>
      ({ srv with sessions := fun e => if e = ep then some (some (send_data sess payload cb).s)
                                       else srv.sessions e },
        (send_data sess payload cb).thrown)
    | _ => ({ srv with called := srv.called ++ [(cb, false)] }, none)
  | none => ({ srv with called := srv.called ++ [(cb, false)] }, none)

/-- A server with the live session `opened_example` for the endpoint 7, bound to the connection
identifier 1, a null entry for the endpoint 8, bound to the identifier 2, and the identifier 3
bound to the endpoint 9, which has no entry. -/
def server_example : rudp_server :=
  { sessions := fun e => if e = 7 then some (some opened_example)
                         else if e = 8 then some none else none
    session_bindings := fun i => if i = 1 then some 7 else if i = 2 then some 8
                                 else if i = 3 then some 9 else none
    called := [] }

/-- The SYN (without ACK) of a peer that draws the sequence number 20 and advertises the default
parameters. -/
def peer_syn : buffer_t :=
  with_checksum [0x80, 28, 20, 0, 0x10, 64, 2, 0, 5, 70, 3, 232, 1, 244, 3, 232, 3, 232, 3, 32,
    32, 0, 0, 0, 0, 9, 0, 0]

/-- A simultaneous open: a fresh session (both counters 0) calls `connect`, which transmits a
SYN numbered 10, and then receives the SYN of the peer, which it answers with a SYN-ACK
numbered 30. -/
def simultaneous_open_example : receive_result :=
  receive (connect (session.new 0 0 [1, 2, 10, 30]) 0).s (some peer_syn) []

/-- A SYN of the peer, numbered 7, whose configuration record has the right length and starts
with the byte 0x11 instead of the marker 0x10; the checksum is correct. -/
def bad_marker_syn : buffer_t :=
  with_checksum [0x80, 28, 7, 0, 0x11, 64, 2, 0, 5, 70, 3, 232, 1, 244, 3, 232, 3, 232, 3, 32,
    32, 0, 0, 0, 0, 9, 0, 0]

/-- The session `connected_example` (a client after the handshake, `receive_head` 21) after the
data segment numbered 22 of the peer has arrived ahead of the segment 21: it waits in slot 22
of the receive ring. -/
def buffered_example : session :=
  (receive connected_example (some (peer_data 22 [9])) []).s

/-- The SYN-ACK of a peer that draws the sequence number 20, carries the acknowledgement number
255 and advertises 255 as its `max_out_of_standing_segs`. -/
def peer_syn_ack_255 : buffer_t :=
  with_checksum [0xC0, 28, 20, 255, 0x10, 255, 2, 0, 5, 70, 3, 232, 1, 244, 3, 232, 3, 232, 3, 32,
    32, 0, 0, 0, 0, 9, 0, 0]

/-- The application sends `n` payloads of one byte, one after the other. -/
def send_numbers : Nat → session → session
  | 0, s => s
  | n + 1, s => send_numbers n (send_number s n)

/-- A client whose SYN is numbered 0 (`syn_sent_example`) receives the SYN-ACK
`peer_syn_ack_255`, answers with the ACK numbered 1, and sends 254 payloads. -/
def full_ring_example : session :=
  send_numbers 254 (receive syn_sent_example (some peer_syn_ack_255) []).s

/-- The send window in the words of the specification: slot `i` lies in
`[acknowledge_head, send_head)` modulo 256. -/
def in_send_window (s : session) (i : Nat) : Bool :=
  decide ((i + 256 - s.acknowledge_head) % 256 < (s.send_head + 256 - s.acknowledge_head) % 256)

/-- The bytes that the constructor `session_config( begin, end )` reads, as indices into the
buffer: none when the distance is not 22, the marker alone when it is not 0x10, and otherwise
the record without its fourth byte, which `++iter` skips. -/
def session_config.accesses (b : buffer_t) (first last : Nat) : List Nat :=
  if (last : Int) - (first : Int) ≠ 22 then []
  else if byte b first ≠ 0x10 then [first]
  else [first, first + 1, first + 2] ++ List.range' (first + 4) 18

/-- The indices at which `session::receive` accesses the datagram after the checksum test, in
program order along the path that the call takes: `(*incoming)[ 2 ]`, `(*incoming)[ 3 ]` of the
acknowledgement test, the bytes read by the constructor of `session_config` under `if( syn )`,
`(*incoming)[ 4 ]` under `if( tcs )`, `(*incoming)[ 3 ]` of `update_ack`, and under
`if( eak && header_size > 6 )` the range `[ 4, header_size - 2 )` walked by `update_eak` and the
element `header_size - 3`.  The datagram `incoming` has its checksum bytes zeroed. -/
def receive_accesses (s : session) (incoming : buffer_t) : List Nat :=
  let syn := flag incoming 0x80
  let ack := flag incoming 0x40
  let eak := flag incoming 0x20
  let tcs := flag incoming 0x02
  let header_size := byte incoming 1
  let has_data := header_size != incoming.length
  let a := [2]
  let a := if ack then a ++ [3] else a
  if ack && !is_valid_sequence_number s (byte incoming 3) then a
  else
    let a := if syn && !(!s.client && s.state != session_state.initial) then
               a ++ session_config.accesses incoming 4 (header_size - 2)
             else a
    match (if syn then receive_syn s incoming else .ok s) with
    | .error _ => a
    | .ok s =>
      let a := if tcs then a ++ [4] else a
      let s := if tcs then receive_tcs s incoming else s
      if (s.receive_buffer (byte incoming 2)).isSome then a
      else
        let s := { s with receive_buffer :=
                            fun i => if i = byte incoming 2 then some incoming
                                     else s.receive_buffer i }
        let u := update_receive_head s []
        let a := if ack then a ++ [3] else a
        let v := if ack then update_ack u.1 (byte incoming 3) else (u.1, [])
        let r := (answer_syn v.1 syn ack).and_then fun s =>
          if has_data || tcs then increment_cumulative_ack_counter s else result.ok s
        if r.thrown.isSome then a
        else if eak && header_size > 6 then
          a ++ List.range' 4 (header_size - 6) ++ [header_size - 3]
        else a

/-- A TCS segment of four bytes: header length 4, the checksum 0xFDFB of the header in the bytes
2 and 3, and no byte at offset 4. -/
def short_tcs : buffer_t := with_checksum [0x02, 4, 0, 0]

/-- An RST segment of four bytes: header length 4, so that the bytes 2 and 3 are at the same
time the sequence and acknowledgement numbers and the checksum field; they hold the checksum
0xEFFB of the header with the field zeroed. -/
def overlapping_rst : buffer_t := [0x10, 4, 0xEF, 0xFB]

/-- The sequence number that `receive` uses for a datagram: byte 2 as it arrived when the header
has at least five bytes, and 0 for a header of four bytes, where byte 2 belongs to the checksum
field. -/
def sequence_number_used (d : buffer_t) : Nat := if 5 ≤ byte d 1 then byte d 2 else 0

/-- The acknowledgement number that `receive` uses for a datagram: byte 3 as it arrived when the
header has at least six bytes, and 0 for a header of four or five bytes, where byte 3 belongs to
the checksum field. -/
def acknowledgement_number_used (d : buffer_t) : Nat := if 6 ≤ byte d 1 then byte d 3 else 0

/-- A client whose peer advertises the limit 1 completes the handshake and calls `disconnect`:
the RST is transmitted, the state is Closed, and with two segments counted as outstanding
`ready_to_send` is false. -/
def closed_example : session :=
  (disconnect (receive (connect (session.new 0 0 [1, 2, 3]) 0).s (some (peer_syn_ack 1)) []).s).s

/-- The session `limited_example` (limit 1, the ACK numbered 4 and the payload 5 outstanding,
`ready_to_send` false) after the application has sent the payloads 6 and 7, which wait in
`pending`, and has framed the payload 8 at address 5. -/
def queued_example : session :=
  (allocate (send_number (send_number limited_example 6) 7) [64, 6, 0, 0, 0, 0, 8]).1

/-- The plain ACK of the peer, numbered 21, that acknowledges sequence number 5. -/
def peer_ack_5 : buffer_t := with_checksum [0x40, 6, 21, 5, 0, 0]

/-- The datagram `d` is the pending entry `e` as `send` transmits it from the state `s`: the
segment at the address held by `e`, stamped with some sequence number. -/
def transmitted_as (s : session) (e : Option Nat × send_cb) (d : buffer_t) : Prop :=
  e ∈ s.pending ∧ ∃ p seq, e.1 = some p ∧ d = stamp (s.heap p) seq s.receive_head

/-- A data segment of the peer (flags ACK and CHK, a header of six bytes) with the given
sequence number, acknowledgement number and payload. -/
def peer_data_ack (seq ack : Nat) (payload : buffer_t) : buffer_t :=
  with_checksum ([0x44, 6, seq, ack, 0, 0] ++ payload)

/-- The session `connected_example` (`receive_head` 21, the ACK numbered 4 outstanding) after
the application has sent the payloads 5 and 6: `acknowledge_head` is 4, `send_head` is 7 and the
receive ring is empty. -/
def two_outstanding_example : session := send_number (send_number connected_example 5) 6

/-! # Lemmas and theorems -/

/-! ## The receive side is not touched by the send side -/

theorem same_receive_side.trans {a b c : session} (h1 : same_receive_side a b)
    (h2 : same_receive_side b c) : same_receive_side a c :=
  ⟨h1.1.trans h2.1, h1.2.trans h2.2⟩

theorem clear_retransmission_timer_at_rx (s : session) (i : Nat) :
    same_receive_side (clear_retransmission_timer_at s i) s := by
  unfold clear_retransmission_timer_at
  split <;> exact ⟨rfl, rfl⟩

theorem clear_retransmission_timer_loop_rx (n : Nat) (s : session) (i : Nat) :
    same_receive_side (clear_retransmission_timer_loop n s i) s := by
  induction n generalizing s i with
  | zero => exact ⟨rfl, rfl⟩
  | succ n ih =>
    exact (ih _ _).trans (clear_retransmission_timer_at_rx s i)

theorem clear_retransmission_timer_rx (s : session) (a b : Nat) :
    same_receive_side (clear_retransmission_timer s a b) s :=
  clear_retransmission_timer_loop_rx _ _ _

theorem close_rx (s : session) : same_receive_side (close s) s := by
  simp only [close, cancel_all_timers, same_receive_side]
  rw [(clear_retransmission_timer_rx _ 0 255).1, (clear_retransmission_timer_rx _ 0 255).2]
  exact ⟨rfl, rfl⟩

theorem invoke_rx (s : session) (cb : send_cb) (b : Bool) : same_receive_side (invoke s cb b) s := by
  unfold invoke
  split
  · exact (close_rx _).trans ⟨rfl, rfl⟩
  · exact ⟨rfl, rfl⟩

theorem invoke_all_rx (cbs : List send_cb) (s : session) (b : Bool) :
    same_receive_side (invoke_all s cbs b) s := by
  unfold invoke_all
  induction cbs generalizing s with
  | nil => exact ⟨rfl, rfl⟩
  | cons c cs ih => exact (ih _).trans (invoke_rx s c b)

theorem send_syn_rx (s s' : session) (buf : buffer_t) (fr : Bool) (cbs : List send_cb)
    (h : send_syn s buf fr = .ok (s', cbs)) : same_receive_side s' s := by
  simp only [send_syn] at h
  split at h
  · cases h
  · split at h
    · cases h
    · cases h; exact ⟨rfl, rfl⟩

theorem send_syn_rx_error (s s' : session) (buf : buffer_t) (fr : Bool) (e : error)
    (h : send_syn s buf fr = .error (s', e)) : same_receive_side s' s := by
  simp only [send_syn] at h
  split at h
  · cases h; exact ⟨rfl, rfl⟩
  · split at h
    · cases h; exact ⟨rfl, rfl⟩
    · cases h

theorem send_transmit_rx (s : session) (p : Nat) (buf : buffer_t) (cb : send_cb) :
    same_receive_side (send_transmit s p buf cb) s := by
  simp only [send_transmit, reset_cumulative_ack_counter, set_null_segment_timer,
    set_retransmission_timer]
  split_ifs <;> exact ⟨rfl, rfl⟩

theorem send_body_rx (s : session) (p : Option Nat) (r : Bool) (cb : send_cb) (fr : Bool) :
    same_receive_side (send_body s p r cb fr).s s := by
  unfold send_body
  split
  · exact invoke_rx _ _ _
  · simp only
    split_ifs
    · exact invoke_rx _ _ _
    · exact ⟨rfl, rfl⟩
    · exact ⟨rfl, rfl⟩
    · exact ⟨rfl, rfl⟩
    · exact ⟨rfl, rfl⟩
    · split
      · rename_i h; exact send_syn_rx_error _ _ _ _ _ h
      · rename_i h
        exact ((invoke_all_rx _ _ _).trans (send_transmit_rx _ _ _ _)).trans
          (send_syn_rx _ _ _ _ _ h)
    · split
      · rename_i h; cases h
      · rename_i h; cases h
        exact (invoke_all_rx _ _ _).trans (send_transmit_rx _ _ _ _)

theorem and_then_rx (r : result) (f : session → result) (s0 : session)
    (hr : same_receive_side r.s s0) (hf : ∀ s, same_receive_side (f s).s s) :
    same_receive_side (r.and_then f).s s0 := by
  unfold result.and_then
  split
  · exact (hf _).trans hr
  · exact hr

theorem send_rx (s : session) (p : Option Nat) (r : Bool) (cb : send_cb) :
    same_receive_side (send s p r cb).s s := send_body_rx _ _ _ _ _

theorem allocate_rx (s : session) (b : buffer_t) : same_receive_side (allocate s b).1 s :=
  ⟨rfl, rfl⟩

theorem generate_ack_rx (s : session) : same_receive_side (generate_ack s).1 s := ⟨rfl, rfl⟩

theorem generate_eak_rx (s s' : session) (p : Nat) (h : generate_eak s = .ok (s', p)) :
    same_receive_side s' s := by
  simp only [generate_eak, get_out_of_sequence_acknowlege_count] at h
  cases h

theorem generate_syn_rx (s s' : session) (a : Bool) (p : Nat)
    (h : generate_syn s a = .ok (s', p)) : same_receive_side s' s := by
  simp only [generate_syn] at h
  split at h
  · cases h; exact ⟨rfl, rfl⟩
  · cases h

theorem resend_loop_rx (n : Nat) (s : session) (seq : Nat) :
    same_receive_side (resend_loop n s seq).s s := by
  induction n generalizing s seq with
  | zero => exact ⟨rfl, rfl⟩
  | succ n ih =>
    unfold resend_loop
    refine and_then_rx _ _ _ ?_ (fun s => ih _ _)
    split
    · exact send_body_rx _ _ _ _ _
    · exact ⟨rfl, rfl⟩

theorem resend_rx (s : session) (a b : Nat) : same_receive_side (resend s a b).s s :=
  resend_loop_rx _ _ _

theorem increment_cumulative_ack_counter_rx (s : session) :
    same_receive_side (increment_cumulative_ack_counter s).s s := by
  simp only [increment_cumulative_ack_counter]
  split_ifs
  · exact ⟨rfl, rfl⟩
  · exact (send_rx _ _ _ _).trans ⟨rfl, rfl⟩
  · exact ⟨rfl, rfl⟩

theorem update_ack_rx (s : session) (n : Nat) : same_receive_side (update_ack s n).1 s := by
  simp only [update_ack]
  split_ifs
  · exact ⟨rfl, rfl⟩
  · exact ⟨rfl, rfl⟩
  · exact (clear_retransmission_timer_rx _ _ _).trans ⟨rfl, rfl⟩
  · exact (clear_retransmission_timer_rx _ _ _).trans ⟨rfl, rfl⟩
  · exact (clear_retransmission_timer_rx _ _ _).trans ⟨rfl, rfl⟩

theorem update_eak_rx (xs : List Nat) (s : session) (cbs : List send_cb) :
    same_receive_side (update_eak s xs cbs).1 s := by
  induction xs generalizing s cbs with
  | nil => exact ⟨rfl, rfl⟩
  | cons x xs ih =>
    simp only [update_eak]
    split_ifs
    · exact (ih _ _).trans ((clear_retransmission_timer_rx _ _ _).trans ⟨rfl, rfl⟩)
    · exact ih _ _

theorem send_pending_rx (n : Nat) (s : session) : same_receive_side (send_pending n s).s s := by
  induction n generalizing s with
  | zero => exact ⟨rfl, rfl⟩
  | succ n ih =>
    unfold send_pending
    split_ifs
    · split
      · exact ⟨rfl, rfl⟩
      · exact and_then_rx _ _ _ (send_rx _ _ _ _) (fun s => (ih _).trans ⟨rfl, rfl⟩)
    · exact ⟨rfl, rfl⟩

theorem answer_syn_rx (s : session) (syn ack : Bool) :
    same_receive_side (answer_syn s syn ack).s s := by
  unfold answer_syn
  refine and_then_rx _ _ _ ?_ ?_
  · split_ifs
    · split
      · exact ⟨rfl, rfl⟩
      · rename_i h; exact (send_rx _ _ _ _).trans (generate_syn_rx _ _ _ _ h)
    · exact ⟨rfl, rfl⟩
  · intro s
    split_ifs
    · exact (send_rx _ _ _ _).trans (generate_ack_rx _)
    · exact ⟨rfl, rfl⟩

theorem receive_eak_rx (s : session) (incoming : buffer_t) (cbs : List send_cb) :
    same_receive_side (receive_eak s incoming cbs).1.s s := by
  simp only [receive_eak]
  exact (resend_rx _ _ _).trans (update_eak_rx _ _ _)

theorem answer_nul_eak_rx (s : session) (nul : Bool) :
    same_receive_side (answer_nul_eak s nul).s s := by
  unfold answer_nul_eak
  refine and_then_rx _ _ _ ?_ ?_
  · split_ifs
    · exact (send_rx _ _ _ _).trans (generate_ack_rx _)
    · exact ⟨rfl, rfl⟩
  · intro s
    split_ifs
    · split
      · exact ⟨rfl, rfl⟩
      · rename_i h
        exact (send_rx _ _ _ _).trans (generate_eak_rx _ _ _ h)
    · exact ⟨rfl, rfl⟩

theorem receive_tail_rx (s : session) (incoming : buffer_t) :
    same_receive_side (receive_tail s incoming).s s := by
  simp only [receive_tail]
  refine and_then_rx _ _ _ ?_ ?_
  · refine (answer_syn_rx _ _ _).trans ?_
    split_ifs
    · exact update_ack_rx _ _
    · exact ⟨rfl, rfl⟩
  · intro s1
    refine and_then_rx _ _ _ ?_ ?_
    · split_ifs
      · exact increment_cumulative_ack_counter_rx _
      · exact ⟨rfl, rfl⟩
    · intro s2
      refine and_then_rx _ _ _ ?_ ?_
      · by_cases he : (flag incoming 0x20 && decide (byte incoming 1 > 6)) = true
        · rw [if_pos he]; exact receive_eak_rx _ _ _
        · rw [if_neg he]; exact ⟨rfl, rfl⟩
      · intro s3
        refine and_then_rx _ _ _ (answer_nul_eak_rx _ _) ?_
        intro s4
        refine and_then_rx _ _ _ (send_pending_rx _ _) ?_
        intro s5
        exact invoke_all_rx _ _ _

theorem find_null_run (ring : Nat → Option buffer_t) (n i r : Nat) (hr : r ≤ n)
    (hocc : ∀ t, t < r → (ring (i + t)).isSome = true)
    (hend : r < n → ring (i + r) = none) : find_null ring n i = i + r := by
  induction n generalizing i r with
  | zero =>
    have : r = 0 := by omega
    subst this; rfl
  | succ n ih =>
    unfold find_null
    cases r with
    | zero =>
      have h0 : ring i = none := by simpa using hend (by omega)
      simp [h0]
    | succ r =>
      have h0 : (ring i).isSome = true := by simpa using hocc 0 (by omega)
      have h1 : (ring i).isNone = false := by
        cases hi : ring i with
        | none => simp [hi] at h0
        | some b => rfl
      rw [h1]
      simp only [Bool.false_eq_true, if_false]
      rw [ih (i + 1) r (by omega)]
      · omega
      · intro t ht
        have := hocc (t + 1) (by omega)
        rwa [show i + 1 + t = i + (t + 1) by omega]
      · intro hlt
        have := hend (by omega)
        rwa [show i + 1 + r = i + (r + 1) by omega]

theorem deliver_eq (ring : Nat → Option buffer_t) (n : Nat) (received : List buffer_t) (i : Nat) :
    deliver ring received n i =
      received ++ (List.range n).filterMap (fun t => (ring (i + t)).filter deliverable) := by
  induction n generalizing received i with
  | zero => simp [deliver]
  | succ n ih =>
    unfold deliver
    rw [List.range_succ_eq_map, List.filterMap_cons, List.filterMap_map]
    have hshift : (fun t => (ring (i + t)).filter deliverable) ∘ Nat.succ
        = fun t => (ring (i + 1 + t)).filter deliverable := by
      funext t
      simp only [Function.comp, Nat.succ_eq_add_one]
      rw [show i + (t + 1) = i + 1 + t by omega]
    rw [hshift]
    cases hi : ring i with
    | none => simp [ih, hi, Option.filter]
    | some b =>
      by_cases hb : b.length > 2 ∧ b.length > byte b 1
      · simp [ih, hi, hb, Option.filter, deliverable]
      · simp [ih, hi, hb, Option.filter, deliverable]

theorem update_receive_head_straight (s : session) (received : List buffer_t) (e : Nat)
    (he : find_null s.receive_buffer (256 - s.receive_head) s.receive_head = e)
    (hne : e ≠ 256) :
    (update_receive_head s received).1.receive_head = e % 256 ∧
    (update_receive_head s received).1.receive_buffer =
      fill_null s.receive_buffer s.receive_head e ∧
    (update_receive_head s received).2 =
      deliver s.receive_buffer received (e - s.receive_head) s.receive_head := by
  simp only [update_receive_head, he, hne, if_false]
  split_ifs <;> exact ⟨rfl, rfl, rfl⟩

theorem update_receive_head_wrapped (s : session) (received : List buffer_t)
    (he : find_null s.receive_buffer (256 - s.receive_head) s.receive_head = 256) :
    (update_receive_head s received).1.receive_head =
      find_null (fill_null s.receive_buffer s.receive_head 256) 256 0 % 256 ∧
    (update_receive_head s received).1.receive_buffer =
      fill_null (fill_null s.receive_buffer s.receive_head 256) 0
        (find_null (fill_null s.receive_buffer s.receive_head 256) 256 0) ∧
    (update_receive_head s received).2 =
      deliver (fill_null s.receive_buffer s.receive_head 256)
        (deliver s.receive_buffer received (256 - s.receive_head) s.receive_head)
        (find_null (fill_null s.receive_buffer s.receive_head 256) 256 0 - 0) 0 := by
  simp only [update_receive_head, he, if_true]
  split_ifs <;> exact ⟨rfl, rfl, rfl⟩

/-- The effect of `update_receive_head` on a ring whose occupied run at `receive_head` has
length `r`, counted around the ring. -/
theorem update_receive_head_run (s : session) (received : List buffer_t) (r : Nat)
    (hh : s.receive_head < 256) (hr : r ≤ 255)
    (hocc : ∀ t, t < r → (s.receive_buffer ((s.receive_head + t) % 256)).isSome = true)
    (hend : s.receive_buffer ((s.receive_head + r) % 256) = none) :
    (update_receive_head s received).1.receive_head = (s.receive_head + r) % 256 ∧
    (∀ i, (update_receive_head s received).1.receive_buffer i =
      if i < 256 ∧ (i + 256 - s.receive_head) % 256 < r then none else s.receive_buffer i) ∧
    (update_receive_head s received).2 =
      received ++ (List.range r).filterMap
        (fun t => (s.receive_buffer ((s.receive_head + t) % 256)).filter deliverable) := by
  by_cases hw : s.receive_head + r < 256
  · have he : find_null s.receive_buffer (256 - s.receive_head) s.receive_head
        = s.receive_head + r := by
      apply find_null_run _ _ _ _ (by omega)
      · intro t ht
        have := hocc t ht
        rwa [Nat.mod_eq_of_lt (by omega)] at this
      · intro _
        rwa [Nat.mod_eq_of_lt hw] at hend
    obtain ⟨h1, h2, h3⟩ := update_receive_head_straight s received _ he (by omega)
    refine ⟨h1, ?_, ?_⟩
    · intro i
      rw [h2]
      simp only [fill_null]
      by_cases hi : s.receive_head ≤ i ∧ i < s.receive_head + r
      · rw [if_pos hi, if_pos]
        omega
      · rw [if_neg hi, if_neg]
        omega
    · rw [h3, deliver_eq]
      congr 1
      rw [show s.receive_head + r - s.receive_head = r by omega]
      apply List.filterMap_congr
      intro t ht
      rw [Nat.mod_eq_of_lt (by have := List.mem_range.mp ht; omega)]
  · have he : find_null s.receive_buffer (256 - s.receive_head) s.receive_head = 256 := by
      rw [find_null_run _ _ _ (256 - s.receive_head) (le_refl _)]
      · omega
      · intro t ht
        have := hocc t (by omega)
        rwa [Nat.mod_eq_of_lt (by omega)] at this
      · intro h; omega
    have he2 : find_null (fill_null s.receive_buffer s.receive_head 256) 256 0
        = s.receive_head + r - 256 := by
      rw [find_null_run _ _ _ (s.receive_head + r - 256) (by omega)]
      · omega
      · intro t ht
        have := hocc (256 - s.receive_head + t) (by omega)
        rw [show (s.receive_head + (256 - s.receive_head + t)) % 256 = t by omega] at this
        simp only [fill_null, Nat.zero_add]
        rwa [if_neg (by omega)]
      · intro _
        simp only [fill_null, Nat.zero_add]
        rw [if_neg (by omega)]
        rwa [show (s.receive_head + r) % 256 = s.receive_head + r - 256 by omega] at hend
    obtain ⟨h1, h2, h3⟩ := update_receive_head_wrapped s received he
    rw [he2] at h1 h2 h3
    refine ⟨by rw [h1]; omega, ?_, ?_⟩
    · intro i
      rw [h2]
      simp only [fill_null]
      by_cases hi : i < 256 ∧ (i + 256 - s.receive_head) % 256 < r
      · rw [if_pos hi]
        by_cases h0 : 0 ≤ i ∧ i < s.receive_head + r - 256
        · rw [if_pos h0]
        · rw [if_neg h0, if_pos]
          omega
      · rw [if_neg hi, if_neg (by omega), if_neg (by omega)]
    · rw [h3, deliver_eq, deliver_eq, List.append_assoc]
      congr 1
      have hsplit : r = (256 - s.receive_head) + (s.receive_head + r - 256) := by omega
      conv_rhs => rw [hsplit, List.range_add, List.filterMap_append, List.filterMap_map]
      have e1 : (List.range (256 - s.receive_head)).filterMap
            (fun t => (s.receive_buffer (s.receive_head + t)).filter deliverable) =
          (List.range (256 - s.receive_head)).filterMap
            (fun t => (s.receive_buffer ((s.receive_head + t) % 256)).filter deliverable) := by
        apply List.filterMap_congr
        intro t ht
        rw [Nat.mod_eq_of_lt (by have := List.mem_range.mp ht; omega)]
      have e2 : (List.range (s.receive_head + r - 256 - 0)).filterMap
            (fun t => ((fill_null s.receive_buffer s.receive_head 256) (0 + t)).filter
              deliverable) =
          (List.range (s.receive_head + r - 256)).filterMap
            ((fun t => (s.receive_buffer ((s.receive_head + t) % 256)).filter deliverable) ∘
              fun x => 256 - s.receive_head + x) := by
        rw [Nat.sub_zero]
        apply List.filterMap_congr
        intro t ht
        have ht := List.mem_range.mp ht
        simp only [Function.comp, fill_null, Nat.zero_add]
        rw [if_neg (by omega)]
        rw [show (s.receive_head + (256 - s.receive_head + t)) % 256 = t by omega]
      rw [e1, e2]

theorem zero_checksum_length (d : buffer_t) : (zero_checksum d).length = d.length := by
  simp [zero_checksum, to_be16]

theorem byte_set_ne (b : buffer_t) (i j v : Nat) (h : i ≠ j) : byte (b.set i v) j = byte b j := by
  simp [byte, List.getD_eq_getElem?_getD, List.getElem?_set_ne h]

theorem zero_checksum_byte (d : buffer_t) (i : Nat) (h : i + 2 < byte d 1) :
    byte (zero_checksum d) i = byte d i := by
  unfold zero_checksum to_be16
  rw [byte_set_ne _ _ _ _ (by omega), byte_set_ne _ _ _ _ (by omega)]

/-- An accepted datagram that is neither SYN nor TCS and whose slot is free is stored, with its
checksum bytes zeroed, and `update_receive_head` decides what is delivered. -/
theorem receive_data (s : session) (d : buffer_t) (received : List buffer_t)
    (hsyn : flag d 0x80 = false) (htcs : flag d 0x02 = false)
    (hacc : (receive s (some d) received).thrown = none)
    (hfree : s.receive_buffer (byte (zero_checksum d) 2) = none) :
    (receive s (some d) received).received =
      (update_receive_head
        { s with receive_buffer :=
                   fun i => if i = byte (zero_checksum d) 2 then some (zero_checksum d)
                            else s.receive_buffer i } received).2 ∧
    same_receive_side (receive s (some d) received).s
      (update_receive_head
        { s with receive_buffer :=
                   fun i => if i = byte (zero_checksum d) 2 then some (zero_checksum d)
                            else s.receive_buffer i } received).1 := by
  simp only [receive, hsyn, htcs, Bool.false_eq_true, if_false] at hacc ⊢
  split_ifs at hacc ⊢
  simp only [receive_store, hfree, Option.isSome_none, Bool.false_eq_true, if_false]
  exact ⟨trivial, receive_tail_rx _ _⟩

theorem is_data_segment_deliverable (d : buffer_t) (seq : Nat) (h : is_data_segment d seq) :
    deliverable (zero_checksum d) = true := by
  obtain ⟨_, _, h5, hlen, _⟩ := h
  have h1 : byte (zero_checksum d) 1 = byte d 1 := zero_checksum_byte d 1 (by omega)
  simp only [deliverable, zero_checksum_length, h1, decide_eq_true_eq]
  omega

theorem is_data_segment_slot (d : buffer_t) (seq : Nat) (h : is_data_segment d seq) :
    byte (zero_checksum d) 2 = seq := by
  obtain ⟨_, _, h5, _, hseq⟩ := h
  rw [zero_checksum_byte d 2 (by omega), hseq]

theorem reorder_step (h0 k : Nat) (seg : Nat → buffer_t) (s : session) (A : List Nat)
    (m j : Nat) (hk : k ≤ 255) (hA : ∀ a, a ∈ A → a < k) (hj : j < k)
    (hjA : j ∉ A) (hseg : ∀ i, i < k → is_data_segment (seg i) ((h0 + i) % 256))
    (hinv : reorder_inv h0 (fun i => zero_checksum (seg i)) s A m)
    (hacc : (receive s (some (seg j)) []).thrown = none) :
    ∃ m', m ≤ m' ∧
      reorder_inv h0 (fun i => zero_checksum (seg i)) (receive s (some (seg j)) []).s (j :: A) m' ∧
      (receive s (some (seg j)) []).received =
        (List.range' m (m' - m)).map (fun i => zero_checksum (seg i)) := by
  obtain ⟨i1, i2, i3, i4, i5⟩ := hinv
  have hmk : m ≤ k := by
    by_contra hc
    have := hA k (i1 k (by omega))
    omega
  have hmj : m ≤ j := by
    by_contra hc
    exact hjA (i1 j (by omega))
  have hslot : byte (zero_checksum (seg j)) 2 = (h0 + j) % 256 :=
    is_data_segment_slot _ _ (hseg j hj)
  have hfree : s.receive_buffer (byte (zero_checksum (seg j)) 2) = none := by
    rw [hslot]
    apply i5 _ (Nat.mod_lt _ (by norm_num))
    intro a ha _ heq
    have hak := hA a ha
    have : a = j := by omega
    exact hjA (this ▸ ha)
  obtain ⟨hrec, hring, hhead⟩ :=
    receive_data s (seg j) [] (hseg j hj).1 (hseg j hj).2.1 hacc hfree
  rw [hslot] at hrec hring hhead
  generalize hs1 : ({ s with receive_buffer :=
      fun i => if i = (h0 + j) % 256 then some (zero_checksum (seg j))
               else s.receive_buffer i } : session) = s1 at hrec hring hhead
  have hs1head : s1.receive_head = (h0 + m) % 256 := by rw [← hs1]; exact i3
  have hs1ring : ∀ i, s1.receive_buffer i =
      if i = (h0 + j) % 256 then some (zero_checksum (seg j)) else s.receive_buffer i := by
    intro i; rw [← hs1]
  -- the next missing segment once `j` has arrived
  have hex : ∃ n, n ∉ j :: A := ⟨k, by
    intro hmem
    rcases List.mem_cons.mp hmem with h | h
    · omega
    · have := hA k h; omega⟩
  obtain ⟨m', hm'1, hm'2⟩ : ∃ m', m' ∉ j :: A ∧ ∀ n, n < m' → n ∈ j :: A :=
    ⟨Nat.find hex, Nat.find_spec hex, fun n hn => by
      by_contra hc; exact Nat.find_min hex hn hc⟩
  have hmm' : m ≤ m' := by
    by_contra hc
    exact hm'1 (List.mem_cons_of_mem _ (i1 m' (by omega)))
  have hm'k : m' ≤ k := by
    by_contra hc
    have hkin := hm'2 k (by omega)
    rcases List.mem_cons.mp hkin with h | h
    · omega
    · have := hA k h; omega
  have hlt : ∀ a, a ∈ j :: A → a < k := by
    intro a ha
    rcases List.mem_cons.mp ha with h | h
    · omega
    · exact hA a h
  -- the ring with segment `j` stored
  have hF : ∀ n, n ∈ j :: A → m ≤ n →
      s1.receive_buffer ((h0 + n) % 256) = some (zero_checksum (seg n)) := by
    intro n hn hmn
    rw [hs1ring]
    rcases List.mem_cons.mp hn with h | h
    · subst h; rw [if_pos rfl]
    · have hnk := hA n h
      have hne : n ≠ j := fun e => hjA (e ▸ h)
      rw [if_neg (by omega)]
      exact i4 n h hmn
  have hG : ∀ i, i < 256 → (∀ n, n ∈ j :: A → m ≤ n → (h0 + n) % 256 ≠ i) →
      s1.receive_buffer i = none := by
    intro i hi hall
    rw [hs1ring, if_neg (fun e => hall j (List.mem_cons_self _ _) hmj e.symm)]
    exact i5 i hi (fun n hn hmn => hall n (List.mem_cons_of_mem _ hn) hmn)
  obtain ⟨u1, u2, u3⟩ := update_receive_head_run s1 [] (m' - m)
    (by rw [hs1head]; exact Nat.mod_lt _ (by norm_num)) (by omega)
    (by
      intro t ht
      rw [hs1head, show ((h0 + m) % 256 + t) % 256 = (h0 + (m + t)) % 256 by omega,
        hF (m + t) (hm'2 _ (by omega)) (by omega)]
      rfl)
    (by
      rw [hs1head, show ((h0 + m) % 256 + (m' - m)) % 256 = (h0 + m') % 256 by omega]
      apply hG _ (Nat.mod_lt _ (by norm_num))
      intro n hn _ heq
      have hnk := hlt n hn
      have : n = m' := by omega
      exact hm'1 (this ▸ hn))
  refine ⟨m', hmm', ⟨hm'2, hm'1, ?_, ?_, ?_⟩, ?_⟩
  · rw [hhead, u1, hs1head]; omega
  · intro n hn hmn
    have hnk := hlt n hn
    rw [hring, u2, hs1head, if_neg (by omega)]
    exact hF n hn (by omega)
  · intro i hi hall
    rw [hring, u2, hs1head]
    by_cases hc : i < 256 ∧ (i + 256 - (h0 + m) % 256) % 256 < m' - m
    · rw [if_pos hc]
    · rw [if_neg hc]
      apply hG i hi
      intro n hn hmn heq
      have hnk := hlt n hn
      by_cases hnm : m' ≤ n
      · exact hall n hn hnm heq
      · exact hc ⟨hi, by omega⟩
  · rw [hrec, u3, List.nil_append, List.range'_eq_map_range, List.map_map]
    rw [← List.filterMap_eq_map]
    apply List.filterMap_congr
    intro t ht
    have ht := List.mem_range.mp ht
    rw [hs1head, show ((h0 + m) % 256 + t) % 256 = (h0 + (m + t)) % 256 by omega,
      hF (m + t) (hm'2 _ (by omega)) (by omega)]
    have hd := is_data_segment_deliverable _ _ (hseg (m + t) (by omega))
    simp [Option.filter, hd]

theorem reorder_trace (h0 k : Nat) (seg : Nat → buffer_t) (hk : k ≤ 255)
    (hseg : ∀ i, i < k → is_data_segment (seg i) ((h0 + i) % 256)) :
    ∀ (ds : List Nat) (s : session) (A : List Nat) (m : Nat),
      reorder_inv h0 (fun i => zero_checksum (seg i)) s A m →
      (∀ a, a ∈ A → a < k) → (∀ j, j ∈ ds → j < k) → ds.Nodup → (∀ j, j ∈ ds → j ∉ A) →
      (∀ r, r ∈ receive_all s (ds.map seg) → r.thrown = none) →
      ∃ m', m ≤ m' ∧ (∀ n, n < m' → n ∈ ds ∨ n ∈ A) ∧ m' ∉ ds ∧ m' ∉ A ∧
        ((receive_all s (ds.map seg)).map (fun r => r.received)).flatten =
          (List.range' m (m' - m)).map (fun i => zero_checksum (seg i)) := by
  intro ds
  induction ds with
  | nil =>
    intro s A m hinv _ _ _ _ _
    exact ⟨m, le_refl _, fun n hn => Or.inr (hinv.1 n hn), List.not_mem_nil _, hinv.2.1,
      by simp [receive_all]⟩
  | cons j ds ih =>
    intro s A m hinv hA hds hnd hdisj hacc
    have hjA : j ∉ A := hdisj j (List.mem_cons_self _ _)
    have hacc1 : (receive s (some (seg j)) []).thrown = none :=
      hacc _ (by simp [receive_all])
    obtain ⟨m1, hm1, hinv1, hout1⟩ :=
      reorder_step h0 k seg s A m j hk hA (hds j (List.mem_cons_self _ _)) hjA hseg hinv hacc1
    obtain ⟨m', hm', hall, hnds, hnA, hout⟩ :=
      ih (receive s (some (seg j)) []).s (j :: A) m1 hinv1
        (by
          intro a ha
          rcases List.mem_cons.mp ha with h | h
          · rw [h]; exact hds j (List.mem_cons_self _ _)
          · exact hA a h)
        (fun x hx => hds x (List.mem_cons_of_mem _ hx))
        (List.nodup_cons.mp hnd).2
        (by
          intro x hx hmem
          rcases List.mem_cons.mp hmem with h | h
          · rw [h] at hx; exact (List.nodup_cons.mp hnd).1 hx
          · exact hdisj x (List.mem_cons_of_mem _ hx) h)
        (fun r hr => hacc r (by simp only [List.map_cons, receive_all]; exact List.mem_cons_of_mem _ hr))
    refine ⟨m', le_trans hm1 hm', ?_, ?_, ?_, ?_⟩
    · intro n hn
      rcases hall n hn with h | h
      · exact Or.inl (List.mem_cons_of_mem _ h)
      · rcases List.mem_cons.mp h with h | h
        · exact Or.inl (h ▸ List.mem_cons_self _ _)
        · exact Or.inr h
    · intro hmem
      rcases List.mem_cons.mp hmem with h | h
      · exact hnA (h ▸ List.mem_cons_self _ _)
      · exact hnds h
    · exact fun h => hnA (List.mem_cons_of_mem _ h)
    · simp only [List.map_cons, receive_all, List.flatten_cons]
      rw [hout1, hout, ← List.map_append]
      congr 1
      have hr := List.range'_append_1 m (m1 - m) (m' - m1)
      rw [show m + (m1 - m) = m1 by omega] at hr
      rw [hr]
      congr 1
      omega

theorem reorder_inv_start (s : session) (Z : Nat → buffer_t)
    (hhead : s.receive_head < 256) (hempty : ∀ i, i < 256 → s.receive_buffer i = none) :
    reorder_inv s.receive_head Z s [] 0 :=
  ⟨fun _ hj => absurd hj (Nat.not_lt_zero _), List.not_mem_nil _,
    by rw [Nat.add_zero, Nat.mod_eq_of_lt hhead],
    fun _ hj => absurd hj (List.not_mem_nil _), fun i hi _ => hempty i hi⟩

theorem zero_checksum_payload (d : buffer_t) (h : 2 ≤ byte d 1) :
    (zero_checksum d).drop (byte d 1) = d.drop (byte d 1) := by
  unfold zero_checksum to_be16
  rw [List.drop_set_of_lt _ _ (by omega), List.drop_set_of_lt _ _ (by omega)]

theorem receive_data_first (s : session) (d : buffer_t)
    (hd : is_data_segment d s.receive_head) (hhead : s.receive_head < 256)
    (h0 : s.receive_buffer s.receive_head = none)
    (h1 : s.receive_buffer ((s.receive_head + 1) % 256) = none)
    (hacc : (receive s (some d) []).thrown = none) :
    (receive s (some d) []).received = [zero_checksum d] ∧
    (receive s (some d) []).s.receive_head = (s.receive_head + 1) % 256 ∧
    (receive s (some d) []).s.receive_buffer s.receive_head = none ∧
    (receive s (some d) []).s.receive_buffer ((s.receive_head + 1) % 256) = none := by
  have hslot := is_data_segment_slot _ _ hd
  obtain ⟨hrec, hring, hh⟩ := receive_data s d [] hd.1 hd.2.1 hacc (by rw [hslot]; exact h0)
  rw [hslot] at hrec hring hh
  generalize hs1 : ({ s with receive_buffer :=
      fun i => if i = s.receive_head then some (zero_checksum d)
               else s.receive_buffer i } : session) = s1 at hrec hring hh
  have hs1head : s1.receive_head = s.receive_head := by rw [← hs1]
  have hs1ring : ∀ i, s1.receive_buffer i =
      if i = s.receive_head then some (zero_checksum d) else s.receive_buffer i := by
    intro i; rw [← hs1]
  obtain ⟨u1, u2, u3⟩ := update_receive_head_run s1 [] 1 (by rw [hs1head]; exact hhead)
    (by norm_num)
    (by
      intro t ht
      have : t = 0 := by omega
      subst this
      rw [hs1head, Nat.add_zero, Nat.mod_eq_of_lt hhead, hs1ring, if_pos rfl]
      rfl)
    (by
      rw [hs1head, hs1ring, if_neg (by omega)]
      exact h1)
  refine ⟨?_, ?_, ?_, ?_⟩
  · rw [hrec, u3, hs1head]
    have hdel := is_data_segment_deliverable _ _ hd
    simp [List.range_succ, Nat.mod_eq_of_lt hhead, hs1ring, Option.filter, hdel]
  · rw [hh, u1, hs1head]
  · rw [hring, u2, hs1head, if_pos ⟨hhead, by omega⟩]
  · rw [hring, u2, hs1head, if_neg (by omega), hs1ring, if_neg (by omega)]
    exact h1

theorem receive_data_behind (s : session) (d : buffer_t) (seq : Nat)
    (hd : is_data_segment d seq) (hne : seq ≠ s.receive_head) (hhead : s.receive_head < 256)
    (h0 : s.receive_buffer seq = none)
    (h1 : s.receive_buffer s.receive_head = none)
    (hacc : (receive s (some d) []).thrown = none) :
    (receive s (some d) []).received = [] ∧
    (receive s (some d) []).s.receive_head = s.receive_head ∧
    (receive s (some d) []).s.receive_buffer seq = some (zero_checksum d) := by
  have hslot := is_data_segment_slot _ _ hd
  obtain ⟨hrec, hring, hh⟩ := receive_data s d [] hd.1 hd.2.1 hacc (by rw [hslot]; exact h0)
  rw [hslot] at hrec hring hh
  generalize hs1 : ({ s with receive_buffer :=
      fun i => if i = seq then some (zero_checksum d)
               else s.receive_buffer i } : session) = s1 at hrec hring hh
  have hs1head : s1.receive_head = s.receive_head := by rw [← hs1]
  have hs1ring : ∀ i, s1.receive_buffer i =
      if i = seq then some (zero_checksum d) else s.receive_buffer i := by
    intro i; rw [← hs1]
  obtain ⟨u1, u2, u3⟩ := update_receive_head_run s1 [] 0 (by rw [hs1head]; exact hhead)
    (by norm_num) (fun t ht => absurd ht (Nat.not_lt_zero _))
    (by
      rw [hs1head, Nat.add_zero, Nat.mod_eq_of_lt hhead, hs1ring, if_neg (Ne.symm hne)]
      exact h1)
  refine ⟨?_, ?_, ?_⟩
  · rw [hrec, u3]; rfl
  · rw [hh, u1, hs1head, Nat.add_zero, Nat.mod_eq_of_lt hhead]
  · rw [hring, u2, if_neg (by omega), hs1ring, if_pos rfl]

/-- The effect of `update_receive_head` on a ring whose 256 slots are all occupied: every slot
is emptied and `receive_head` comes back to where it was. -/
theorem update_receive_head_full (s : session) (received : List buffer_t)
    (hh : s.receive_head < 256)
    (hocc : ∀ i, i < 256 → (s.receive_buffer i).isSome = true) :
    (update_receive_head s received).1.receive_head = s.receive_head ∧
    (∀ i, (update_receive_head s received).1.receive_buffer i =
      if i < 256 then none else s.receive_buffer i) := by
  have he : find_null s.receive_buffer (256 - s.receive_head) s.receive_head = 256 := by
    rw [find_null_run _ _ _ (256 - s.receive_head) (le_refl _)]
    · omega
    · intro t ht
      exact hocc _ (by omega)
    · intro h; omega
  have he2 : find_null (fill_null s.receive_buffer s.receive_head 256) 256 0
      = s.receive_head := by
    rw [find_null_run _ _ _ s.receive_head (by omega)]
    · omega
    · intro t ht
      simp only [fill_null, Nat.zero_add]
      rw [if_neg (by omega)]
      exact hocc _ (by omega)
    · intro _
      simp only [fill_null, Nat.zero_add]
      rw [if_pos (by omega)]
  obtain ⟨h1, h2, _⟩ := update_receive_head_wrapped s received he
  rw [he2] at h1 h2
  refine ⟨by rw [h1]; omega, ?_⟩
  intro i
  rw [h2]
  simp only [fill_null]
  by_cases hi : i < 256
  · rw [if_pos hi]
    by_cases h0 : 0 ≤ i ∧ i < s.receive_head
    · rw [if_pos h0]
    · rw [if_neg h0, if_pos (by omega)]
  · rw [if_neg hi, if_neg (by omega), if_neg (by omega)]

theorem receive_data_run (s : session) (d : buffer_t) (r : Nat)
    (hd : is_data_segment d s.receive_head) (hhead : s.receive_head < 256)
    (h0 : s.receive_buffer s.receive_head = none) (hr1 : 1 ≤ r) (hr : r ≤ 255)
    (hocc : ∀ t, 1 ≤ t → t < r → (s.receive_buffer ((s.receive_head + t) % 256)).isSome = true)
    (hend : s.receive_buffer ((s.receive_head + r) % 256) = none)
    (hacc : (receive s (some d) []).thrown = none) :
    (receive s (some d) []).received =
      zero_checksum d :: (List.range' 1 (r - 1)).filterMap
        (fun t => (s.receive_buffer ((s.receive_head + t) % 256)).filter deliverable) ∧
    (receive s (some d) []).s.receive_head = (s.receive_head + r) % 256 ∧
    (receive s (some d) []).s.receive_buffer s.receive_head = none ∧
    (receive s (some d) []).s.receive_buffer ((s.receive_head + r) % 256) = none := by
  have hslot := is_data_segment_slot _ _ hd
  obtain ⟨hrec, hring, hh⟩ := receive_data s d [] hd.1 hd.2.1 hacc (by rw [hslot]; exact h0)
  rw [hslot] at hrec hring hh
  generalize hs1 : ({ s with receive_buffer :=
      fun i => if i = s.receive_head then some (zero_checksum d)
               else s.receive_buffer i } : session) = s1 at hrec hring hh
  have hs1head : s1.receive_head = s.receive_head := by rw [← hs1]
  have hs1ring : ∀ i, s1.receive_buffer i =
      if i = s.receive_head then some (zero_checksum d) else s.receive_buffer i := by
    intro i; rw [← hs1]
  obtain ⟨u1, u2, u3⟩ := update_receive_head_run s1 [] r (by rw [hs1head]; exact hhead) hr
    (by
      intro t ht
      rw [hs1head, hs1ring]
      by_cases h0t : t = 0
      · subst h0t
        rw [Nat.add_zero, Nat.mod_eq_of_lt hhead, if_pos rfl]
        rfl
      · rw [if_neg (by omega)]
        exact hocc t (by omega) ht)
    (by
      rw [hs1head, hs1ring, if_neg (by omega)]
      exact hend)
  refine ⟨?_, ?_, ?_, ?_⟩
  · rw [hrec, u3, hs1head]
    obtain ⟨r', rfl⟩ : ∃ r', r = r' + 1 := ⟨r - 1, by omega⟩
    have hdel := is_data_segment_deliverable _ _ hd
    rw [List.range_eq_range', List.range'_succ, List.nil_append, List.filterMap_cons]
    simp only [Nat.add_zero, Nat.mod_eq_of_lt hhead, hs1ring, if_true, Option.filter, hdel,
      Nat.add_sub_cancel]
    congr 1
    apply List.filterMap_congr
    intro t ht
    have ht2 := List.mem_range'_1.mp ht
    rw [if_neg (by omega)]
  · rw [hh, u1, hs1head]
  · rw [hring, u2, hs1head, if_pos ⟨hhead, by omega⟩]
  · rw [hring, u2, hs1head, if_neg (by omega), hs1ring, if_neg (by omega)]
    exact hend

/-- A data segment that arrives at `receive_head` while every other slot of the receive ring is
occupied: the walk of `update_receive_head` empties the whole ring and comes back to the slot
of the segment. -/
theorem receive_data_full (s : session) (d : buffer_t)
    (hd : is_data_segment d s.receive_head) (hhead : s.receive_head < 256)
    (h0 : s.receive_buffer s.receive_head = none)
    (hfull : ∀ i, i < 256 → i ≠ s.receive_head → (s.receive_buffer i).isSome = true)
    (hacc : (receive s (some d) []).thrown = none) :
    (receive s (some d) []).s.receive_head = s.receive_head ∧
    (∀ i, i < 256 → (receive s (some d) []).s.receive_buffer i = none) := by
  have hslot := is_data_segment_slot _ _ hd
  obtain ⟨_, hring, hh⟩ := receive_data s d [] hd.1 hd.2.1 hacc (by rw [hslot]; exact h0)
  rw [hslot] at hring hh
  generalize hs1 : ({ s with receive_buffer :=
      fun i => if i = s.receive_head then some (zero_checksum d)
               else s.receive_buffer i } : session) = s1 at hring hh
  have hs1head : s1.receive_head = s.receive_head := by rw [← hs1]
  have hs1ring : ∀ i, s1.receive_buffer i =
      if i = s.receive_head then some (zero_checksum d) else s.receive_buffer i := by
    intro i; rw [← hs1]
  obtain ⟨u1, u2⟩ := update_receive_head_full s1 [] (by rw [hs1head]; exact hhead)
    (by
      intro i hi
      rw [hs1ring]
      by_cases hih : i = s.receive_head
      · rw [if_pos hih]; rfl
      · rw [if_neg hih]; exact hfull i hi hih)
  refine ⟨by rw [hh, u1, hs1head], ?_⟩
  intro i hi
  rw [hring, u2, if_pos hi]

theorem byte_set_eq (b : buffer_t) (i v : Nat) (h : i < b.length) : byte (b.set i v) i = v := by
  simp [byte, List.getD_eq_getElem?_getD, h]

theorem to_be16_length (b : buffer_t) (pos v : Nat) : (to_be16 b pos v).length = b.length := by
  simp [to_be16]

theorem byte_to_be16_ne (b : buffer_t) (pos v i : Nat) (h1 : i ≠ pos) (h2 : i ≠ pos + 1) :
    byte (to_be16 b pos v) i = byte b i := by
  unfold to_be16
  rw [byte_set_ne _ _ _ _ (Ne.symm h2), byte_set_ne _ _ _ _ (Ne.symm h1)]

theorem to_be16_to_be16 (b : buffer_t) (pos v w : Nat) :
    to_be16 (to_be16 b pos v) pos w = to_be16 b pos w := by
  unfold to_be16
  rw [List.set_comm (v % 256) (w >>> 8 % 256) _ (show pos + 1 ≠ pos by omega), List.set_set,
    List.set_set]

theorem from_be16_to_be16 (b : buffer_t) (pos v : Nat) (hpos : pos + 1 < b.length)
    (hv : v < 65536) : from_be16 (to_be16 b pos v) pos = v := by
  unfold from_be16 to_be16
  rw [byte_set_ne _ _ _ _ (show pos + 1 ≠ pos by omega), byte_set_eq _ _ _ (by omega),
    byte_set_eq _ _ _ (by simp; omega)]
  have h1 : v >>> 8 % 256 = v / 256 := by
    rw [Nat.shiftRight_eq_div_pow]
    omega
  rw [h1, Nat.shiftLeft_eq, show (2:Nat) ^ 8 = 256 by norm_num]
  have := Nat.mul_add_lt_is_or (show v % 256 < 2 ^ 8 by omega) (v / 256)
  rw [show (2:Nat) ^ 8 = 256 by norm_num] at this
  rw [Nat.mul_comm, ← this]
  omega

theorem checksum_lt (b : buffer_t) : checksum b < 65536 := by
  unfold checksum
  simp only
  split_ifs <;> omega

theorem flag_or_chk (x m : Nat) (hm : 4 &&& m = 0) : ((x ||| 4) &&& m != 0) = (x &&& m != 0) := by
  rw [Nat.and_distrib_right, hm, Nat.or_zero]

theorem flag_and_chk (x m : Nat) (hm : 0xFB &&& m = m) :
    ((x &&& 0xFB) &&& m != 0) = (x &&& m != 0) := by
  rw [Nat.and_assoc, hm]

theorem stamp_header_length (buf : buffer_t) (seq rh : Nat) :
    (stamp_header buf seq rh).length = buf.length := by
  simp only [stamp_header]
  split_ifs <;> simp

theorem stamp_length (buf : buffer_t) (seq rh : Nat) :
    (stamp buf seq rh).length = buf.length := by
  simp only [stamp, to_be16_length, stamp_header_length]

theorem stamp_header_byte0 (buf : buffer_t) (seq rh : Nat) (h : 0 < buf.length) :
    byte (stamp_header buf seq rh) 0 =
      if byte buf 1 ≠ buf.length then byte buf 0 ||| 0x04 else byte buf 0 &&& 0xFB := by
  simp only [stamp_header]
  split_ifs <;>
    simp_all [byte_set_ne, byte_set_eq]

theorem stamp_header_byte1 (buf : buffer_t) (seq rh : Nat) :
    byte (stamp_header buf seq rh) 1 = byte buf 1 := by
  simp only [stamp_header]
  split_ifs <;> simp [byte_set_ne]

theorem stamp_header_byte2 (buf : buffer_t) (seq rh : Nat) (h : 2 < buf.length) :
    byte (stamp_header buf seq rh) 2 = seq := by
  simp only [stamp_header]
  split_ifs <;>
    simp [byte_set_ne, byte_set_eq, h]

theorem stamp_header_byte3 (buf : buffer_t) (seq rh : Nat) (h : 3 < buf.length) :
    byte (stamp_header buf seq rh) 3 =
      if flag buf 0x40 = true then (rh + 256 - 1) % 256 else byte buf 3 := by
  simp only [stamp_header]
  split_ifs <;>
    simp [byte_set_ne, byte_set_eq, h]

theorem stamp_header_byte_ge (buf : buffer_t) (seq rh i : Nat) (h : 4 ≤ i) :
    byte (stamp_header buf seq rh) i = byte buf i := by
  simp only [stamp_header]
  split_ifs <;>
    simp [byte_set_ne, show (0:Nat) ≠ i by omega, show (2:Nat) ≠ i by omega,
      show (3:Nat) ≠ i by omega]

theorem stamp_byte_low (buf : buffer_t) (seq rh i : Nat) (h : i + 2 < byte buf 1) :
    byte (stamp buf seq rh) i = byte (stamp_header buf seq rh) i := by
  simp only [stamp]
  rw [byte_to_be16_ne _ _ _ _ (by omega) (by omega), byte_to_be16_ne _ _ _ _ (by omega) (by omega)]

theorem stamp_byte_high (buf : buffer_t) (seq rh i : Nat) (h : byte buf 1 ≤ i) (h4 : 4 ≤ i) :
    byte (stamp buf seq rh) i = byte buf i := by
  simp only [stamp]
  rw [byte_to_be16_ne _ _ _ _ (by omega) (by omega), byte_to_be16_ne _ _ _ _ (by omega) (by omega),
    stamp_header_byte_ge _ _ _ _ h4]

theorem zero_checksum_stamp (buf : buffer_t) (seq rh : Nat) (h : 4 ≤ byte buf 1) :
    zero_checksum (stamp buf seq rh) =
      to_be16 (stamp_header buf seq rh) (byte buf 1 - 2) 0 := by
  have h1 : byte (stamp buf seq rh) 1 = byte buf 1 := by
    rw [stamp_byte_low _ _ _ _ (by omega), stamp_header_byte1]
  unfold zero_checksum
  rw [h1]
  simp only [stamp, to_be16_to_be16]

theorem stamp_flag (buf : buffer_t) (seq rh m : Nat) (h : 4 ≤ byte buf 1)
    (hlen : byte buf 1 ≤ buf.length) (h1 : 4 &&& m = 0) (h2 : 0xFB &&& m = m) :
    flag (stamp buf seq rh) m = flag buf m := by
  unfold flag
  rw [stamp_byte_low _ _ _ _ (by omega), stamp_header_byte0 _ _ _ (by omega)]
  split_ifs
  · exact flag_or_chk _ _ h1
  · exact flag_and_chk _ _ h2

theorem stamp_chk (buf : buffer_t) (seq rh : Nat) (h : 4 ≤ byte buf 1)
    (hlen : byte buf 1 ≤ buf.length) :
    flag (stamp buf seq rh) 0x04 = decide (byte buf 1 < buf.length) := by
  unfold flag
  rw [stamp_byte_low _ _ _ _ (by omega), stamp_header_byte0 _ _ _ (by omega)]
  split_ifs with hne
  · have : (byte buf 0 ||| 4) &&& 4 = 4 := by
      rw [Nat.and_distrib_right]
      apply Nat.eq_of_testBit_eq
      intro i
      simp only [Nat.testBit_or, Nat.testBit_and]
      by_cases hi : i = 2
      · subst hi; simp
      · have : Nat.testBit 4 i = false := by
          rw [show (4:Nat) = 2 ^ 2 by norm_num, Nat.testBit_two_pow]
          simp [Ne.symm hi]
        simp [this]
    rw [this, show ((4:Nat) != 0) = true by decide]
    exact (decide_eq_true (by omega)).symm
  · have : (byte buf 0 &&& 0xFB) &&& 4 = 0 := by
      rw [Nat.and_assoc, show (0xFB:Nat) &&& 4 = 0 by decide, Nat.and_zero]
    rw [this, show ((0:Nat) != 0) = false by decide]
    exact (decide_eq_false (by omega)).symm

theorem check_common_header_stamp (buf : buffer_t) (seq rh : Nat) (h : 4 ≤ byte buf 1)
    (hlen : byte buf 1 ≤ buf.length) :
    check_common_header (stamp buf seq rh) = check_common_header buf := by
  unfold check_common_header
  rw [stamp_flag _ _ _ 0x80 h hlen (by decide) (by decide),
    stamp_flag _ _ _ 0x40 h hlen (by decide) (by decide),
    stamp_flag _ _ _ 0x20 h hlen (by decide) (by decide),
    stamp_flag _ _ _ 0x10 h hlen (by decide) (by decide),
    stamp_flag _ _ _ 0x08 h hlen (by decide) (by decide),
    stamp_flag _ _ _ 0x02 h hlen (by decide) (by decide)]

/-- What `session::send` transmits passes the checksum test of `session::receive`. -/
theorem checksum_ok_stamp (buf : buffer_t) (seq rh : Nat) (h : 4 ≤ byte buf 1)
    (hlen : byte buf 1 ≤ buf.length) : checksum_ok (stamp buf seq rh) = true := by
  have h1 : byte (stamp buf seq rh) 1 = byte buf 1 := by
    rw [stamp_byte_low _ _ _ _ (by omega), stamp_header_byte1]
  have hz := zero_checksum_stamp buf seq rh h
  simp only [checksum_ok, h1, hz, beq_iff_eq]
  have hfrom : from_be16 (stamp buf seq rh) (byte buf 1 - 2) =
      checksum (to_be16 (stamp_header buf seq rh) (byte buf 1 - 2) 0) := by
    simp only [stamp]
    exact from_be16_to_be16 _ _ _ (by rw [to_be16_length, stamp_header_length]; omega)
      (checksum_lt _)
  rw [hfrom, stamp_chk _ _ _ h hlen]
  by_cases hc : byte buf 1 < buf.length
  · simp [hc]
  · have : byte buf 1 = (to_be16 (stamp_header buf seq rh) (byte buf 1 - 2) 0).length := by
      rw [to_be16_length, stamp_header_length]; omega
    simp only [hc, decide_False, Bool.false_eq_true, if_false]
    rw [List.take_of_length_le (by omega)]

theorem clear_retransmission_timer_at_view (s : session) (i : Nat) :
    transfer_view (clear_retransmission_timer_at s i) = transfer_view s := by
  unfold clear_retransmission_timer_at
  split <;> rfl

theorem clear_retransmission_timer_loop_view (n : Nat) (s : session) (i : Nat) :
    transfer_view (clear_retransmission_timer_loop n s i) = transfer_view s := by
  induction n generalizing s i with
  | zero => rfl
  | succ n ih => exact (ih _ _).trans (clear_retransmission_timer_at_view s i)

theorem clear_retransmission_timer_view (s : session) (a b : Nat) :
    transfer_view (clear_retransmission_timer s a b) = transfer_view s :=
  clear_retransmission_timer_loop_view _ _ _

theorem close_view (s : session) : transfer_view (close s) = transfer_view s := by
  have h := clear_retransmission_timer_view
    { s with state := session_state.opened, cumulative_ack_timer := false,
             null_segment_timer := false } 0 255
  simp only [close, cancel_all_timers]
  simp only [transfer_view] at h ⊢
  exact h

theorem invoke_view (s : session) (cb : send_cb) (b : Bool) :
    transfer_view (invoke s cb b) = transfer_view s := by
  unfold invoke
  split
  · exact (close_view _).trans rfl
  · rfl

theorem invoke_all_view (cbs : List send_cb) (s : session) (b : Bool) :
    transfer_view (invoke_all s cbs b) = transfer_view s := by
  unfold invoke_all
  induction cbs generalizing s with
  | nil => rfl
  | cons c cs ih => exact (ih _).trans (invoke_view s c b)

theorem invoke_all_sent (cbs : List send_cb) (s : session) (b : Bool) :
    (invoke_all s cbs b).sent = s.sent :=
  congrArg (fun v => v.2.2.2.2.2.2.2.2.2.2.2.2.2.2.2) (invoke_all_view cbs s b)

theorem invoke_sent (s : session) (cb : send_cb) (b : Bool) : (invoke s cb b).sent = s.sent :=
  congrArg (fun v => v.2.2.2.2.2.2.2.2.2.2.2.2.2.2.2) (invoke_view s cb b)

theorem send_transmit_sent (s : session) (p : Nat) (buf : buffer_t) (cb : send_cb) :
    (send_transmit s p buf cb).sent = s.sent ++ [stamp buf s.send_head s.receive_head] := by
  simp only [send_transmit, reset_cumulative_ack_counter, set_null_segment_timer,
    set_retransmission_timer]
  split_ifs <;> rfl

theorem send_syn_sent (s s' : session) (buf : buffer_t) (fr : Bool) (cbs : List send_cb)
    (h : send_syn s buf fr = .ok (s', cbs)) :
    s'.sent = s.sent ∧ s'.receive_head = s.receive_head := by
  simp only [send_syn] at h
  split at h
  · cases h
  · split at h
    · cases h
    · cases h; exact ⟨rfl, rfl⟩

theorem send_syn_sent_error (s s' : session) (buf : buffer_t) (fr : Bool) (e : error)
    (h : send_syn s buf fr = .error (s', e)) : s'.sent = s.sent := by
  simp only [send_syn] at h
  split at h
  · cases h; rfl
  · split at h
    · cases h; rfl
    · cases h

/-- A call of `session::send` hands at most one datagram to the socket; when it does, the
checks of the header have passed and the datagram is the stamped segment. -/
theorem send_body_sent (s : session) (p : Nat) (r : Bool) (cb : send_cb) (fr : Bool) :
    (send_body s (some p) r cb fr).s.sent = s.sent ∨
    ∃ seq, (send_body s (some p) r cb fr).s.sent = s.sent ++ [stamp (s.heap p) seq s.receive_head] ∧
      check_common_header (s.heap p) = true ∧ 4 ≤ byte (s.heap p) 1 ∧
      byte (s.heap p) 1 ≤ (s.heap p).length := by
  simp only [send_body]
  split_ifs with h1 h2 h3 h4 h5 h6
  · exact Or.inl (invoke_sent _ _ _)
  · exact Or.inl rfl
  · exact Or.inl rfl
  · exact Or.inl rfl
  · exact Or.inl rfl
  · split
    · rename_i h; exact Or.inl (send_syn_sent_error _ _ _ _ _ h)
    · rename_i s1 cbs1 h
      obtain ⟨e1, e2⟩ := send_syn_sent _ _ _ _ _ h
      refine Or.inr ⟨s1.send_head, ?_, by simpa using h3, by omega, by omega⟩
      simp only [result.ok]
      rw [invoke_all_sent, send_transmit_sent, e1, e2]
  · split
    · rename_i h; cases h
    · rename_i h; cases h
      refine Or.inr ⟨s.send_head, ?_, by simpa using h3, by omega, by omega⟩
      simp only [result.ok]
      rw [invoke_all_sent, send_transmit_sent]

/-- C4 (framing round trip): when `session::send`, called with a segment whose flags are
role-valid and whose header length is at least 6 and at most its size, hands a datagram to the
socket, the datagram passes the first three steps of the peer's `session::receive`: its flags
satisfy `check_common_header`, its header length is at least 4 and at most its size, and the
big-endian value at offset `header_size - 2` is the checksum recomputed with those two bytes
zeroed, over the whole datagram when CHK is set and over the header when CHK is clear. -/
theorem C4_framing_round_trip (s : session) (p : Nat) (resend : Bool) (cb : send_cb)
    (d : buffer_t) (hflags : check_common_header (s.heap p) = true)
    (hsize : 6 ≤ byte (s.heap p) 1 ∧ byte (s.heap p) 1 ≤ (s.heap p).length)
    (hsent : (send s (some p) resend cb).s.sent = s.sent ++ [d]) :
    check_common_header d = true ∧ 4 ≤ byte d 1 ∧ byte d 1 ≤ d.length ∧
    from_be16 d (byte d 1 - 2) =
      checksum (if flag d 0x04 = true then zero_checksum d
                else (zero_checksum d).take (byte d 1)) ∧
    checksum_ok d = true := by
  rcases send_body_sent s p resend cb false with h | ⟨seq, h, _, h4, hlen⟩
  · exfalso
    have : (send s (some p) resend cb).s.sent = s.sent := h
    rw [this] at hsent
    have := congrArg List.length hsent
    simp at this
  · have hd : d = stamp (s.heap p) seq s.receive_head := by
      have : (send s (some p) resend cb).s.sent =
          s.sent ++ [stamp (s.heap p) seq s.receive_head] := h
      rw [this] at hsent
      have := List.append_cancel_left hsent
      simpa using this.symm
    have h1 : byte (stamp (s.heap p) seq s.receive_head) 1 = byte (s.heap p) 1 := by
      rw [stamp_byte_low _ _ _ _ (by omega), stamp_header_byte1]
    have hok := checksum_ok_stamp (s.heap p) seq s.receive_head h4 hlen
    subst hd
    refine ⟨by rw [check_common_header_stamp _ _ _ h4 hlen]; exact hflags,
      by rw [h1]; exact h4, by rw [h1, stamp_length]; exact hlen, ?_, hok⟩
    simpa [checksum_ok] using hok

set_option maxRecDepth 10000 in
/-- The theorem C4 on the session `framed_example` sending the segment at address 1. -/
theorem C4_framing_round_trip_witness :
    (send framed_example (some 1) false (send_cb.user 1)).s.sent =
      framed_example.sent ++ [[68, 6, 11, 255, 171, 248, 1, 2, 3]] ∧
    checksum_ok [68, 6, 11, 255, 171, 248, 1, 2, 3] = true :=
  have h := C4_framing_round_trip framed_example 1 false (send_cb.user 1)
    [68, 6, 11, 255, 171, 248, 1, 2, 3] (by decide) (by decide) (by decide)
  ⟨by decide, h.2.2.2.2⟩

theorem send_transmit_fields (s : session) (p : Nat) (buf : buffer_t) (cb : send_cb) :
    (send_transmit s p buf cb).send_head = (s.send_head + 1) % 256 ∧
    (send_transmit s p buf cb).send_buffer =
      (fun i => if i = s.send_head then (some p, cb) else s.send_buffer i) ∧
    (send_transmit s p buf cb).heap =
      (fun q => if q = p then stamp buf s.send_head s.receive_head else s.heap q) ∧
    (send_transmit s p buf cb).acknowledge_head = s.acknowledge_head ∧
    (send_transmit s p buf cb).unacknowledged_packet_count =
      (s.unacknowledged_packet_count + 1) % 2 ^ 64 := by
  simp only [send_transmit, reset_cumulative_ack_counter, set_null_segment_timer,
    set_retransmission_timer]
  split_ifs <;> exact ⟨rfl, rfl, rfl, rfl, rfl⟩

/-- A segment that is not a SYN is transmitted when the send window has room and the session is
Opened (or the call is a flush of the pending queue, or the segment is a TCS). -/
theorem send_transmits (s : session) (p : Nat) (resend : Bool) (cb : send_cb)
    (hsyn : flag (s.heap p) 0x80 = false) (hflags : check_common_header (s.heap p) = true)
    (hsize : 4 ≤ byte (s.heap p) 1 ∧ byte (s.heap p) 1 ≤ (s.heap p).length)
    (hready : ready_to_send s = true)
    (hgate : resend = true ∨ s.state = session_state.opened ∨ flag (s.heap p) 0x02 = true) :
    send s (some p) resend cb = result.ok (send_transmit s p (s.heap p) cb) := by
  have hg : (!resend && s.state != session_state.opened && !false &&
      !flag (s.heap p) 0x02) = false := by
    rcases hgate with h | h | h
    · simp [h]
    · simp [h]
    · simp [h]
  simp only [send, send_body, hready, hflags, hsyn, Bool.false_eq_true, if_false,
    Bool.not_true, invoke_all, List.foldl_nil]
  rw [hg, if_neg (by simp), if_neg (not_lt.mpr hsize.2), if_neg (not_lt.mpr hsize.1)]

/-- C5 (header stamping by send): a segment that is not a SYN, with role-valid flags and a
header length of at least 6 and at most its size, is sent while `ready_to_send` holds and the
session lets it through (state Opened, or a flush of the pending queue, or a TCS).  Then one
datagram is transmitted; its byte 2 is `send_head` as it was before the call, and `send_head`
afterwards is that value plus one modulo 256; its byte 3 is `receive_head - 1` modulo 256 when
the ACK flag is set and is unchanged otherwise; its CHK bit is set exactly when the size exceeds
the header length; and `send_buffer[ seq ]` holds the segment, which is the datagram as
transmitted, with its callback. -/
theorem C5_header_stamping (s : session) (p : Nat) (resend : Bool) (cb : send_cb)
    (hsyn : flag (s.heap p) 0x80 = false) (hflags : check_common_header (s.heap p) = true)
    (hsize : 6 ≤ byte (s.heap p) 1 ∧ byte (s.heap p) 1 ≤ (s.heap p).length)
    (hready : ready_to_send s = true)
    (hgate : resend = true ∨ s.state = session_state.opened ∨ flag (s.heap p) 0x02 = true) :
    ∃ d, (send s (some p) resend cb).thrown = none ∧
      (send s (some p) resend cb).s.sent = s.sent ++ [d] ∧
      byte d 2 = s.send_head ∧
      (send s (some p) resend cb).s.send_head = (s.send_head + 1) % 256 ∧
      byte d 3 = (if flag (s.heap p) 0x40 = true then (s.receive_head + 256 - 1) % 256
                  else byte (s.heap p) 3) ∧
      (flag d 0x04 = true ↔ (s.heap p).length > byte (s.heap p) 1) ∧
      (send s (some p) resend cb).s.send_buffer s.send_head = (some p, cb) ∧
      (send s (some p) resend cb).s.heap p = d := by
  have h := send_transmits s p resend cb hsyn hflags ⟨by omega, hsize.2⟩ hready hgate
  obtain ⟨f1, f2, f3, _, _⟩ := send_transmit_fields s p (s.heap p) cb
  refine ⟨stamp (s.heap p) s.send_head s.receive_head, ?_, ?_, ?_, ?_, ?_, ?_, ?_, ?_⟩
  · rw [h]; rfl
  · rw [h]; exact send_transmit_sent _ _ _ _
  · rw [stamp_byte_low _ _ _ _ (by omega), stamp_header_byte2 _ _ _ (by omega)]
  · rw [h]; exact f1
  · rw [stamp_byte_low _ _ _ _ (by omega), stamp_header_byte3 _ _ _ (by omega)]
  · rw [stamp_chk _ _ _ (by omega) hsize.2, decide_eq_true_eq]
  · rw [h]
    show (send_transmit s p (s.heap p) cb).send_buffer s.send_head = _
    rw [f2]
    exact if_pos rfl
  · rw [h]
    show (send_transmit s p (s.heap p) cb).heap p = _
    rw [f3]
    exact if_pos rfl

set_option maxRecDepth 10000 in
/-- The theorem C5 on the session `framed_example` sending the segment at address 1. -/
theorem C5_header_stamping_witness :
    ready_to_send framed_example = true ∧
    ∃ d, (send framed_example (some 1) false (send_cb.user 1)).thrown = none ∧
      (send framed_example (some 1) false (send_cb.user 1)).s.sent = framed_example.sent ++ [d] ∧
      byte d 2 = framed_example.send_head ∧
      (send framed_example (some 1) false (send_cb.user 1)).s.send_head =
        (framed_example.send_head + 1) % 256 ∧
      byte d 3 = (if flag (framed_example.heap 1) 0x40 = true
                  then (framed_example.receive_head + 256 - 1) % 256
                  else byte (framed_example.heap 1) 3) ∧
      (flag d 0x04 = true ↔ (framed_example.heap 1).length > byte (framed_example.heap 1) 1) ∧
      (send framed_example (some 1) false (send_cb.user 1)).s.send_buffer
        framed_example.send_head = (some 1, send_cb.user 1) ∧
      (send framed_example (some 1) false (send_cb.user 1)).s.heap 1 = d :=
  ⟨by decide, C5_header_stamping framed_example 1 false (send_cb.user 1) (by decide) (by decide)
    (by decide) (by decide) (Or.inr (Or.inl (by decide)))⟩

theorem write_from_append (front back xs : buffer_t) (h : back.length = xs.length) :
    write_from (front ++ back) front.length xs = front ++ xs := by
  induction xs generalizing front back with
  | nil =>
    have : back = [] := List.length_eq_zero.mp h
    simp [write_from, this]
  | cons x xs ih =>
    cases back with
    | nil => simp at h
    | cons y back =>
      simp only [write_from]
      have h1 : (front ++ y :: back).set front.length x = (front ++ [x]) ++ back := by
        rw [List.set_append_right _ _ (le_refl _)]
        simp
      rw [h1]
      have h2 := ih (front ++ [x]) back (by simpa using h)
      simp only [List.length_append, List.length_singleton] at h2
      rw [h2]
      simp

theorem generate_ack_data_eq (s : session) (payload : buffer_t) (hn : payload.length ≤ 2042) :
    generate_ack_data s payload = .ok (allocate s ([0x40, 6, 0, 0, 0, 0] ++ payload)) := by
  have hb : ((new_buffer (6 + payload.length)).set 0 0x40).set 1 6 =
      [0x40, 6, 0, 0, 0, 0] ++ List.replicate payload.length 0 := by
    unfold new_buffer
    rw [show 6 + payload.length = payload.length + 6 by omega]
    simp [List.replicate_succ]
  simp only [generate_ack_data, buffer_size]
  rw [if_neg (by omega), hb]
  have := write_from_append [0x40, 6, 0, 0, 0, 0] (List.replicate payload.length 0) payload
    (by simp)
  simp only [List.length_cons, List.length_nil] at this
  rw [this]

theorem stamp_drop (buf : buffer_t) (seq rh : Nat) (h : 4 ≤ byte buf 1) :
    (stamp buf seq rh).drop (byte buf 1) = buf.drop (byte buf 1) := by
  simp only [stamp, stamp_header, to_be16]
  split_ifs <;>
    simp only [List.drop_set_of_lt _ _ (show byte buf 1 - 2 + 1 < byte buf 1 by omega),
      List.drop_set_of_lt _ _ (show byte buf 1 - 2 < byte buf 1 by omega),
      List.drop_set_of_lt _ _ (show 3 < byte buf 1 by omega),
      List.drop_set_of_lt _ _ (show 2 < byte buf 1 by omega),
      List.drop_set_of_lt _ _ (show 0 < byte buf 1 by omega)]

theorem stamp_framed (payload : buffer_t) (seq rh : Nat) :
    (stamp ([0x40, 6, 0, 0, 0, 0] ++ payload) seq rh).length = 6 + payload.length ∧
    byte (stamp ([0x40, 6, 0, 0, 0, 0] ++ payload) seq rh) 1 = 6 ∧
    byte (stamp ([0x40, 6, 0, 0, 0, 0] ++ payload) seq rh) 0 =
      (if payload = [] then 0x40 else 0x44) ∧
    (stamp ([0x40, 6, 0, 0, 0, 0] ++ payload) seq rh).drop 6 = payload := by
  have h1 : byte ([0x40, 6, 0, 0, 0, 0] ++ payload) 1 = 6 := rfl
  have h0 : byte ([0x40, 6, 0, 0, 0, 0] ++ payload) 0 = 0x40 := rfl
  have hl : ([0x40, 6, 0, 0, 0, 0] ++ payload).length = 6 + payload.length := by
    simp; omega
  refine ⟨by rw [stamp_length, hl], ?_, ?_, ?_⟩
  · rw [stamp_byte_low _ _ _ _ (by rw [h1]; norm_num), stamp_header_byte1, h1]
  · rw [stamp_byte_low _ _ _ _ (by rw [h1]; norm_num),
      stamp_header_byte0 _ _ _ (by rw [hl]; omega), h1, h0, hl]
    cases payload with
    | nil => decide
    | cons x xs =>
      rw [if_pos (by simp), if_neg (by simp)]
      decide
  · have := stamp_drop ([0x40, 6, 0, 0, 0, 0] ++ payload) seq rh (by rw [h1]; norm_num)
    rw [h1] at this
    rw [this]
    rfl

/-- C6 (payload framing): for a payload of at most 2042 bytes, `send( payload, cb )` frames a
buffer of `6 + n` bytes that starts with the flags byte 0x40 and the header length 6 and carries
the payload from offset 6 on; whatever sequence and acknowledgement numbers the send primitive
stamps, the datagram has header length 6, ACK as its only role bit (the flags byte is 0x40, or
0x44 once CHK marks a payload that is not empty) and the payload from offset 6 to its end; and
the datagram that the call transmits, if any, reads the same: the bytes from `header_size` to
the end are the payload. -/
theorem C6_payload_framing (s : session) (payload : buffer_t) (cb : send_cb)
    (hn : payload.length ≤ 2042) :
    generate_ack_data s payload = .ok (allocate s ([0x40, 6, 0, 0, 0, 0] ++ payload)) ∧
    (∀ seq rh,
      (stamp ([0x40, 6, 0, 0, 0, 0] ++ payload) seq rh).length = 6 + payload.length ∧
      byte (stamp ([0x40, 6, 0, 0, 0, 0] ++ payload) seq rh) 1 = 6 ∧
      byte (stamp ([0x40, 6, 0, 0, 0, 0] ++ payload) seq rh) 0 =
        (if payload = [] then 0x40 else 0x44) ∧
      (stamp ([0x40, 6, 0, 0, 0, 0] ++ payload) seq rh).drop 6 = payload) ∧
    (∀ d, (send_data s payload cb).s.sent = s.sent ++ [d] →
      d.length = 6 + payload.length ∧ byte d 1 = 6 ∧
      byte d 0 = (if payload = [] then 0x40 else 0x44) ∧ d.drop (byte d 1) = payload) := by
  have hg := generate_ack_data_eq s payload hn
  refine ⟨hg, fun seq rh => stamp_framed payload seq rh, ?_⟩
  intro d hd
  simp only [send_data, hg, send] at hd
  have hheap : (allocate s ([0x40, 6, 0, 0, 0, 0] ++ payload)).1.heap
      (allocate s ([0x40, 6, 0, 0, 0, 0] ++ payload)).2 = [0x40, 6, 0, 0, 0, 0] ++ payload := by
    simp [allocate]
  have hsent : (allocate s ([0x40, 6, 0, 0, 0, 0] ++ payload)).1.sent = s.sent := rfl
  rcases send_body_sent (allocate s ([0x40, 6, 0, 0, 0, 0] ++ payload)).1
      (allocate s ([0x40, 6, 0, 0, 0, 0] ++ payload)).2 false cb false with h | ⟨seq, h, _⟩
  · exfalso
    rw [h, hsent] at hd
    have := congrArg List.length hd
    simp at this
  · rw [h, hsent, hheap] at hd
    have hd' := List.append_cancel_left hd
    have : d = stamp ([0x40, 6, 0, 0, 0, 0] ++ payload) seq
        (allocate s ([0x40, 6, 0, 0, 0, 0] ++ payload)).1.receive_head := by
      simpa using hd'.symm
    subst this
    obtain ⟨a, b, c, e⟩ := stamp_framed payload seq
      (allocate s ([0x40, 6, 0, 0, 0, 0] ++ payload)).1.receive_head
    exact ⟨a, b, c, by rw [b]; exact e⟩

set_option maxRecDepth 10000 in
/-- The theorem C6 on the session `opened_example` sending the payload `1 2 3`. -/
theorem C6_payload_framing_witness :
    (send_data opened_example [1, 2, 3] (send_cb.user 1)).s.sent =
      opened_example.sent ++ [[68, 6, 11, 255, 171, 248, 1, 2, 3]] ∧
    List.drop 6 [68, 6, 11, 255, 171, 248, 1, 2, 3] = [1, 2, 3] :=
  have h := (C6_payload_framing opened_example [1, 2, 3] (send_cb.user 1) (by decide)).2.2
    [68, 6, 11, 255, 171, 248, 1, 2, 3] (by decide)
  ⟨by decide, h.2.2.2⟩

/-! ## Acknowledgements -/

theorem occupied_callbacks_eq (ring : Nat → Option Nat × send_cb) (n i : Nat) :
    occupied_callbacks ring n i =
      (List.range n).filterMap
        (fun t => if (ring (i + t)).1.isSome = true then some (ring (i + t)).2 else none) := by
  induction n generalizing i with
  | zero => rfl
  | succ n ih =>
    unfold occupied_callbacks
    rw [List.range_succ_eq_map, List.filterMap_cons, List.filterMap_map, ih (i + 1)]
    have hshift : (fun t => if (ring (i + t)).1.isSome = true then some (ring (i + t)).2
          else none) ∘ Nat.succ
        = fun t => if (ring (i + 1 + t)).1.isSome = true then some (ring (i + 1 + t)).2
          else none := by
      funext t
      simp only [Function.comp, Nat.succ_eq_add_one]
      rw [show i + (t + 1) = i + 1 + t by omega]
    rw [hshift, Nat.add_zero]
    by_cases h : (ring i).1.isSome = true
    · simp [h]
    · simp [h]

theorem count_occupied_eq (ring : Nat → Option Nat × send_cb) (n i : Nat) :
    count_occupied ring n i = (occupied_callbacks ring n i).length := by
  induction n generalizing i with
  | zero => rfl
  | succ n ih =>
    unfold count_occupied occupied_callbacks
    rw [ih (i + 1)]
    by_cases h : (ring i).1.isSome = true
    · simp [h]; omega
    · simp [h]

theorem clear_retransmission_timer_send_buffer (s : session) (a b : Nat) :
    (clear_retransmission_timer s a b).send_buffer = s.send_buffer :=
  congrArg (fun v => v.2.2.2.2.1) (clear_retransmission_timer_view s a b)

theorem clear_retransmission_timer_unacknowledged (s : session) (a b : Nat) :
    (clear_retransmission_timer s a b).unacknowledged_packet_count =
      s.unacknowledged_packet_count :=
  congrArg (fun v => v.2.2.2.2.2.2.2.2.1) (clear_retransmission_timer_view s a b)

theorem update_ack_straight (s : session) (n : Nat)
    (hvalid : is_valid_sequence_number s n = true)
    (hne : n ≠ (s.acknowledge_head + 256 - 1) % 256)
    (hlt : s.acknowledge_head < (n + 1) % 256) :
    (update_ack s n).1.acknowledge_head = (n + 1) % 256 ∧
    (update_ack s n).1.send_buffer = release s.send_buffer s.acknowledge_head ((n + 1) % 256) ∧
    (update_ack s n).2 =
      occupied_callbacks s.send_buffer ((n + 1) % 256 - s.acknowledge_head) s.acknowledge_head ∧
    (update_ack s n).1.unacknowledged_packet_count =
      (s.unacknowledged_packet_count + 2 ^ 64 -
        count_occupied s.send_buffer ((n + 1) % 256 - s.acknowledge_head) s.acknowledge_head)
        % 2 ^ 64 := by
  simp only [update_ack, if_neg hne, hvalid, Bool.not_true, Bool.false_eq_true, if_false,
    if_pos hlt]
  rw [clear_retransmission_timer_send_buffer, clear_retransmission_timer_unacknowledged]
  exact ⟨trivial, rfl, trivial, rfl⟩

theorem update_ack_wrapped (s : session) (n : Nat)
    (hvalid : is_valid_sequence_number s n = true)
    (hne : n ≠ (s.acknowledge_head + 256 - 1) % 256)
    (hgt : s.acknowledge_head > (n + 1) % 256) :
    (update_ack s n).1.acknowledge_head = (n + 1) % 256 ∧
    (update_ack s n).1.send_buffer =
      release (release s.send_buffer s.acknowledge_head 256) 0 ((n + 1) % 256) ∧
    (update_ack s n).2 =
      occupied_callbacks s.send_buffer (256 - s.acknowledge_head) s.acknowledge_head ++
        occupied_callbacks (release s.send_buffer s.acknowledge_head 256) ((n + 1) % 256) 0 ∧
    (update_ack s n).1.unacknowledged_packet_count =
      (s.unacknowledged_packet_count + 2 ^ 64 -
        (count_occupied s.send_buffer (256 - s.acknowledge_head) s.acknowledge_head +
          count_occupied s.send_buffer ((n + 1) % 256) 0)) % 2 ^ 64 := by
  simp only [update_ack, if_neg hne, hvalid, Bool.not_true, Bool.false_eq_true, if_false,
    if_neg (show ¬ s.acknowledge_head < (n + 1) % 256 by omega), if_pos hgt]
  rw [clear_retransmission_timer_send_buffer, clear_retransmission_timer_unacknowledged]
  exact ⟨trivial, rfl, trivial, rfl⟩

theorem window_callbacks_straight (s : session) (len : Nat)
    (h : s.acknowledge_head + len ≤ 256) :
    occupied_callbacks s.send_buffer len s.acknowledge_head = window_callbacks s len := by
  rw [occupied_callbacks_eq]
  unfold window_callbacks
  apply List.filterMap_congr
  intro t ht
  have := List.mem_range.mp ht
  rw [Nat.mod_eq_of_lt (by omega)]

theorem occupied_callbacks_congr (ring ring' : Nat → Option Nat × send_cb) (n i : Nat)
    (h : ∀ t, t < n → ring (i + t) = ring' (i + t)) :
    occupied_callbacks ring n i = occupied_callbacks ring' n i := by
  rw [occupied_callbacks_eq, occupied_callbacks_eq]
  apply List.filterMap_congr
  intro t ht
  rw [h t (List.mem_range.mp ht)]

theorem window_callbacks_wrapped (s : session) (m : Nat) (hah : s.acknowledge_head < 256)
    (hm : m ≤ s.acknowledge_head) :
    occupied_callbacks s.send_buffer (256 - s.acknowledge_head) s.acknowledge_head ++
        occupied_callbacks s.send_buffer m 0 =
      window_callbacks s (256 - s.acknowledge_head + m) := by
  rw [window_callbacks_straight s _ (by omega), occupied_callbacks_eq]
  unfold window_callbacks
  rw [List.range_add, List.filterMap_append, List.filterMap_map]
  have e2 : (List.range m).filterMap
        (fun t => if (s.send_buffer (0 + t)).1.isSome = true then some (s.send_buffer (0 + t)).2
                  else none) =
      (List.range m).filterMap
        ((fun t => if (s.send_buffer ((s.acknowledge_head + t) % 256)).1.isSome = true
                   then some (s.send_buffer ((s.acknowledge_head + t) % 256)).2 else none) ∘
          fun x => 256 - s.acknowledge_head + x) := by
    apply List.filterMap_congr
    intro t ht
    have := List.mem_range.mp ht
    simp only [Function.comp, Nat.zero_add]
    rw [show (s.acknowledge_head + (256 - s.acknowledge_head + t)) % 256 = t by omega]
  rw [e2]

/-- C7 (cumulative acknowledgement): for an acknowledgement number `n` that is valid and is not
`acknowledge_head - 1`, `update_ack( n )` sets `acknowledge_head` to `n + 1` modulo 256,
empties every slot of the send ring in the wraparound range from the old `acknowledge_head` up
to `n + 1`, returns the callbacks of the slots of that range that were occupied (in wraparound
order), decreases `unacknowledged_packet_count` by their number (in `size_t` arithmetic, which
is the plain difference when the counter is at least that number) and leaves every slot outside
the range as it was; for `n = acknowledge_head - 1` it changes nothing and returns no
callback. -/
theorem C7_cumulative_acknowledgement (s : session) (n : Nat)
    (hah : s.acknowledge_head < 256) (hn : n < 256)
    (hvalid : is_valid_sequence_number s n = true)
    (hne : n ≠ (s.acknowledge_head + 256 - 1) % 256) :
    (update_ack s n).1.acknowledge_head = (n + 1) % 256 ∧
    (∀ i, i < 256 →
      (i + 256 - s.acknowledge_head) % 256 < ((n + 1) % 256 + 256 - s.acknowledge_head) % 256 →
      ((update_ack s n).1.send_buffer i).1 = none) ∧
    (∀ i, i < 256 →
      ¬ (i + 256 - s.acknowledge_head) % 256 < ((n + 1) % 256 + 256 - s.acknowledge_head) % 256 →
      (update_ack s n).1.send_buffer i = s.send_buffer i) ∧
    (update_ack s n).2 =
      window_callbacks s (((n + 1) % 256 + 256 - s.acknowledge_head) % 256) ∧
    (update_ack s n).1.unacknowledged_packet_count =
      (s.unacknowledged_packet_count + 2 ^ 64 -
        (window_callbacks s (((n + 1) % 256 + 256 - s.acknowledge_head) % 256)).length)
        % 2 ^ 64 ∧
    ((window_callbacks s (((n + 1) % 256 + 256 - s.acknowledge_head) % 256)).length ≤
        s.unacknowledged_packet_count → s.unacknowledged_packet_count < 2 ^ 64 →
      (update_ack s n).1.unacknowledged_packet_count =
        s.unacknowledged_packet_count -
          (window_callbacks s (((n + 1) % 256 + 256 - s.acknowledge_head) % 256)).length) ∧
    update_ack s ((s.acknowledge_head + 256 - 1) % 256) = (s, []) := by
  have hcount : (update_ack s n).2 =
        window_callbacks s (((n + 1) % 256 + 256 - s.acknowledge_head) % 256) ∧
      (update_ack s n).1.unacknowledged_packet_count =
        (s.unacknowledged_packet_count + 2 ^ 64 -
          (window_callbacks s (((n + 1) % 256 + 256 - s.acknowledge_head) % 256)).length)
          % 2 ^ 64 ∧
      (update_ack s n).1.acknowledge_head = (n + 1) % 256 ∧
      (∀ i, i < 256 → (update_ack s n).1.send_buffer i =
        if (i + 256 - s.acknowledge_head) % 256 <
            ((n + 1) % 256 + 256 - s.acknowledge_head) % 256
        then (none, (s.send_buffer i).2) else s.send_buffer i) := by
    by_cases hlt : s.acknowledge_head < (n + 1) % 256
    · obtain ⟨a1, a2, a3, a4⟩ := update_ack_straight s n hvalid hne hlt
      have hlen : ((n + 1) % 256 + 256 - s.acknowledge_head) % 256 =
          (n + 1) % 256 - s.acknowledge_head := by omega
      rw [hlen, a3, a4, count_occupied_eq, window_callbacks_straight s _ (by omega)]
      refine ⟨rfl, rfl, a1, ?_⟩
      intro i hi
      rw [a2]
      simp only [release]
      by_cases hc : s.acknowledge_head ≤ i ∧ i < (n + 1) % 256
      · rw [if_pos hc, if_pos (by omega)]
      · rw [if_neg hc, if_neg (by omega)]
    · have hgt : s.acknowledge_head > (n + 1) % 256 := by omega
      obtain ⟨a1, a2, a3, a4⟩ := update_ack_wrapped s n hvalid hne hgt
      have hlen : ((n + 1) % 256 + 256 - s.acknowledge_head) % 256 =
          256 - s.acknowledge_head + (n + 1) % 256 := by omega
      have hrel : occupied_callbacks (release s.send_buffer s.acknowledge_head 256)
          ((n + 1) % 256) 0 = occupied_callbacks s.send_buffer ((n + 1) % 256) 0 := by
        apply occupied_callbacks_congr
        intro t ht
        simp only [release, Nat.zero_add]
        rw [if_neg (by omega)]
      rw [hlen, a3, a4, count_occupied_eq, count_occupied_eq, hrel, ← List.length_append,
        window_callbacks_wrapped s _ hah (by omega)]
      refine ⟨rfl, rfl, a1, ?_⟩
      intro i hi
      rw [a2]
      simp only [release]
      by_cases hc : (i + 256 - s.acknowledge_head) % 256 <
          256 - s.acknowledge_head + (n + 1) % 256
      · rw [if_pos hc]
        by_cases h0 : 0 ≤ i ∧ i < (n + 1) % 256
        · rw [if_pos h0, if_neg (by omega)]
        · rw [if_neg h0, if_pos (by omega)]
      · rw [if_neg hc, if_neg (by omega), if_neg (by omega)]
  obtain ⟨c1, c2, c3, c4⟩ := hcount
  refine ⟨c3, ?_, ?_, c1, c2, ?_, ?_⟩
  · intro i hi hin
    rw [c4 i hi, if_pos hin]
  · intro i hi hout
    rw [c4 i hi, if_neg hout]
  · intro hle hlt
    rw [c2]
    omega
  · unfold update_ack
    rw [if_pos rfl]

set_option maxRecDepth 10000 in
/-- The theorem C7 on the session `window_example` acknowledging up to sequence number 12. -/
theorem C7_cumulative_acknowledgement_witness :
    is_valid_sequence_number window_example 12 = true ∧
    (update_ack window_example 12).1.acknowledge_head = 13 ∧
    (update_ack window_example 12).2 = [send_cb.connect 0, send_cb.user 1, send_cb.user 2] ∧
    (update_ack window_example 12).1.send_buffer 13 = (some 3, send_cb.user 3) :=
  have h := C7_cumulative_acknowledgement window_example 12 (by decide) (by decide)
    (by decide) (by decide)
  ⟨by decide, h.1, h.2.2.2.1.trans (by decide),
    (h.2.2.1 13 (by decide) (by decide)).trans (by decide)⟩

/-! ## Selective acknowledgement -/

theorem clear_retransmission_timer_heads (s : session) (a b : Nat) :
    (clear_retransmission_timer s a b).send_head = s.send_head ∧
    (clear_retransmission_timer s a b).acknowledge_head = s.acknowledge_head :=
  ⟨congrArg (fun v => v.2.2.2.2.2.1) (clear_retransmission_timer_view s a b),
    congrArg (fun v => v.2.2.2.2.2.2.1) (clear_retransmission_timer_view s a b)⟩

theorem is_valid_sequence_number_congr (s s' : session) (x : Nat)
    (h1 : s'.send_head = s.send_head) (h2 : s'.acknowledge_head = s.acknowledge_head) :
    is_valid_sequence_number s' x = is_valid_sequence_number s x := by
  unfold is_valid_sequence_number
  rw [h1, h2]

/-- The effect of `update_eak`: the slots freed are those that are listed, pass
`is_valid_sequence_number` and are occupied; their callbacks are captured once each, in the
order of the list. -/
theorem update_eak_spec (L : List Nat) (s : session) (cbs : List send_cb)
    (hu : s.unacknowledged_packet_count < 2 ^ 64) :
    ∃ F : List Nat, F.Nodup ∧ F.Sublist L ∧
      (∀ x, x ∈ F ↔ x ∈ L ∧ is_valid_sequence_number s x = true ∧
        (s.send_buffer x).1.isSome = true) ∧
      (update_eak s L cbs).2 = cbs ++ F.map (fun x => (s.send_buffer x).2) ∧
      (∀ i, (update_eak s L cbs).1.send_buffer i =
        if i ∈ F then (none, (s.send_buffer i).2) else s.send_buffer i) ∧
      (update_eak s L cbs).1.acknowledge_head = s.acknowledge_head ∧
      (update_eak s L cbs).1.send_head = s.send_head ∧
      (update_eak s L cbs).1.unacknowledged_packet_count =
        (s.unacknowledged_packet_count + F.length * (2 ^ 64 - 1)) % 2 ^ 64 := by
  induction L generalizing s cbs with
  | nil =>
    refine ⟨[], List.nodup_nil, List.Sublist.refl _, by simp, by simp [update_eak],
      by simp [update_eak], rfl, rfl, ?_⟩
    simp only [update_eak, List.length_nil, Nat.zero_mul, Nat.add_zero]
    exact (Nat.mod_eq_of_lt hu).symm
  | cons x rest ih =>
    by_cases hx : (is_valid_sequence_number s x && (s.send_buffer x).1.isSome) = true
    · have hv : is_valid_sequence_number s x = true := by
        simp only [Bool.and_eq_true] at hx; exact hx.1
      have ho : (s.send_buffer x).1.isSome = true := by
        simp only [Bool.and_eq_true] at hx; exact hx.2
      generalize hs' : clear_retransmission_timer
        { s with send_buffer := fun i => if i = x then (none, (s.send_buffer x).2)
                                         else s.send_buffer i
                 unacknowledged_packet_count :=
                   (s.unacknowledged_packet_count + 2 ^ 64 - 1) % 2 ^ 64 }
        x ((x + 1) % 256) = s'
      have hstep : update_eak s (x :: rest) cbs =
          update_eak s' rest (cbs ++ [(s.send_buffer x).2]) := by
        rw [← hs']
        simp only [update_eak, hx, if_true]
      have hb : s'.send_buffer =
          fun i => if i = x then (none, (s.send_buffer x).2) else s.send_buffer i := by
        rw [← hs', clear_retransmission_timer_send_buffer]
      have hh : s'.send_head = s.send_head ∧ s'.acknowledge_head = s.acknowledge_head := by
        rw [← hs']
        exact clear_retransmission_timer_heads _ _ _
      have hcount : s'.unacknowledged_packet_count =
          (s.unacknowledged_packet_count + 2 ^ 64 - 1) % 2 ^ 64 := by
        rw [← hs', clear_retransmission_timer_unacknowledged]
      obtain ⟨F, f1, f2, f3, f4, f5, f6, f7, f8⟩ :=
        ih s' (cbs ++ [(s.send_buffer x).2]) (by rw [hcount]; exact Nat.mod_lt _ (by norm_num))
      have hxF : x ∉ F := by
        intro hmem
        have := ((f3 x).mp hmem).2.2
        rw [hb] at this
        simp at this
      have hsecond : ∀ y, (s'.send_buffer y).2 = (s.send_buffer y).2 := by
        intro y
        rw [hb]
        by_cases hy : y = x
        · simp [hy]
        · simp [hy]
      refine ⟨x :: F, List.nodup_cons.mpr ⟨hxF, f1⟩, f2.cons₂ x, ?_, ?_, ?_, ?_, ?_, ?_⟩
      · intro y
        rw [List.mem_cons, List.mem_cons, f3 y,
          is_valid_sequence_number_congr s s' y hh.1 hh.2, hb]
        by_cases hy : y = x
        · subst hy
          simp [hv, ho]
        · simp [hy]
      · rw [hstep, f4]
        simp [hsecond]
      · intro i
        rw [hstep, f5, hb]
        by_cases hi : i = x
        · subst hi
          simp
        · simp [hi]
      · rw [hstep, f6, hh.2]
      · rw [hstep, f7, hh.1]
      · rw [hstep, f8, hcount]
        simp only [List.length_cons]
        norm_num
        omega
    · have hstep : update_eak s (x :: rest) cbs = update_eak s rest cbs := by
        simp only [update_eak, hx, Bool.false_eq_true, if_false]
      obtain ⟨F, f1, f2, f3, f4, f5, f6, f7, f8⟩ := ih s cbs hu
      refine ⟨F, f1, f2.cons x, ?_, by rw [hstep, f4], by rw [hstep]; exact f5,
        by rw [hstep, f6], by rw [hstep, f7], by rw [hstep, f8]⟩
      intro y
      rw [f3 y, List.mem_cons]
      constructor
      · rintro ⟨h1, h2, h3⟩
        exact ⟨Or.inr h1, h2, h3⟩
      · rintro ⟨h1 | h1, h2, h3⟩
        · subst h1
          exfalso
          apply hx
          simp [h2, h3]
        · exact ⟨h1, h2, h3⟩

theorem send_body_transmits (s : session) (p : Nat) (resend : Bool) (cb : send_cb) (fr : Bool)
    (hsyn : flag (s.heap p) 0x80 = false) (hflags : check_common_header (s.heap p) = true)
    (hsize : 4 ≤ byte (s.heap p) 1 ∧ byte (s.heap p) 1 ≤ (s.heap p).length)
    (hready : ready_to_send s = true)
    (hgate : resend = true ∨ s.state = session_state.opened ∨ flag (s.heap p) 0x02 = true) :
    send_body s (some p) resend cb fr = result.ok (send_transmit s p (s.heap p) cb) := by
  have hg : (!resend && s.state != session_state.opened && !false &&
      !flag (s.heap p) 0x02) = false := by
    rcases hgate with h | h | h
    · simp [h]
    · simp [h]
    · simp [h]
  simp only [send_body, hready, hflags, hsyn, Bool.false_eq_true, if_false,
    Bool.not_true, invoke_all, List.foldl_nil]
  rw [hg, if_neg (by simp), if_neg (not_lt.mpr hsize.2), if_neg (not_lt.mpr hsize.1)]

theorem send_body_queues (s : session) (p : Nat) (resend : Bool) (cb : send_cb) (fr : Bool)
    (hready : ready_to_send s = false)
    (hgate : resend = true ∨ s.state = session_state.opened ∨ flag (s.heap p) 0x80 = true ∨
      flag (s.heap p) 0x02 = true) :
    send_body s (some p) resend cb fr =
      result.ok { s with pending := s.pending ++ [(some p, cb)] } := by
  have hg : (!resend && s.state != session_state.opened && !flag (s.heap p) 0x80 &&
      !flag (s.heap p) 0x02) = false := by
    rcases hgate with h | h | h | h
    · simp [h]
    · simp [h]
    · simp [h]
    · simp [h]
  simp only [send_body, hg, hready, Bool.false_eq_true, if_false, Bool.not_false, if_true]

theorem resend_unfold (t : session) (a b : Nat) (ha : a < 256) (hb : b < 256) (hab : a ≠ b) :
    resend t a b =
      (if (t.send_buffer a).1.isSome = true then
        send_body t (t.send_buffer a).1 false (t.send_buffer a).2 true
       else result.ok t).and_then (fun t' => resend t' ((a + 1) % 256) b) := by
  unfold resend
  have h1 : (b + 256 - a) % 256 = (b + 256 - (a + 1) % 256) % 256 + 1 := by omega
  rw [h1]
  rfl

theorem resend_empty (t : session) (a : Nat) : resend t a a = result.ok t := by
  unfold resend
  rw [show (a + 256 - a) % 256 = 0 by omega]
  rfl

theorem is_valid_sequence_number_iff (s : session) (x : Nat) (hx : x < 256)
    (hah : s.acknowledge_head < 256) (hsh : s.send_head < 256) :
    is_valid_sequence_number s x = true ↔
      x = (s.acknowledge_head + 256 - 1) % 256 ∨
      (x + 256 - s.acknowledge_head) % 256 < (s.send_head + 256 - s.acknowledge_head) % 256 := by
  unfold is_valid_sequence_number
  split_ifs with h1 h2 h3
  · simp [h1]
  · simp only [Bool.and_eq_true, decide_eq_true_eq]
    omega
  · simp only [Bool.or_eq_true, decide_eq_true_eq]
    omega
  · simp only [Bool.false_eq_true, false_iff]
    omega

/-- The outcomes of `send` for a slot of the send ring handed to it by `resend`, other than
the transmission of a segment that is not a SYN on an Opened session. -/
theorem send_body_from_ring (t : session) (p : Nat) (cb : send_cb) :
    (flag (t.heap p) 0x02 = true → flag (t.heap p) 0x80 = false →
      check_common_header (t.heap p) = true → 4 ≤ byte (t.heap p) 1 →
      byte (t.heap p) 1 ≤ (t.heap p).length → ready_to_send t = true →
      ∃ d, (send_body t (some p) false cb true).s.sent = t.sent ++ [d] ∧
        (send_body t (some p) false cb true).thrown = none ∧
        byte d 1 = byte (t.heap p) 1 ∧
        d.drop (byte d 1) = (t.heap p).drop (byte (t.heap p) 1)) ∧
    ((t.state = session_state.opened ∨ flag (t.heap p) 0x80 = true ∨
        flag (t.heap p) 0x02 = true) → ready_to_send t = false →
      send_body t (some p) false cb true =
        result.ok { t with pending := t.pending ++ [(some p, cb)] }) ∧
    (t.state ≠ session_state.opened → flag (t.heap p) 0x80 = false →
      flag (t.heap p) 0x02 = false →
      send_body t (some p) false cb true = result.ok (invoke t cb false)) ∧
    (flag (t.heap p) 0x80 = true → ready_to_send t = true →
      check_common_header (t.heap p) = true → 4 ≤ byte (t.heap p) 1 →
      byte (t.heap p) 1 ≤ (t.heap p).length →
      (send_body t (some p) false cb true).thrown = some error.null_dereference ∧
      (send_body t (some p) false cb true).s.sent = t.sent ∧
      (send_body t (some p) false cb true).s.pending = t.pending) ∧
    ((t.state = session_state.opened ∨ flag (t.heap p) 0x80 = true ∨
        flag (t.heap p) 0x02 = true) → ready_to_send t = true →
      (check_common_header (t.heap p) = false ∨ byte (t.heap p) 1 < 4 ∨
        (t.heap p).length < byte (t.heap p) 1) →
      send_body t (some p) false cb true = result.throw t error.invalid_packet) := by
  refine ⟨?_, ?_, ?_, ?_, ?_⟩
  · intro htcs hsyn hflags h4 hlen hready
    have h := send_body_transmits t p false cb true hsyn hflags ⟨h4, hlen⟩ hready
      (Or.inr (Or.inr htcs))
    have h1 : byte (stamp (t.heap p) t.send_head t.receive_head) 1 = byte (t.heap p) 1 := by
      rw [stamp_byte_low _ _ _ _ (by omega), stamp_header_byte1]
    refine ⟨stamp (t.heap p) t.send_head t.receive_head, ?_, ?_, h1, ?_⟩
    · rw [h]; exact send_transmit_sent _ _ _ _
    · rw [h]; rfl
    · rw [h1]; exact stamp_drop _ _ _ h4
  · intro hgate hready
    exact send_body_queues t p false cb true hready (Or.inr hgate)
  · intro hstate hsyn htcs
    have hg : (t.state != session_state.opened) = true := by simpa using hstate
    simp only [send_body, hsyn, htcs, hg, Bool.not_false, Bool.and_self, if_true]
  · intro hsyn hready hflags h4 hlen
    have hlen2 : ¬ (byte (t.heap p) 1 > (t.heap p).length) := by omega
    have h42 : ¬ (byte (t.heap p) 1 < 4) := by omega
    simp only [send_body, hsyn, hready, hflags, hlen2, h42, send_syn, Bool.not_true,
      Bool.and_false, Bool.false_and, Bool.false_eq_true, if_false, if_true]
    exact ⟨rfl, rfl, rfl⟩
  · intro hgate hready hbad
    have hg : (!false && t.state != session_state.opened && !flag (t.heap p) 0x80 &&
        !flag (t.heap p) 0x02) = false := by
      rcases hgate with h | h | h
      · simp [h]
      · simp [h]
      · simp [h]
    simp only [send_body, hready, Bool.not_true, Bool.false_eq_true, if_false]
    rw [hg, if_neg (by simp)]
    rcases hbad with h | h | h
    · simp only [h, Bool.not_false, if_true]
    · by_cases hc : (!check_common_header (t.heap p)) = true
      · rw [if_pos hc]
      · rw [if_neg hc]
        by_cases hl : byte (t.heap p) 1 > (t.heap p).length
        · rw [if_pos hl]
        · rw [if_neg hl, if_pos h]
    · by_cases hc : (!check_common_header (t.heap p)) = true
      · rw [if_pos hc]
      · rw [if_neg hc, if_pos h]

set_option maxRecDepth 100000 in
/-- C9, evaluated: the segment numbered 5 is sent with the payload `7`, nothing is received, and
the retransmission timer of slot 5 expires.  The datagram transmitted by `resend( 5, 6 )` is not
the original: `send` gives it the next sequence number, 6, and a checksum to match, stores the
segment a second time in slot 6 and advances `send_head` from 6 to 7. -/
theorem C9_retransmission_is_renumbered :
    retransmission_example.state = session_state.opened ∧
    retransmission_example.send_head = 6 ∧
    (retransmission_example.send_buffer 5).1.isSome = true ∧
    retransmission_example.waiting = [(0, 5)] ∧
    transmitted_since_handshake retransmission_example = [[68, 6, 5, 20, 175, 229, 7]] ∧
    (retransmission_timeout retransmission_example 0 5).thrown = none ∧
    transmitted_since_handshake (retransmission_timeout retransmission_example 0 5).s =
      [[68, 6, 5, 20, 175, 229, 7], [68, 6, 6, 20, 174, 229, 7]] ∧
    (retransmission_timeout retransmission_example 0 5).s.send_head = 7 ∧
    (retransmission_timeout retransmission_example 0 5).s.send_buffer 6 =
      (retransmission_timeout retransmission_example 0 5).s.send_buffer 5 := by
  decide

set_option maxRecDepth 100000 in
/-- C10, evaluated with `max_retrans = 3`: the segment numbered 5 is sent and nothing is
received.  When only the timer of slot 5 expires, `close()` is called at its fourth expiry, after
five transmissions of the payload; when every timer expires in the order in which it was armed
(the copies stored by `resend` have timers of their own), `close()` is called at the fifteenth
expiry, after sixteen transmissions.  Before that expiry the hook has not been called.  In both
runs `close()` leaves the state Opened and no completion callback is invoked with `false`: the
callback of the outstanding send has not been invoked at all. -/
theorem C10_retransmission_exhaustion_evaluated :
    retransmission_example.self_config.max_retrans = 3 ∧
    (expire_slot 5 (expire_slot 5 (expire_slot 5 retransmission_example))).on_closed = 0 ∧
    (transmitted_since_handshake
      (expire_slot 5 (expire_slot 5 (expire_slot 5 retransmission_example)))).length = 4 ∧
    (expire_slot 5 (expire_slot 5 (expire_slot 5
      (expire_slot 5 retransmission_example)))).on_closed = 1 ∧
    (transmitted_since_handshake (expire_slot 5 (expire_slot 5 (expire_slot 5
      (expire_slot 5 retransmission_example))))).length = 5 ∧
    (expire_slot 5 (expire_slot 5 (expire_slot 5
      (expire_slot 5 retransmission_example)))).state = session_state.opened ∧
    (expire_slot 5 (expire_slot 5 (expire_slot 5
      (expire_slot 5 retransmission_example)))).called = connected_example.called ∧
    (expire_rounds 14 retransmission_example).on_closed = 0 ∧
    (expire_rounds 15 retransmission_example).on_closed = 1 ∧
    ((transmitted_since_handshake (expire_rounds 15 retransmission_example)).map
      (fun d => d.drop (byte d 1))) = List.replicate 16 [7] ∧
    (expire_rounds 15 retransmission_example).state = session_state.opened ∧
    (expire_rounds 15 retransmission_example).called = connected_example.called ∧
    ((expire_rounds 15 retransmission_example).send_buffer 5).2 = send_cb.user 7 ∧
    ((expire_rounds 15 retransmission_example).send_buffer 5).1.isSome = true := by
  decide

/-! ## The SYN handshake -/

theorem generate_syn_eq (s : session) (ack : Bool) :
    generate_syn s ack = .ok (allocate s (syn_segment s.self_config ack)) := by
  simp only [generate_syn, session_config.dump, new_buffer, to_be16, to_be32, syn_segment]
  rw [if_neg (by decide)]
  simp [List.replicate_succ]

theorem or_shift8 (x y : Nat) (hy : y < 256) : (x <<< 8) ||| y = x * 256 + y := by
  rw [Nat.shiftLeft_eq, show (2:Nat) ^ 8 = 256 by norm_num, Nat.mul_comm]
  exact (Nat.mul_add_lt_is_or (i := 8) (by simpa using hy) x).symm

theorem from_be16_bytes (b : buffer_t) (pos v : Nat) (hv : v < 65536)
    (h0 : byte b pos = (v >>> 8) % 256) (h1 : byte b (pos + 1) = v % 256) :
    from_be16 b pos = v := by
  unfold from_be16
  rw [h0, h1, or_shift8 _ _ (Nat.mod_lt _ (by norm_num)), Nat.shiftRight_eq_div_pow]
  omega

theorem from_be32_bytes (b : buffer_t) (pos v : Nat) (hv : v < 2 ^ 32)
    (h0 : byte b pos = (v >>> 24) % 256) (h1 : byte b (pos + 1) = (v >>> 16) % 256)
    (h2 : byte b (pos + 2) = (v >>> 8) % 256) (h3 : byte b (pos + 3) = v % 256) :
    from_be32 b pos = v := by
  unfold from_be32
  rw [h0, h1, h2, h3]
  simp only [Nat.shiftRight_eq_div_pow, Nat.shiftLeft_eq]
  have e1 : v / 2 ^ 24 % 256 * 2 ^ 24 ||| v / 2 ^ 16 % 256 * 2 ^ 16 =
      2 ^ 16 * (v / 2 ^ 24 % 256 * 256 + v / 2 ^ 16 % 256) := by
    have := Nat.mul_add_lt_is_or (i := 24) (b := v / 2 ^ 16 % 256 * 2 ^ 16)
      (by norm_num; omega) (v / 2 ^ 24 % 256)
    rw [Nat.mul_comm (2 ^ 24)] at this
    rw [← this]
    norm_num
    omega
  have e2 : 2 ^ 16 * (v / 2 ^ 24 % 256 * 256 + v / 2 ^ 16 % 256) ||| v / 2 ^ 8 % 256 * 2 ^ 8 =
      2 ^ 8 * ((v / 2 ^ 24 % 256 * 256 + v / 2 ^ 16 % 256) * 256 + v / 2 ^ 8 % 256) := by
    have := Nat.mul_add_lt_is_or (i := 16) (b := v / 2 ^ 8 % 256 * 2 ^ 8)
      (by norm_num; omega) (v / 2 ^ 24 % 256 * 256 + v / 2 ^ 16 % 256)
    rw [← this]
    norm_num
    omega
  have e3 := Nat.mul_add_lt_is_or (i := 8) (b := v % 256) (by norm_num; omega)
    ((v / 2 ^ 24 % 256 * 256 + v / 2 ^ 16 % 256) * 256 + v / 2 ^ 8 % 256)
  rw [e1, e2, ← e3]
  norm_num at hv ⊢
  omega

theorem parse_congr (b b' : buffer_t)
    (h : ∀ i, 4 ≤ i → i < 26 → byte b i = byte b' i) :
    session_config.parse b 4 26 = session_config.parse b' 4 26 := by
  simp only [session_config.parse, from_be16, from_be32]
  rw [h 4 (by norm_num) (by norm_num), h 5 (by norm_num) (by norm_num),
    h 6 (by norm_num) (by norm_num), h 8 (by norm_num) (by norm_num),
    h 9 (by norm_num) (by norm_num), h 10 (by norm_num) (by norm_num),
    h 11 (by norm_num) (by norm_num), h 12 (by norm_num) (by norm_num),
    h 13 (by norm_num) (by norm_num), h 14 (by norm_num) (by norm_num),
    h 15 (by norm_num) (by norm_num), h 16 (by norm_num) (by norm_num),
    h 17 (by norm_num) (by norm_num), h 18 (by norm_num) (by norm_num),
    h 19 (by norm_num) (by norm_num), h 20 (by norm_num) (by norm_num),
    h 21 (by norm_num) (by norm_num), h 22 (by norm_num) (by norm_num),
    h 23 (by norm_num) (by norm_num), h 24 (by norm_num) (by norm_num),
    h 25 (by norm_num) (by norm_num)]

theorem parse_syn_segment (c : session_config) (ack : Bool) (hc : c.in_range) :
    session_config.parse (syn_segment c ack) 4 26 = .ok c := by
  obtain ⟨h1, h2, h3, h4, h5, h6, h7, h8, h9, h10, h11, h12⟩ := hc
  have e3 := from_be16_bytes (syn_segment c ack) 8 c.maximum_segment_size h3 rfl rfl
  have e4 := from_be16_bytes (syn_segment c ack) 10 c.retransmission_timeout_value h4 rfl rfl
  have e5 := from_be16_bytes (syn_segment c ack) 12 c.cumulative_ack_timeout_value h5 rfl rfl
  have e6 := from_be16_bytes (syn_segment c ack) 14 c.null_segment_timeout_value h6 rfl rfl
  have e7 := from_be16_bytes (syn_segment c ack) 16 c.transfer_state_timeout_value h7 rfl rfl
  have e12 := from_be32_bytes (syn_segment c ack) 22 c.connection_identifier h12 rfl rfl rfl rfl
  have b4 : byte (syn_segment c ack) 4 = 0x10 := rfl
  have b5 : byte (syn_segment c ack) (4 + 1) = c.max_out_of_standing_segs :=
    Nat.mod_eq_of_lt h1
  have b6 : byte (syn_segment c ack) (4 + 2) = c.option_flags := Nat.mod_eq_of_lt h2
  have b18 : byte (syn_segment c ack) (4 + 14) = c.max_retrans := Nat.mod_eq_of_lt h8
  have b19 : byte (syn_segment c ack) (4 + 15) = c.max_cum_ack := Nat.mod_eq_of_lt h9
  have b20 : byte (syn_segment c ack) (4 + 16) = c.max_out_of_seq := Nat.mod_eq_of_lt h10
  have b21 : byte (syn_segment c ack) (4 + 17) = c.max_auto_reset := Nat.mod_eq_of_lt h11
  unfold session_config.parse
  rw [if_neg (by decide), b4, if_neg (by decide), b5, b6, b18, b19, b20, b21, e3, e4, e5, e6,
    e7, e12]

theorem parse_stamp_syn (c : session_config) (ack : Bool) (seq rh : Nat) (hc : c.in_range) :
    session_config.parse (stamp (syn_segment c ack) seq rh) 4 26 = .ok c ∧
    session_config.parse (zero_checksum (stamp (syn_segment c ack) seq rh)) 4 26 = .ok c := by
  have h1 : byte (syn_segment c ack) 1 = 28 := rfl
  constructor
  · rw [← parse_syn_segment c ack hc]
    apply parse_congr
    intro i h4 h26
    rw [stamp_byte_low _ _ _ _ (by rw [h1]; omega), stamp_header_byte_ge _ _ _ _ h4]
  · rw [← parse_syn_segment c ack hc, zero_checksum_stamp _ _ _ (by rw [h1]; norm_num)]
    apply parse_congr
    intro i h4 h26
    rw [h1, byte_to_be16_ne _ _ _ _ (by omega) (by omega), stamp_header_byte_ge _ _ _ _ h4]

theorem occupied_callbacks_empty (ring : Nat → Option Nat × send_cb) (n i : Nat)
    (h : ∀ j, (ring j).1 = none) : occupied_callbacks ring n i = [] := by
  induction n generalizing i with
  | zero => rfl
  | succ n ih =>
    unfold occupied_callbacks
    rw [h i, ih]
    rfl

theorem syn_segment_flags (c : session_config) (ack : Bool) :
    flag (syn_segment c ack) 0x80 = true ∧ flag (syn_segment c ack) 0x40 = ack ∧
    flag (syn_segment c ack) 0x10 = false ∧ flag (syn_segment c ack) 0x08 = false ∧
    flag (syn_segment c ack) 0x02 = false ∧ check_common_header (syn_segment c ack) = true ∧
    byte (syn_segment c ack) 1 = 28 ∧ (syn_segment c ack).length = 28 := by
  cases ack <;> simp only [flag, byte, syn_segment, check_common_header, List.getD_cons_zero,
    List.getD_cons_succ, List.length_cons, List.length_nil, if_true, Bool.false_eq_true,
    if_false] <;> decide

/-- A SYN segment built from a configuration within range is transmitted when the send window
has room; the callbacks of the outstanding sends are invoked with `false`. -/
theorem send_syn_segment (s : session) (p : Nat) (c : session_config) (ack : Bool) (cb : send_cb)
    (hheap : s.heap p = syn_segment c ack) (hc : c.in_range) (hready : ready_to_send s = true) :
    send s (some p) false cb =
      result.ok (invoke_all (send_transmit (syn_state s c) p (syn_segment c ack) cb)
        (occupied_callbacks s.send_buffer 256 0) false) := by
  obtain ⟨f1, _, _, _, f5, f6, f7, f8⟩ := syn_segment_flags c ack
  simp only [send, send_body, hheap, f1, f5, f6, f7, f8, hready, Bool.not_true, Bool.and_false,
    Bool.false_and, Bool.false_eq_true, if_false, if_true, send_syn, parse_syn_segment c ack hc,
    syn_state]
  rw [if_neg (by decide), if_neg (by decide)]

/-- The run of `session::receive` on a datagram that passes the checks of the header, of the
checksum and of the acknowledgement number. -/
theorem receive_checked (s : session) (d : buffer_t) (received : List buffer_t)
    (hflags : check_common_header d = true) (h4 : 4 ≤ byte d 1) (hlen : byte d 1 ≤ d.length)
    (hsum : checksum_ok d = true)
    (hack : flag d 0x40 = true → is_valid_sequence_number s (byte (zero_checksum d) 3) = true) :
    receive s (some d) received =
      match (if flag d 0x80 = true then receive_syn s (zero_checksum d) else .ok s) with
      | .error (s, e) => ⟨s, received, some e⟩
      | .ok s =>
        receive_store (if flag d 0x02 = true then receive_tcs s (zero_checksum d) else s)
          (zero_checksum d) received := by
  have hv : (flag d 0x40 && !is_valid_sequence_number s (byte (zero_checksum d) 3)) = false := by
    cases hf : flag d 0x40 with
    | false => rfl
    | true => rw [hack hf]; rfl
  simp only [receive, hflags, hsum, hv, Bool.not_true, Bool.false_eq_true, if_false]
  rw [if_neg (not_lt.mpr hlen), if_neg (not_lt.mpr h4)]

/-- The members that `update_receive_head` leaves alone. -/
theorem update_receive_head_frame (s : session) (received : List buffer_t) :
    (update_receive_head s received).1 =
      { s with receive_buffer := (update_receive_head s received).1.receive_buffer
               receive_head := (update_receive_head s received).1.receive_head
               out_of_sequence_count :=
                 (update_receive_head s received).1.out_of_sequence_count } ∧
    (update_receive_head s received).1.out_of_sequence_count =
      (if s.receive_head = (update_receive_head s received).1.receive_head
       then (s.out_of_sequence_count + 1) % 256 else 0) := by
  simp only [update_receive_head]
  split_ifs <;> exact ⟨rfl, rfl⟩

/-- The walk of `update_receive_head` over a single occupied slot at `receive_head`. -/
theorem update_receive_head_single (s : session) (received : List buffer_t) (b : buffer_t)
    (hh : s.receive_head < 256) (hb : s.receive_buffer s.receive_head = some b)
    (hnext : s.receive_buffer ((s.receive_head + 1) % 256) = none) :
    (update_receive_head s received).1 =
      { s with receive_buffer := fun i => if i = s.receive_head then none
                                          else s.receive_buffer i
               receive_head := (s.receive_head + 1) % 256
               out_of_sequence_count := 0 } ∧
    (update_receive_head s received).2 =
      received ++ (if deliverable b = true then [b] else []) := by
  obtain ⟨u1, u2, u3⟩ := update_receive_head_run s received 1 hh (by norm_num)
    (by
      intro t ht
      have : t = 0 := by omega
      subst this
      rw [Nat.add_zero, Nat.mod_eq_of_lt hh, hb]
      rfl)
    hnext
  obtain ⟨g1, g2⟩ := update_receive_head_frame s received
  constructor
  · rw [g1, g2, u1, if_neg (by omega)]
    congr 1
    funext i
    rw [u2]
    by_cases hi : i = s.receive_head
    · rw [if_pos hi, if_pos (by omega)]
    · rw [if_neg hi, if_neg (by omega)]
  · rw [u3]
    rw [show List.range 1 = [0] from rfl]
    simp only [List.filterMap_cons, List.filterMap_nil, Nat.add_zero,
      Nat.mod_eq_of_lt hh, hb, Option.filter]
    split_ifs <;> rfl

/-- The header of a stamped segment as the receiver reads it, after zeroing the checksum. -/
theorem zeroed_stamp (B : buffer_t) (seq rh : Nat) (h6 : 6 ≤ byte B 1)
    (hlen : byte B 1 ≤ B.length) :
    byte (zero_checksum (stamp B seq rh)) 1 = byte B 1 ∧
    (zero_checksum (stamp B seq rh)).length = B.length ∧
    byte (zero_checksum (stamp B seq rh)) 2 = seq ∧
    byte (zero_checksum (stamp B seq rh)) 3 =
      (if flag B 0x40 = true then (rh + 256 - 1) % 256 else byte B 3) ∧
    (∀ m, 4 &&& m = 0 → 0xFB &&& m = m →
      flag (zero_checksum (stamp B seq rh)) m = flag B m) := by
  have hz := zero_checksum_stamp B seq rh (by omega)
  refine ⟨?_, ?_, ?_, ?_, ?_⟩
  · rw [hz, byte_to_be16_ne _ _ _ _ (by omega) (by omega), stamp_header_byte1]
  · rw [hz, to_be16_length, stamp_header_length]
  · rw [hz, byte_to_be16_ne _ _ _ _ (by omega) (by omega), stamp_header_byte2 _ _ _ (by omega)]
  · rw [hz, byte_to_be16_ne _ _ _ _ (by omega) (by omega), stamp_header_byte3 _ _ _ (by omega)]
  · intro m h1 h2
    unfold flag
    rw [hz, byte_to_be16_ne _ _ _ _ (by omega) (by omega), stamp_header_byte0 _ _ _ (by omega)]
    split_ifs
    · exact flag_or_chk _ _ h1
    · exact flag_and_chk _ _ h2

theorem default_in_range (r : Nat) : (session_config.default r).in_range := by
  simp only [session_config.in_range, session_config.default]
  refine ⟨by norm_num, by norm_num, by norm_num, by norm_num, by norm_num, by norm_num,
    by norm_num, by norm_num, by norm_num, by norm_num, by norm_num, ?_⟩
  exact Nat.mod_lt _ (by norm_num)

theorem merge_default (r r' : Nat) :
    (session_config.default r).merge (session_config.default r') = session_config.default r := by
  simp [session_config.merge, session_config.default]

/-- The first step of the handshake: `connect` on a fresh session transmits the SYN. -/
theorem handshake_connect (oc uc a1 a2 x id : Nat) (huc : uc ≤ 64) :
    connect (session.new oc uc [a1, a2, x]) id =
      result.ok (send_transmit
        (syn_state (allocate { session.new oc uc [a1, a2, x] with client := true }
          (syn_segment (session_config.default a1) false)).1 (session_config.default a1))
        0 (syn_segment (session_config.default a1) false) (send_cb.connect id)) := by
  have hs := send_syn_segment
    (allocate { session.new oc uc [a1, a2, x] with client := true }
      (syn_segment (session_config.default a1) false)).1 0 (session_config.default a1) false
    (send_cb.connect id) (by simp [allocate, session.new]) (default_in_range a1)
    (by simp [ready_to_send, allocate, session.new, session_config.default, huc])
  rw [occupied_callbacks_empty _ _ _ (by intro j; rfl)] at hs
  simp only [connect, generate_syn_eq]
  exact hs

/-- The members that the loop of `clear_retransmission_timer` leaves alone. -/
theorem clear_retransmission_timer_loop_frame (n : Nat) (s : session) (i : Nat) :
    clear_retransmission_timer_loop n s i =
      { s with retransmission_timer := (clear_retransmission_timer_loop n s i).retransmission_timer
               waiting := (clear_retransmission_timer_loop n s i).waiting } := by
  induction n generalizing s i with
  | zero => rfl
  | succ n ih =>
    have h := ih (clear_retransmission_timer_at s i) ((i + 1) % 256)
    have e : clear_retransmission_timer_loop (n + 1) s i =
        clear_retransmission_timer_loop n (clear_retransmission_timer_at s i) ((i + 1) % 256) := rfl
    rw [e]
    generalize clear_retransmission_timer_loop n (clear_retransmission_timer_at s i)
      ((i + 1) % 256) = L at h ⊢
    rw [h]
    unfold clear_retransmission_timer_at
    split <;> rfl

/-- The members that `update_ack` leaves alone. -/
theorem update_ack_frame (s : session) (n : Nat) :
    (update_ack s n).1 =
      { s with send_buffer := (update_ack s n).1.send_buffer
               unacknowledged_packet_count := (update_ack s n).1.unacknowledged_packet_count
               acknowledge_head := (update_ack s n).1.acknowledge_head
               retransmission_timer := (update_ack s n).1.retransmission_timer
               waiting := (update_ack s n).1.waiting } := by
  by_cases h1 : n = (s.acknowledge_head + 256 - 1) % 256
  · simp only [update_ack, if_pos h1]
  by_cases h2 : is_valid_sequence_number s n = true
  swap
  · simp only [update_ack, if_neg h1, h2, Bool.not_false, if_true]
  have key : ∀ (t : session) (a b : Nat),
      clear_retransmission_timer t a b =
        { t with retransmission_timer := (clear_retransmission_timer t a b).retransmission_timer
                 waiting := (clear_retransmission_timer t a b).waiting } :=
    fun t a b => clear_retransmission_timer_loop_frame ((b + 256 - a) % 256) t a
  rcases lt_trichotomy s.acknowledge_head ((n + 1) % 256) with h3 | h3 | h3
  · simp only [update_ack, if_neg h1, h2, Bool.not_true, Bool.false_eq_true, if_false, if_pos h3]
    generalize hL : clear_retransmission_timer _ _ _ = L
    have h := key _ _ _ ▸ hL
    rw [← h]
  · simp only [update_ack, if_neg h1, h2, Bool.not_true, Bool.false_eq_true, if_false,
      if_neg (show ¬ s.acknowledge_head < (n + 1) % 256 by omega),
      if_neg (show ¬ s.acknowledge_head > (n + 1) % 256 by omega)]
    generalize hL : clear_retransmission_timer _ _ _ = L
    have h := key _ _ _ ▸ hL
    rw [← h]
  · simp only [update_ack, if_neg h1, h2, Bool.not_true, Bool.false_eq_true, if_false,
      if_neg (show ¬ s.acknowledge_head < (n + 1) % 256 by omega), if_pos h3]
    generalize hL : clear_retransmission_timer _ _ _ = L
    have h := key _ _ _ ▸ hL
    rw [← h]

/-- The acknowledgement of the only outstanding segment: its slot is released, its callback is
captured and `acknowledge_head` moves past it. -/
theorem update_ack_single (s : session) (hah : s.acknowledge_head < 256)
    (hsh : s.send_head = (s.acknowledge_head + 1) % 256)
    (hslot : (s.send_buffer s.acknowledge_head).1.isSome = true) :
    (update_ack s s.acknowledge_head).2 = [(s.send_buffer s.acknowledge_head).2] ∧
    (update_ack s s.acknowledge_head).1.acknowledge_head = (s.acknowledge_head + 1) % 256 ∧
    (update_ack s s.acknowledge_head).1.unacknowledged_packet_count =
      (s.unacknowledged_packet_count + 2 ^ 64 - 1) % 2 ^ 64 := by
  have hvalid : is_valid_sequence_number s s.acknowledge_head = true := by
    rw [is_valid_sequence_number_iff s _ hah hah (by rw [hsh]; exact Nat.mod_lt _ (by norm_num))]
    right
    rw [hsh]
    omega
  have hne : s.acknowledge_head ≠ (s.acknowledge_head + 256 - 1) % 256 := by omega
  by_cases h : s.acknowledge_head < 255
  · obtain ⟨u1, _, u3, u4⟩ := update_ack_straight s _ hvalid hne (by omega)
    have e : (s.acknowledge_head + 1) % 256 - s.acknowledge_head = 1 := by omega
    rw [e] at u3 u4
    refine ⟨?_, u1, ?_⟩
    · rw [u3]
      simp only [occupied_callbacks, hslot, if_true]
    · rw [u4]
      simp only [count_occupied, hslot, if_true]
  · obtain ⟨u1, _, u3, u4⟩ := update_ack_wrapped s _ hvalid hne (by omega)
    have e : 256 - s.acknowledge_head = 1 := by omega
    have e0 : (s.acknowledge_head + 1) % 256 = 0 := by omega
    rw [e, e0] at u3 u4
    refine ⟨?_, u1, ?_⟩
    · rw [u3]
      simp only [occupied_callbacks, hslot, if_true, List.append_nil]
    · rw [u4]
      simp only [count_occupied, hslot, if_true]

theorem invoke_plain (s : session) (cb : send_cb) (b : Bool) (h : cb ≠ send_cb.disconnect) :
    invoke s cb b = { s with called := s.called ++ [(cb, b)] } := by
  cases cb <;> first | exact absurd rfl h | rfl

/-- The members that `send_transmit` leaves alone when the segment is not a RST. -/
theorem send_transmit_frame (s : session) (p : Nat) (buf : buffer_t) (cb : send_cb)
    (h : flag buf 0x10 = false) :
    (send_transmit s p buf cb).state = s.state ∧
    (send_transmit s p buf cb).self_config = s.self_config ∧
    (send_transmit s p buf cb).remote_config = s.remote_config ∧
    (send_transmit s p buf cb).pending = s.pending ∧
    (send_transmit s p buf cb).out_of_sequence_count = s.out_of_sequence_count ∧
    (send_transmit s p buf cb).client = s.client ∧
    (send_transmit s p buf cb).receive_buffer = s.receive_buffer ∧
    (send_transmit s p buf cb).receive_head = s.receive_head ∧
    (send_transmit s p buf cb).sent = s.sent ++ [stamp buf s.send_head s.receive_head] := by
  unfold send_transmit
  simp only [h, Bool.false_eq_true, if_false, reset_cumulative_ack_counter,
    set_null_segment_timer, set_retransmission_timer]
  split_ifs <;> exact ⟨rfl, rfl, rfl, rfl, rfl, rfl, rfl, rfl, rfl⟩

theorem generate_ack_eq (s : session) : generate_ack s = allocate s ack_segment := rfl

theorem ack_segment_flags :
    flag ack_segment 0x80 = false ∧ flag ack_segment 0x40 = true ∧
    flag ack_segment 0x20 = false ∧ flag ack_segment 0x10 = false ∧
    flag ack_segment 0x08 = false ∧ flag ack_segment 0x02 = false ∧
    check_common_header ack_segment = true ∧
    byte ack_segment 1 = 6 ∧ ack_segment.length = 6 := by
  decide

/-- The part of `session::receive` after `update_receive_head` for a plain acknowledgement:
nothing is sent in answer. -/
theorem receive_tail_ack (s : session) (Z : buffer_t)
    (f80 : flag Z 0x80 = false) (f40 : flag Z 0x40 = true) (f20 : flag Z 0x20 = false)
    (f08 : flag Z 0x08 = false) (f02 : flag Z 0x02 = false) (hsize : byte Z 1 = Z.length)
    (hooc : s.out_of_sequence_count < s.self_config.max_out_of_seq) (hpend : s.pending = []) :
    receive_tail s Z =
      result.ok (invoke_all (update_ack s (byte Z 3)).1 (update_ack s (byte Z 3)).2 true) := by
  have ho : (update_ack s (byte Z 3)).1.out_of_sequence_count = s.out_of_sequence_count := by
    have h := congrArg session.out_of_sequence_count (update_ack_frame s (byte Z 3))
    exact h
  have hc : (update_ack s (byte Z 3)).1.self_config = s.self_config := by
    have h := congrArg session.self_config (update_ack_frame s (byte Z 3))
    exact h
  have hp : (update_ack s (byte Z 3)).1.pending = [] := by
    have h := congrArg session.pending (update_ack_frame s (byte Z 3))
    exact h.trans hpend
  unfold receive_tail
  simp only [f80, f40, f20, f08, f02, hsize, bne_self_eq_false, if_true, answer_syn,
    Bool.false_and, Bool.false_eq_true, if_false, result.and_then, result.ok, Bool.or_false,
    answer_nul_eak, ge_iff_le]
  generalize update_ack s (byte Z 3) = U at ho hc hp ⊢
  rw [ho, hc, if_neg (by omega), hp]
  rfl

/-- The part of `session::receive` after `update_receive_head` for a SYN without ACK: the
session answers with a SYN carrying ACK and its own configuration. -/
theorem receive_tail_syn (s : session) (Z : buffer_t)
    (f80 : flag Z 0x80 = true) (f40 : flag Z 0x40 = false) (f20 : flag Z 0x20 = false)
    (f08 : flag Z 0x08 = false) (f02 : flag Z 0x02 = false) (hsize : byte Z 1 = Z.length)
    (hooc : s.out_of_sequence_count < s.self_config.max_out_of_seq) (hpend : s.pending = [])
    (hring : ∀ j, (s.send_buffer j).1 = none) (hc : s.self_config.in_range)
    (hready : ready_to_send s = true) :
    receive_tail s Z =
      result.ok (send_transmit (syn_state (allocate s (syn_segment s.self_config true)).1
        s.self_config) s.heap_size (syn_segment s.self_config true) send_cb.ignore) := by
  have hs := send_syn_segment (allocate s (syn_segment s.self_config true)).1 s.heap_size
    s.self_config true send_cb.ignore (by simp [allocate]) hc hready
  rw [occupied_callbacks_empty (allocate s (syn_segment s.self_config true)).1.send_buffer 256 0
    hring] at hs
  obtain ⟨g1, g2, _, g4, g5, _, _, _, _⟩ := send_transmit_frame
    (syn_state (allocate s (syn_segment s.self_config true)).1 s.self_config) s.heap_size
    (syn_segment s.self_config true) send_cb.ignore (syn_segment_flags _ _).2.2.1
  unfold receive_tail
  simp only [f80, f40, f20, f08, f02, hsize, bne_self_eq_false, if_true, answer_syn,
    Bool.false_and, Bool.true_and, Bool.and_false, Bool.not_false, Bool.false_eq_true, if_false,
    Bool.or_false, answer_nul_eak, ge_iff_le, generate_syn_eq]
  have e : (allocate s (syn_segment s.self_config true)).2 = s.heap_size := rfl
  rw [e, hs]
  simp only [result.and_then, result.ok, invoke_all, List.foldl_nil]
  rw [g5, g2]
  have e4 : (syn_state (allocate s (syn_segment s.self_config true)).1 s.self_config).pending
      = [] := hpend
  have e5 : (syn_state (allocate s (syn_segment s.self_config true)).1
      s.self_config).self_config = s.self_config := rfl
  have e6 : (syn_state (allocate s (syn_segment s.self_config true)).1
      s.self_config).out_of_sequence_count = s.out_of_sequence_count := rfl
  rw [e5, e6, if_neg (not_le.mpr hooc)]
  simp only []
  rw [g4, e4]
  rfl

/-- The part of `session::receive` after `update_receive_head` for a SYN carrying ACK: the
acknowledged segments are released and the session answers with a plain ACK. -/
theorem receive_tail_syn_ack (s : session) (Z : buffer_t)
    (f80 : flag Z 0x80 = true) (f40 : flag Z 0x40 = true) (f20 : flag Z 0x20 = false)
    (f08 : flag Z 0x08 = false) (f02 : flag Z 0x02 = false) (hsize : byte Z 1 = Z.length)
    (hooc : s.out_of_sequence_count < s.self_config.max_out_of_seq) (hpend : s.pending = [])
    (hstate : s.state = session_state.opened)
    (hready : ready_to_send (update_ack s (byte Z 3)).1 = true) :
    receive_tail s Z =
      result.ok (invoke_all
        (send_transmit (allocate (update_ack s (byte Z 3)).1 ack_segment).1
          (update_ack s (byte Z 3)).1.heap_size ack_segment send_cb.ignore)
        (update_ack s (byte Z 3)).2 true) := by
  have ho : (update_ack s (byte Z 3)).1.out_of_sequence_count = s.out_of_sequence_count := by
    have h := congrArg session.out_of_sequence_count (update_ack_frame s (byte Z 3))
    exact h
  have hc : (update_ack s (byte Z 3)).1.self_config = s.self_config := by
    have h := congrArg session.self_config (update_ack_frame s (byte Z 3))
    exact h
  have hp : (update_ack s (byte Z 3)).1.pending = [] := by
    have h := congrArg session.pending (update_ack_frame s (byte Z 3))
    exact h.trans hpend
  have hst : (update_ack s (byte Z 3)).1.state = session_state.opened := by
    have h := congrArg session.state (update_ack_frame s (byte Z 3))
    exact h.trans hstate
  unfold receive_tail
  simp only [f80, f40, f20, f08, f02, hsize, bne_self_eq_false, if_true, answer_syn,
    Bool.false_and, Bool.true_and, Bool.and_false, Bool.and_true, Bool.not_true,
    Bool.false_eq_true, if_false, Bool.or_false, answer_nul_eak, ge_iff_le, generate_ack_eq]
  generalize update_ack s (byte Z 3) = U at ho hc hp hst hready ⊢
  obtain ⟨a1, a2, a3, a4, a5, a6, a7, a8, a9⟩ := ack_segment_flags
  have hheap : (allocate U.1 ack_segment).1.heap (allocate U.1 ack_segment).2 = ack_segment := by
    simp [allocate]
  have hs := send_transmits (allocate U.1 ack_segment).1 (allocate U.1 ack_segment).2 false
    send_cb.ignore (by rw [hheap]; exact a1) (by rw [hheap]; exact a7)
    (by rw [hheap, a8, a9]; exact ⟨by norm_num, le_refl _⟩) hready (Or.inr (Or.inl hst))
  rw [hheap] at hs
  obtain ⟨g1, g2, _, g4, g5, _, _, _, _⟩ := send_transmit_frame
    (allocate U.1 ack_segment).1 (allocate U.1 ack_segment).2 ack_segment send_cb.ignore a4
  simp only [result.and_then, result.ok]
  rw [hs]
  simp only [result.and_then, result.ok]
  rw [g5, g2]
  have e1 : (allocate U.1 ack_segment).1.out_of_sequence_count = U.1.out_of_sequence_count := rfl
  have e2 : (allocate U.1 ack_segment).1.self_config = U.1.self_config := rfl
  have e3 : (allocate U.1 ack_segment).1.pending = U.1.pending := rfl
  rw [e1, e2, ho, hc, if_neg (by omega)]
  simp only []
  rw [g4, e3, hp]
  rfl

/-- A segment without payload arriving at `receive_head` of an empty receive ring: it is stored,
the walk of `update_receive_head` passes it without delivering anything, and the rest of
`receive` runs with `receive_head` advanced by one. -/
theorem receive_store_single (s : session) (Z : buffer_t) (r : List buffer_t)
    (hring : ∀ i, s.receive_buffer i = none) (hrh : s.receive_head = byte Z 2)
    (h256 : byte Z 2 < 256) (hsize : byte Z 1 = Z.length) :
    receive_store s Z r =
      ⟨(receive_tail { s with receive_buffer := fun _ => none
                              receive_head := (byte Z 2 + 1) % 256
                              out_of_sequence_count := 0 } Z).s, r,
       (receive_tail { s with receive_buffer := fun _ => none
                              receive_head := (byte Z 2 + 1) % 256
                              out_of_sequence_count := 0 } Z).thrown⟩ := by
  have hnd : deliverable Z = false := by
    simp only [deliverable, hsize, gt_iff_lt, lt_self_iff_false, and_false, decide_False]
  obtain ⟨u1, u2⟩ := update_receive_head_single
    { s with receive_buffer := fun i => if i = byte Z 2 then some Z else s.receive_buffer i } r Z
    (by show s.receive_head < 256; omega)
    (by show (if s.receive_head = byte Z 2 then some Z else _) = some Z; rw [if_pos hrh])
    (by
      show (if (s.receive_head + 1) % 256 = byte Z 2 then some Z else _) = none
      rw [if_neg (by omega), hring])
  have e : (fun i => if i = s.receive_head then none
      else if i = byte Z 2 then some Z else s.receive_buffer i) = fun _ => none := by
    funext i
    split_ifs
    · rfl
    · omega
    · exact hring i
  simp only [receive_store]
  rw [show (s.receive_buffer (byte Z 2)).isSome = false by rw [hring]; rfl,
    if_neg (by decide)]
  rw [u1, u2, hnd, if_neg (by decide), List.append_nil]
  simp only []
  rw [e, hrh]

/-- The run of `session::receive` on a SYN segment (with or without ACK) up to the walk of
`update_receive_head`. -/
theorem receive_syn_datagram (s : session) (c : session_config) (ack : Bool) (seq rh : Nat)
    (r : List buffer_t) (hc : c.in_range) (hseq : seq < 256)
    (hfresh : s.client = true ∨ s.state = session_state.initial)
    (hack : ack = true → is_valid_sequence_number s
      (byte (zero_checksum (stamp (syn_segment c ack) seq rh)) 3) = true) :
    receive s (some (stamp (syn_segment c ack) seq rh)) r =
      ⟨(receive_tail (syn_received s c seq)
          (zero_checksum (stamp (syn_segment c ack) seq rh))).s, r,
       (receive_tail (syn_received s c seq)
          (zero_checksum (stamp (syn_segment c ack) seq rh))).thrown⟩ := by
  obtain ⟨f1, f2, f3, f4, f5, f6, f7, f8⟩ := syn_segment_flags c ack
  have h4 : 4 ≤ byte (syn_segment c ack) 1 := by rw [f7]; norm_num
  have hl : byte (syn_segment c ack) 1 ≤ (syn_segment c ack).length := by rw [f7, f8]
  obtain ⟨z1, z2, z3, _, _⟩ := zeroed_stamp (syn_segment c ack) seq rh (by rw [f7]; norm_num) hl
  have d1 : byte (stamp (syn_segment c ack) seq rh) 1 = 28 := by
    rw [stamp_byte_low _ _ _ _ (by rw [f7]; norm_num), stamp_header_byte1, f7]
  rw [receive_checked s _ r (by rw [check_common_header_stamp _ _ _ h4 hl]; exact f6)
    (by rw [d1]; norm_num) (by rw [d1, stamp_length, f8]) (checksum_ok_stamp _ _ _ h4 hl)
    (by
      rw [stamp_flag _ _ _ _ h4 hl (by decide) (by decide), f2]
      exact hack)]
  rw [stamp_flag _ _ _ _ h4 hl (by decide) (by decide), f1, if_pos rfl,
    stamp_flag _ _ _ _ h4 hl (by decide) (by decide), f5]
  simp only [Bool.false_eq_true, if_false]
  have hsyn : receive_syn s (zero_checksum (stamp (syn_segment c ack) seq rh)) =
      .ok { s with receive_buffer := fun _ => none
                   receive_head := byte (zero_checksum (stamp (syn_segment c ack) seq rh)) 2
                   remote_config := c.merge (s.self_config.merge c)
                   self_config := s.self_config.merge c
                   state := session_state.opened } := by
    have hg : (!s.client && s.state != session_state.initial) = false := by
      rcases hfresh with h | h <;> simp [h]
    simp only [receive_syn, hg, Bool.false_eq_true, if_false, z1, f7,
      (parse_stamp_syn c ack seq rh hc).2]
  rw [hsyn]
  simp only []
  rw [receive_store_single _ _ r (fun _ => rfl) rfl (by rw [z3]; exact hseq)
    (by rw [z1, z2, f7, f8])]
  simp only [z3, syn_received]

theorem syn_segment_eak (c : session_config) (ack : Bool) :
    flag (syn_segment c ack) 0x20 = false := by
  cases ack <;> simp only [flag, byte, syn_segment, List.getD_cons_zero] <;> decide

theorem merge_in_range (l r : session_config) (h : l.in_range) : (l.merge r).in_range := by
  simp only [session_config.in_range, session_config.merge] at h ⊢
  omega

/-- The second step of the handshake: a session in state Initial that receives a SYN answers
with a SYN carrying ACK, numbered by `rand()`, acknowledging the SYN, and is Opened. -/
theorem handshake_answer_syn (s : session) (c : session_config) (seq rh : Nat)
    (r : List buffer_t) (hc : c.in_range) (hcs : s.self_config.in_range) (hseq : seq < 256)
    (hinit : s.state = session_state.initial) (hsend : ∀ j, (s.send_buffer j).1 = none)
    (hready : s.send_head + 1 ≠ s.acknowledge_head)
    (hun : s.unacknowledged_packet_count ≤ c.max_out_of_standing_segs)
    (hpend : s.pending = [])
    (hoos : 0 < min s.self_config.max_out_of_seq c.max_out_of_seq) :
    (receive s (some (stamp (syn_segment c false) seq rh)) r).thrown = none ∧
    (receive s (some (stamp (syn_segment c false) seq rh)) r).received = r ∧
    (receive s (some (stamp (syn_segment c false) seq rh)) r).s.sent =
      s.sent ++ [stamp (syn_segment (s.self_config.merge c) true) (s.rand.headD 0 % 256)
        ((seq + 1) % 256)] ∧
    (receive s (some (stamp (syn_segment c false) seq rh)) r).s.state = session_state.opened ∧
    (receive s (some (stamp (syn_segment c false) seq rh)) r).s.self_config =
      s.self_config.merge c ∧
    (receive s (some (stamp (syn_segment c false) seq rh)) r).s.acknowledge_head =
      s.rand.headD 0 % 256 ∧
    (receive s (some (stamp (syn_segment c false) seq rh)) r).s.send_head =
      (s.rand.headD 0 % 256 + 1) % 256 ∧
    (receive s (some (stamp (syn_segment c false) seq rh)) r).s.send_buffer
      (s.rand.headD 0 % 256) = (some s.heap_size, send_cb.ignore) ∧
    (∀ i, (receive s (some (stamp (syn_segment c false) seq rh)) r).s.receive_buffer i = none) ∧
    (receive s (some (stamp (syn_segment c false) seq rh)) r).s.receive_head =
      (seq + 1) % 256 ∧
    (receive s (some (stamp (syn_segment c false) seq rh)) r).s.pending = [] ∧
    (receive s (some (stamp (syn_segment c false) seq rh)) r).s.out_of_sequence_count = 0 ∧
    (receive s (some (stamp (syn_segment c false) seq rh)) r).s.unacknowledged_packet_count =
      (s.unacknowledged_packet_count + 1) % 2 ^ 64 := by
  obtain ⟨f1, f2, f3, f4, f5, f6, f7, f8⟩ := syn_segment_flags c false
  obtain ⟨z1, z2, _, _, zf⟩ := zeroed_stamp (syn_segment c false) seq rh (by rw [f7]; norm_num)
    (by rw [f7, f8])
  have ht := receive_tail_syn (syn_received s c seq)
    (zero_checksum (stamp (syn_segment c false) seq rh))
    (by rw [zf _ (by decide) (by decide)]; exact f1)
    (by rw [zf _ (by decide) (by decide)]; exact f2)
    (by rw [zf _ (by decide) (by decide)]; exact syn_segment_eak c false)
    (by rw [zf _ (by decide) (by decide)]; exact f4)
    (by rw [zf _ (by decide) (by decide)]; exact f5)
    (by rw [z1, z2, f7, f8])
    (by
      show 0 < (s.self_config.merge c).max_out_of_seq
      exact hoos)
    hpend hsend (merge_in_range _ _ hcs)
    (by
      simp only [ready_to_send, syn_received, session_config.merge]
      simp [hready, hun])
  rw [receive_syn_datagram s c false seq rh r hc hseq (Or.inr hinit) (by intro h; cases h), ht]
  obtain ⟨g1, g2, _, g4, g5, _, g7, g8, g9⟩ := send_transmit_frame
    (syn_state (allocate (syn_received s c seq)
      (syn_segment (syn_received s c seq).self_config true)).1 (syn_received s c seq).self_config)
    (syn_received s c seq).heap_size (syn_segment (syn_received s c seq).self_config true)
    send_cb.ignore (syn_segment_flags _ _).2.2.1
  obtain ⟨k1, k2, _, k4, k5⟩ := send_transmit_fields
    (syn_state (allocate (syn_received s c seq)
      (syn_segment (syn_received s c seq).self_config true)).1 (syn_received s c seq).self_config)
    (syn_received s c seq).heap_size (syn_segment (syn_received s c seq).self_config true)
    send_cb.ignore
  refine ⟨rfl, rfl, ?_, ?_, ?_, ?_, ?_, ?_, ?_, ?_, ?_, ?_, ?_⟩
  · exact g9
  · exact g1
  · exact g2
  · exact k4
  · exact k1
  · show (send_transmit _ _ _ _).send_buffer _ = _
    rw [k2]
    exact if_pos rfl
  · intro i
    show (send_transmit _ _ _ _).receive_buffer i = none
    rw [g7]
    rfl
  · exact g8
  · exact g4.trans hpend
  · exact g5
  · exact k5

/-- The members that `update_ack` leaves alone, one by one. -/
theorem update_ack_keeps (s : session) (n : Nat) :
    (update_ack s n).1.state = s.state ∧
    (update_ack s n).1.self_config = s.self_config ∧
    (update_ack s n).1.remote_config = s.remote_config ∧
    (update_ack s n).1.send_head = s.send_head ∧
    (update_ack s n).1.receive_head = s.receive_head ∧
    (update_ack s n).1.sent = s.sent ∧
    (update_ack s n).1.called = s.called := by
  have h := update_ack_frame s n
  generalize update_ack s n = U at h ⊢
  rw [h]
  exact ⟨rfl, rfl, rfl, rfl, rfl, rfl, rfl⟩

/-- The sequence number of the only outstanding segment passes `is_valid_sequence_number`. -/
theorem is_valid_outstanding (s : session) (hah : s.acknowledge_head < 256)
    (hsh : s.send_head = (s.acknowledge_head + 1) % 256) :
    is_valid_sequence_number s s.acknowledge_head = true := by
  rw [is_valid_sequence_number_iff s _ hah hah (by rw [hsh]; exact Nat.mod_lt _ (by norm_num))]
  right
  rw [hsh]
  omega

/-- The fourth step of the handshake, and every later plain acknowledgement of the only
outstanding segment: it is accepted, nothing is sent, the callback of the segment is invoked
with `true`, state and configuration stay. -/
theorem handshake_accept_ack (s : session) (seq rh : Nat) (r : List buffer_t)
    (hseq : seq < 256) (hring : ∀ i, s.receive_buffer i = none) (hhead : s.receive_head = seq)
    (hah : s.acknowledge_head < 256) (hsh : s.send_head = (s.acknowledge_head + 1) % 256)
    (hslot : (s.send_buffer s.acknowledge_head).1.isSome = true)
    (hcb : (s.send_buffer s.acknowledge_head).2 ≠ send_cb.disconnect)
    (hrh : (rh + 256 - 1) % 256 = s.acknowledge_head) (hpend : s.pending = [])
    (hoos : 0 < s.self_config.max_out_of_seq) :
    (receive s (some (stamp ack_segment seq rh)) r).thrown = none ∧
    (receive s (some (stamp ack_segment seq rh)) r).received = r ∧
    (receive s (some (stamp ack_segment seq rh)) r).s.sent = s.sent ∧
    (receive s (some (stamp ack_segment seq rh)) r).s.state = s.state ∧
    (receive s (some (stamp ack_segment seq rh)) r).s.self_config = s.self_config ∧
    (receive s (some (stamp ack_segment seq rh)) r).s.called =
      s.called ++ [((s.send_buffer s.acknowledge_head).2, true)] := by
  obtain ⟨a1, a2, a3, a4, a5, a6, a7, a8, a9⟩ := ack_segment_flags
  have h4 : 4 ≤ byte ack_segment 1 := by rw [a8]; norm_num
  have hl : byte ack_segment 1 ≤ ack_segment.length := by rw [a8, a9]
  obtain ⟨z1, z2, z3, z4, zf⟩ := zeroed_stamp ack_segment seq rh (by rw [a8]) hl
  rw [a2, if_pos rfl, hrh] at z4
  have d1 : byte (stamp ack_segment seq rh) 1 = 6 := by
    rw [stamp_byte_low _ _ _ _ (by rw [a8]; norm_num), stamp_header_byte1, a8]
  rw [receive_checked s _ r (by rw [check_common_header_stamp _ _ _ h4 hl]; exact a7)
    (by rw [d1]; norm_num) (by rw [d1, stamp_length, a9])
    (checksum_ok_stamp _ _ _ h4 hl)
    (by
      intro _
      rw [z4]
      exact is_valid_outstanding s hah hsh)]
  rw [stamp_flag _ _ _ _ h4 hl (by decide) (by decide), a1,
    stamp_flag _ _ _ _ h4 hl (by decide) (by decide), a6]
  simp only [Bool.false_eq_true, if_false]
  rw [receive_store_single s _ r hring (by rw [z3]; exact hhead) (by rw [z3]; exact hseq)
    (by rw [z1, z2, a8, a9]), z3]
  rw [receive_tail_ack
    { s with receive_buffer := fun _ => none
             receive_head := (seq + 1) % 256
             out_of_sequence_count := 0 } _
    (by rw [zf _ (by decide) (by decide)]; exact a1)
    (by rw [zf _ (by decide) (by decide)]; exact a2)
    (by rw [zf _ (by decide) (by decide)]; exact a3)
    (by rw [zf _ (by decide) (by decide)]; exact a5)
    (by rw [zf _ (by decide) (by decide)]; exact a6)
    (by rw [z1, z2, a8, a9]) hoos hpend, z4]
  obtain ⟨u1, _, _⟩ := update_ack_single
    { s with receive_buffer := fun _ => none
             receive_head := (seq + 1) % 256
             out_of_sequence_count := 0 } hah hsh hslot
  obtain ⟨k1, k2, _, _, _, k6, k7⟩ := update_ack_keeps
    { s with receive_buffer := fun _ => none
             receive_head := (seq + 1) % 256
             out_of_sequence_count := 0 } s.acknowledge_head
  simp only [result.ok]
  rw [u1]
  simp only [invoke_all, List.foldl_cons, List.foldl_nil]
  rw [invoke_plain _ _ _ hcb]
  exact ⟨trivial, trivial, k6, k1, k2, by rw [k7]⟩

/-- The third step of the handshake: a client whose SYN is the only outstanding segment
receives the SYN carrying ACK, releases its SYN, answers with a plain ACK and is Opened with the
merged configuration. -/
theorem handshake_answer_syn_ack (s : session) (c : session_config) (seq rh : Nat)
    (r : List buffer_t) (hc : c.in_range) (hseq : seq < 256) (hclient : s.client = true)
    (hah : s.acknowledge_head < 256) (hsh : s.send_head = (s.acknowledge_head + 1) % 256)
    (hslot : (s.send_buffer s.acknowledge_head).1.isSome = true)
    (hcb : (s.send_buffer s.acknowledge_head).2 ≠ send_cb.disconnect)
    (hrh : (rh + 256 - 1) % 256 = s.acknowledge_head)
    (hun : (s.unacknowledged_packet_count + 2 ^ 64 - 1) % 2 ^ 64 ≤ c.max_out_of_standing_segs)
    (hpend : s.pending = [])
    (hoos : 0 < min s.self_config.max_out_of_seq c.max_out_of_seq) :
    (receive s (some (stamp (syn_segment c true) seq rh)) r).thrown = none ∧
    (receive s (some (stamp (syn_segment c true) seq rh)) r).received = r ∧
    (receive s (some (stamp (syn_segment c true) seq rh)) r).s.sent =
      s.sent ++ [stamp ack_segment s.send_head ((seq + 1) % 256)] ∧
    (receive s (some (stamp (syn_segment c true) seq rh)) r).s.state = session_state.opened ∧
    (receive s (some (stamp (syn_segment c true) seq rh)) r).s.self_config =
      s.self_config.merge c ∧
    (receive s (some (stamp (syn_segment c true) seq rh)) r).s.called =
      s.called ++ [((s.send_buffer s.acknowledge_head).2, true)] := by
  obtain ⟨f1, f2, f3, f4, f5, f6, f7, f8⟩ := syn_segment_flags c true
  obtain ⟨z1, z2, _, z4, zf⟩ := zeroed_stamp (syn_segment c true) seq rh (by rw [f7]; norm_num)
    (by rw [f7, f8])
  rw [f2, if_pos rfl, hrh] at z4
  have u1 : (update_ack (syn_received s c seq) s.acknowledge_head).2 =
      [(s.send_buffer s.acknowledge_head).2] :=
    (update_ack_single (syn_received s c seq) hah hsh hslot).1
  have u2 : (update_ack (syn_received s c seq) s.acknowledge_head).1.acknowledge_head =
      (s.acknowledge_head + 1) % 256 :=
    (update_ack_single (syn_received s c seq) hah hsh hslot).2.1
  have u3 : (update_ack (syn_received s c seq) s.acknowledge_head).1.unacknowledged_packet_count
      = (s.unacknowledged_packet_count + 2 ^ 64 - 1) % 2 ^ 64 :=
    (update_ack_single (syn_received s c seq) hah hsh hslot).2.2
  obtain ⟨k1, k2, k3, k4, k5, k6, k7⟩ := update_ack_keeps (syn_received s c seq)
    s.acknowledge_head
  have ht := receive_tail_syn_ack (syn_received s c seq)
    (zero_checksum (stamp (syn_segment c true) seq rh))
    (by rw [zf _ (by decide) (by decide)]; exact f1)
    (by rw [zf _ (by decide) (by decide)]; exact f2)
    (by rw [zf _ (by decide) (by decide)]; exact syn_segment_eak c true)
    (by rw [zf _ (by decide) (by decide)]; exact f4)
    (by rw [zf _ (by decide) (by decide)]; exact f5)
    (by rw [z1, z2, f7, f8])
    (by
      show 0 < (s.self_config.merge c).max_out_of_seq
      exact hoos)
    hpend rfl
    (by
      rw [z4]
      unfold ready_to_send
      rw [k4, k3, u2, u3]
      have e1 : (syn_received s c seq).send_head = s.send_head := rfl
      have e4 : (syn_received s c seq).remote_config.max_out_of_standing_segs =
        c.max_out_of_standing_segs := rfl
      rw [e1, e4, hsh]
      simp only [Bool.and_eq_true, decide_eq_true_eq]
      exact ⟨by omega, hun⟩)
  rw [receive_syn_datagram s c true seq rh r hc hseq (Or.inl hclient)
    (by
      intro _
      rw [z4]
      exact is_valid_outstanding s hah hsh), ht, z4, u1]
  obtain ⟨g1, g2, _, _, _, _, _, _, g9⟩ := send_transmit_frame
    (allocate (update_ack (syn_received s c seq) s.acknowledge_head).1 ack_segment).1
    (update_ack (syn_received s c seq) s.acknowledge_head).1.heap_size ack_segment
    send_cb.ignore ack_segment_flags.2.2.2.1
  have hcalled : (send_transmit
      (allocate (update_ack (syn_received s c seq) s.acknowledge_head).1 ack_segment).1
      (update_ack (syn_received s c seq) s.acknowledge_head).1.heap_size ack_segment
      send_cb.ignore).called =
      (update_ack (syn_received s c seq) s.acknowledge_head).1.called := by
    unfold send_transmit
    simp only [ack_segment_flags.2.2.2.1, Bool.false_eq_true, if_false,
      reset_cumulative_ack_counter, set_null_segment_timer, set_retransmission_timer]
    split_ifs <;> rfl
  simp only [result.ok, invoke_all, List.foldl_cons, List.foldl_nil]
  rw [invoke_plain _ _ _ hcb]
  refine ⟨trivial, trivial, ?_, ?_, ?_, ?_⟩
  · show (send_transmit _ _ _ _).sent = _
    rw [g9]
    show (update_ack (syn_received s c seq) s.acknowledge_head).1.sent ++
      [stamp ack_segment (update_ack (syn_received s c seq) s.acknowledge_head).1.send_head
        (update_ack (syn_received s c seq) s.acknowledge_head).1.receive_head] = _
    rw [k6, k4, k5]
    rfl
  · show (send_transmit _ _ _ _).state = _
    rw [g1]
    exact k1
  · show (send_transmit _ _ _ _).self_config = _
    rw [g2]
    exact k2
  · show (send_transmit _ _ _ _).called ++ _ = _
    rw [hcalled, k7]
    rfl

theorem syn_segment_byte0 (c : session_config) (ack : Bool) :
    byte (syn_segment c ack) 0 = if ack = true then 0xC0 else 0x80 := by
  cases ack <;> rfl

/-- The header bytes of a stamped segment without payload. -/
theorem stamped_header (B : buffer_t) (seq rh : Nat) (h6 : 6 ≤ byte B 1)
    (hlen : byte B 1 = B.length) :
    byte (stamp B seq rh) 0 = byte B 0 &&& 0xFB ∧ byte (stamp B seq rh) 2 = seq ∧
    byte (stamp B seq rh) 3 = (if flag B 0x40 = true then (rh + 256 - 1) % 256 else byte B 3) := by
  refine ⟨?_, ?_, ?_⟩
  · rw [stamp_byte_low _ _ _ _ (by omega), stamp_header_byte0 _ _ _ (by omega),
      if_neg (not_not.mpr hlen)]
  · rw [stamp_byte_low _ _ _ _ (by omega), stamp_header_byte2 _ _ _ (by omega)]
  · rw [stamp_byte_low _ _ _ _ (by omega), stamp_header_byte3 _ _ _ (by omega)]

/-- The state of a fresh client after `connect`: its SYN, numbered by `rand()`, is the only
outstanding segment. -/
theorem handshake_connect_state (oc uc a1 a2 x id : Nat) (huc : uc ≤ 64) :
    (connect (session.new oc uc [a1, a2, x]) id).thrown = none ∧
    (connect (session.new oc uc [a1, a2, x]) id).s.sent =
      [stamp (syn_segment (session_config.default a1) false) (x % 256) 0] ∧
    (connect (session.new oc uc [a1, a2, x]) id).s.client = true ∧
    (connect (session.new oc uc [a1, a2, x]) id).s.acknowledge_head = x % 256 ∧
    (connect (session.new oc uc [a1, a2, x]) id).s.send_head = (x % 256 + 1) % 256 ∧
    (connect (session.new oc uc [a1, a2, x]) id).s.send_buffer (x % 256) =
      (some 0, send_cb.connect id) ∧
    (connect (session.new oc uc [a1, a2, x]) id).s.unacknowledged_packet_count =
      (uc + 1) % 2 ^ 64 ∧
    (connect (session.new oc uc [a1, a2, x]) id).s.pending = [] ∧
    (connect (session.new oc uc [a1, a2, x]) id).s.self_config = session_config.default a1 ∧
    (connect (session.new oc uc [a1, a2, x]) id).s.state = session_state.opened := by
  rw [handshake_connect oc uc a1 a2 x id huc]
  obtain ⟨g1, g2, _, g4, _, g6, _, _, g9⟩ := send_transmit_frame
    (syn_state (allocate { session.new oc uc [a1, a2, x] with client := true }
      (syn_segment (session_config.default a1) false)).1 (session_config.default a1))
    0 (syn_segment (session_config.default a1) false) (send_cb.connect id)
    (syn_segment_flags _ _).2.2.1
  obtain ⟨k1, k2, _, k4, k5⟩ := send_transmit_fields
    (syn_state (allocate { session.new oc uc [a1, a2, x] with client := true }
      (syn_segment (session_config.default a1) false)).1 (session_config.default a1))
    0 (syn_segment (session_config.default a1) false) (send_cb.connect id)
  refine ⟨rfl, ?_, ?_, ?_, ?_, ?_, ?_, ?_, ?_, ?_⟩
  · exact g9
  · exact g6
  · exact k4
  · exact k1
  · show (send_transmit _ _ _ _).send_buffer _ = _
    rw [k2]
    exact if_pos rfl
  · exact k5
  · exact g4
  · exact g2
  · exact g1

/-- C3 (SYN handshake): a fresh client (connection identifier `a1`, first sequence number
`x % 256` drawn by `rand()`) calls `connect`, a fresh server (identifier `b1`, first sequence
number `y % 256`) receives what the client sent, and each side receives the answer of the other.
The counters `unacknowledged_packet_count`, which the constructor does not set, read at most 64.
Exactly three datagrams are sent: SYN with sequence number `x % 256` carrying the configuration
of the client, SYN+ACK with sequence number `y % 256` acknowledging `x % 256`, and ACK with
sequence number `x % 256 + 1` acknowledging `y % 256`.  Every one of them is accepted by
`receive` of the other side, nothing is delivered, and in the end both sessions are Opened and
every timeout and `max_*` field of `self_config` is, on both sides, the minimum of the two
proposals. -/
theorem C3_syn_handshake (oc uc os us a1 a2 x b1 b2 y id : Nat) (huc : uc ≤ 64)
    (hus : us ≤ 64) :
    ∃ syn synack ack : buffer_t,
      (connect (session.new oc uc [a1, a2, x]) id).thrown = none ∧
      (connect (session.new oc uc [a1, a2, x]) id).s.sent = [syn] ∧
      byte syn 0 = 0x80 ∧ byte syn 2 = x % 256 ∧
      session_config.parse syn 4 26 = .ok (session.new oc uc [a1, a2, x]).self_config ∧
      (receive (session.new os us [b1, b2, y]) (some syn) []).thrown = none ∧
      (receive (session.new os us [b1, b2, y]) (some syn) []).received = [] ∧
      (receive (session.new os us [b1, b2, y]) (some syn) []).s.sent = [synack] ∧
      byte synack 0 = 0xC0 ∧ byte synack 2 = y % 256 ∧ byte synack 3 = x % 256 ∧
      (receive (connect (session.new oc uc [a1, a2, x]) id).s (some synack) []).thrown = none ∧
      (receive (connect (session.new oc uc [a1, a2, x]) id).s (some synack) []).received = [] ∧
      (receive (connect (session.new oc uc [a1, a2, x]) id).s (some synack) []).s.sent =
        [syn, ack] ∧
      byte ack 0 = 0x40 ∧ byte ack 2 = (x % 256 + 1) % 256 ∧ byte ack 3 = y % 256 ∧
      (receive (receive (session.new os us [b1, b2, y]) (some syn) []).s (some ack) []).thrown
        = none ∧
      (receive (receive (session.new os us [b1, b2, y]) (some syn) []).s (some ack)
        []).received = [] ∧
      (receive (receive (session.new os us [b1, b2, y]) (some syn) []).s (some ack) []).s.sent
        = [synack] ∧
      (receive (connect (session.new oc uc [a1, a2, x]) id).s (some synack) []).s.state =
        session_state.opened ∧
      (receive (receive (session.new os us [b1, b2, y]) (some syn) []).s (some ack) []).s.state
        = session_state.opened ∧
      negotiated (session.new oc uc [a1, a2, x]).self_config
        (session.new os us [b1, b2, y]).self_config
        (receive (connect (session.new oc uc [a1, a2, x]) id).s (some synack)
          []).s.self_config ∧
      negotiated (session.new oc uc [a1, a2, x]).self_config
        (session.new os us [b1, b2, y]).self_config
        (receive (receive (session.new os us [b1, b2, y]) (some syn) []).s (some ack)
          []).s.self_config := by
  have hx : x % 256 < 256 := Nat.mod_lt _ (by norm_num)
  have hy : y % 256 < 256 := Nat.mod_lt _ (by norm_num)
  obtain ⟨c_thr, c_sent, c_cl, c_ah, c_sh, c_sb, c_un, c_pe, c_cfg, c_st⟩ :=
    handshake_connect_state oc uc a1 a2 x id huc
  obtain ⟨s_thr, s_rec, s_sent, s_st, s_cfg, s_ah, s_sh, s_sb, s_ring, s_rh, s_pe, s_oos, s_un⟩ :=
    handshake_answer_syn (session.new os us [b1, b2, y]) (session_config.default a1) (x % 256) 0
      [] (default_in_range a1) (default_in_range b1) hx rfl (fun _ => rfl)
      (by show (0 : Nat) + 1 ≠ 0; decide) hus rfl (by show 0 < min 32 32; decide)
  have e0 : (session.new os us [b1, b2, y]).rand.headD 0 = y := rfl
  have e1 : (session.new os us [b1, b2, y]).self_config = session_config.default b1 := rfl
  have e2 : (session.new os us [b1, b2, y]).sent = [] := rfl
  have e3 : (session.new oc uc [a1, a2, x]).self_config = session_config.default a1 := rfl
  rw [e0] at s_sent s_ah s_sh s_sb
  rw [e1, merge_default] at s_sent s_cfg
  rw [e2, List.nil_append] at s_sent
  rw [e1, e3]
  refine ⟨stamp (syn_segment (session_config.default a1) false) (x % 256) 0,
    stamp (syn_segment (session_config.default b1) true) (y % 256) ((x % 256 + 1) % 256),
    stamp ack_segment ((x % 256 + 1) % 256) ((y % 256 + 1) % 256), ?_⟩
  generalize (connect (session.new oc uc [a1, a2, x]) id).s = C1 at *
  generalize (receive (session.new os us [b1, b2, y])
    (some (stamp (syn_segment (session_config.default a1) false) (x % 256) 0)) []).s = S1 at *
  obtain ⟨t_thr, t_rec, t_sent, t_st, t_cfg, _⟩ :=
    handshake_answer_syn_ack C1 (session_config.default b1) (y % 256) ((x % 256 + 1) % 256) []
      (default_in_range b1) hy c_cl (by rw [c_ah]; exact hx) (by rw [c_sh, c_ah])
      (by rw [c_ah, c_sb]; rfl) (by rw [c_ah, c_sb]; exact fun h => by cases h)
      (by rw [c_ah]; omega)
      (by
        rw [c_un]
        show _ ≤ 64
        omega)
      c_pe (by rw [c_cfg]; show 0 < min 32 32; decide)
  obtain ⟨v_thr, v_rec, v_sent, v_st, v_cfg, _⟩ :=
    handshake_accept_ack S1 ((x % 256 + 1) % 256) ((y % 256 + 1) % 256) []
      (Nat.mod_lt _ (by norm_num)) s_ring s_rh (by rw [s_ah]; exact hy) (by rw [s_sh, s_ah])
      (by rw [s_ah, s_sb]; rfl) (by rw [s_ah, s_sb]; exact fun h => by cases h)
      (by rw [s_ah]; omega) s_pe (by rw [s_cfg]; show 0 < 32; decide)
  rw [c_sent, c_sh, List.singleton_append] at t_sent
  rw [c_cfg, merge_default] at t_cfg
  rw [s_sent] at v_sent
  rw [s_st] at v_st
  rw [s_cfg] at v_cfg
  obtain ⟨f1, f2, _, _, _, _, f7, f8⟩ := syn_segment_flags (session_config.default a1) false
  obtain ⟨p1, p2, _⟩ := stamped_header (syn_segment (session_config.default a1) false)
    (x % 256) 0 (by rw [f7]; norm_num) (by rw [f7, f8])
  obtain ⟨h1, h2, _, _, _, _, h7, h8⟩ := syn_segment_flags (session_config.default b1) true
  obtain ⟨q1, q2, q3⟩ := stamped_header (syn_segment (session_config.default b1) true)
    (y % 256) ((x % 256 + 1) % 256) (by rw [h7]; norm_num) (by rw [h7, h8])
  obtain ⟨r1, r2, r3⟩ := stamped_header ack_segment ((x % 256 + 1) % 256)
    ((y % 256 + 1) % 256) (by decide) (by decide)
  rw [h2, if_pos rfl] at q3
  rw [ack_segment_flags.2.1, if_pos rfl] at r3
  refine ⟨c_thr, c_sent, ?_, p2, (parse_stamp_syn _ _ _ _ (default_in_range a1)).1,
    s_thr, s_rec, s_sent, ?_, q2, ?_, t_thr, t_rec, t_sent, ?_, r2, ?_, v_thr, v_rec,
    v_sent, t_st, v_st, ?_, ?_⟩
  · rw [p1, syn_segment_byte0]; decide
  · rw [q1, syn_segment_byte0]; decide
  · rw [q3]; omega
  · rw [r1]; decide
  · rw [r3]; omega
  · rw [t_cfg]
    simp [negotiated, session_config.default]
  · rw [v_cfg]
    simp [negotiated, session_config.default]

/-- C3, witness: the client draws the identifier 100 and the sequence number 254, the server the
identifier 300 and the sequence number 9; the counters read 0 and 2. -/
theorem C3_syn_handshake_witness :
    (0 : Nat) ≤ 64 ∧ (2 : Nat) ≤ 64 ∧
    ∃ syn synack ack : buffer_t,
      (connect (session.new 7 0 [100, 200, 254]) 1).thrown = none ∧
      (connect (session.new 7 0 [100, 200, 254]) 1).s.sent = [syn] ∧
      byte syn 0 = 0x80 ∧ byte syn 2 = 254 % 256 ∧
      session_config.parse syn 4 26 = .ok (session.new 7 0 [100, 200, 254]).self_config ∧
      (receive (session.new 3 2 [300, 400, 9]) (some syn) []).thrown = none ∧
      (receive (session.new 3 2 [300, 400, 9]) (some syn) []).received = [] ∧
      (receive (session.new 3 2 [300, 400, 9]) (some syn) []).s.sent = [synack] ∧
      byte synack 0 = 0xC0 ∧ byte synack 2 = 9 % 256 ∧ byte synack 3 = 254 % 256 ∧
      (receive (connect (session.new 7 0 [100, 200, 254]) 1).s (some synack) []).thrown = none ∧
      (receive (connect (session.new 7 0 [100, 200, 254]) 1).s (some synack) []).received = [] ∧
      (receive (connect (session.new 7 0 [100, 200, 254]) 1).s (some synack) []).s.sent =
        [syn, ack] ∧
      byte ack 0 = 0x40 ∧ byte ack 2 = (254 % 256 + 1) % 256 ∧ byte ack 3 = 9 % 256 ∧
      (receive (receive (session.new 3 2 [300, 400, 9]) (some syn) []).s (some ack) []).thrown
        = none ∧
      (receive (receive (session.new 3 2 [300, 400, 9]) (some syn) []).s (some ack)
        []).received = [] ∧
      (receive (receive (session.new 3 2 [300, 400, 9]) (some syn) []).s (some ack) []).s.sent
        = [synack] ∧
      (receive (connect (session.new 7 0 [100, 200, 254]) 1).s (some synack) []).s.state =
        session_state.opened ∧
      (receive (receive (session.new 3 2 [300, 400, 9]) (some syn) []).s (some ack) []).s.state
        = session_state.opened ∧
      negotiated (session.new 7 0 [100, 200, 254]).self_config
        (session.new 3 2 [300, 400, 9]).self_config
        (receive (connect (session.new 7 0 [100, 200, 254]) 1).s (some synack)
          []).s.self_config ∧
      negotiated (session.new 7 0 [100, 200, 254]).self_config
        (session.new 3 2 [300, 400, 9]).self_config
        (receive (receive (session.new 3 2 [300, 400, 9]) (some syn) []).s (some ack)
          []).s.self_config :=
  ⟨by decide, by decide,
    C3_syn_handshake 7 0 3 2 100 200 254 300 400 9 1 (by decide) (by decide)⟩

/-! ## The header predicates and the checksum -/

set_option maxRecDepth 100000 in
theorem check_common_header_bytes : ∀ F, F < 256 →
    (check_common_header [F] = true ↔ role_bit_rule F) := by
  decide

/-- C14 (role-bit rule): for every flag byte `F`, whatever follows it in the segment,
`check_common_header` returns true exactly when the role-bit rule holds: one role bit among
SYN, EAK, RST, NUL, TCS (or none and ACK), and ACK accompanying EAK and NUL. -/
theorem C14_role_bit_rule (F : Nat) (rest : buffer_t) (hF : F < 256) :
    check_common_header (F :: rest) = true ↔ role_bit_rule F :=
  check_common_header_bytes F hF

/-- C14, witness: the flag byte 0x60 (EAK with ACK) followed by a header length. -/
theorem C14_role_bit_rule_witness :
    (0x60 : Nat) < 256 ∧ (check_common_header [0x60, 6] = true ↔ role_bit_rule 0x60) :=
  ⟨by decide, C14_role_bit_rule 0x60 [6] (by decide)⟩

/-- C15 (sequence-window predicate): for 8-bit `acknowledge_head`, `send_head` and `n`,
`is_valid_sequence_number( n )` holds exactly when `n` is `acknowledge_head - 1` modulo 256 or
`(n - acknowledge_head) mod 256 < (send_head - acknowledge_head) mod 256`. -/
theorem C15_sequence_window (s : session) (n : Nat) (hn : n < 256)
    (hah : s.acknowledge_head < 256) (hsh : s.send_head < 256) :
    is_valid_sequence_number s n = true ↔
      n = (s.acknowledge_head + 256 - 1) % 256 ∨
      (n + 256 - s.acknowledge_head) % 256 <
        (s.send_head + 256 - s.acknowledge_head) % 256 :=
  is_valid_sequence_number_iff s n hn hah hsh

/-- C15, witness: the window of `full_window_example` wraps; sequence number 2 lies in it. -/
theorem C15_sequence_window_witness :
    (2 : Nat) < 256 ∧ full_window_example.acknowledge_head < 256 ∧
    full_window_example.send_head < 256 ∧
    (is_valid_sequence_number full_window_example 2 = true ↔
      2 = (full_window_example.acknowledge_head + 256 - 1) % 256 ∨
      (2 + 256 - full_window_example.acknowledge_head) % 256 <
        (full_window_example.send_head + 256 - full_window_example.acknowledge_head) % 256) :=
  ⟨by decide, by decide, by decide,
    C15_sequence_window full_window_example 2 (by decide) (by decide) (by decide)⟩

/-- C16, counterexample: with `acknowledge_head` 5 and `send_head` 4 the sequence number
`send_head` is `acknowledge_head - 1`, which `is_valid_sequence_number` accepts. -/
theorem C16_send_head_valid_in_full_window :
    full_window_example.send_head = 4 ∧ full_window_example.acknowledge_head = 5 ∧
    is_valid_sequence_number full_window_example full_window_example.send_head = true := by
  decide

/-- C16 (amended): for 8-bit `acknowledge_head` and `send_head`, `send_head` passes
`is_valid_sequence_number` exactly when it equals `acknowledge_head - 1` modulo 256; in every
other case it is not a valid sequence number. -/
theorem C16_send_head_validity (s : session) (hah : s.acknowledge_head < 256)
    (hsh : s.send_head < 256) :
    is_valid_sequence_number s s.send_head = true ↔
      s.send_head = (s.acknowledge_head + 256 - 1) % 256 := by
  rw [is_valid_sequence_number_iff s _ hsh hah hsh]
  constructor
  · rintro (h | h)
    · exact h
    · exact absurd h (lt_irrefl _)
  · exact Or.inl

/-- C16, witness: with `acknowledge_head` 10 and `send_head` 11 the sequence number `send_head`
is not valid. -/
theorem C16_send_head_validity_witness :
    single_window_example.acknowledge_head < 256 ∧ single_window_example.send_head < 256 ∧
    is_valid_sequence_number single_window_example single_window_example.send_head = false :=
  ⟨by decide, by decide,
    Bool.eq_false_iff.mpr (fun h =>
      absurd ((C16_send_head_validity single_window_example (by decide) (by decide)).mp h)
        (by decide))⟩

/-- C17 (flow-control predicate): `ready_to_send` computes `send_head + 1` in `int`, without
wraparound.  For 8-bit heads it differs from the predicate of the specification exactly when
`send_head` is 255, `acknowledge_head` is 0 and the counter is within the limit of the peer:
the code then answers true, the specification false. -/
theorem C17_ready_to_send_without_wraparound (s : session) (hah : s.acknowledge_head < 256)
    (hsh : s.send_head < 256) :
    (ready_to_send s ≠ ready_to_send_wraparound s ↔
      s.send_head = 255 ∧ s.acknowledge_head = 0 ∧
      s.unacknowledged_packet_count ≤ s.remote_config.max_out_of_standing_segs) ∧
    (ready_to_send s ≠ ready_to_send_wraparound s →
      ready_to_send s = true ∧ ready_to_send_wraparound s = false) := by
  by_cases hcase : s.send_head = 255 ∧ s.acknowledge_head = 0 ∧
      s.unacknowledged_packet_count ≤ s.remote_config.max_out_of_standing_segs
  · obtain ⟨h1, h2, h3⟩ := hcase
    have r1 : ready_to_send s = true := by
      unfold ready_to_send
      rw [h1, h2, decide_eq_true h3]
      rfl
    have r2 : ready_to_send_wraparound s = false := by
      unfold ready_to_send_wraparound
      rw [h1, h2]
      rfl
    exact ⟨⟨fun _ => ⟨h1, h2, h3⟩, fun _ => by rw [r1, r2]; decide⟩, fun _ => ⟨r1, r2⟩⟩
  · have key : ready_to_send s = ready_to_send_wraparound s := by
      unfold ready_to_send ready_to_send_wraparound
      by_cases h3 : s.unacknowledged_packet_count ≤ s.remote_config.max_out_of_standing_segs
      · have e : decide (s.send_head + 1 ≠ s.acknowledge_head) =
            decide ((s.send_head + 1) % 256 ≠ s.acknowledge_head) := by
          apply decide_eq_decide.mpr
          by_cases h1 : s.send_head = 255
          · have : s.acknowledge_head ≠ 0 := fun h2 => hcase ⟨h1, h2, h3⟩
            omega
          · omega
        rw [e]
      · rw [decide_eq_false h3, Bool.and_false, Bool.and_false]
    exact ⟨⟨fun h => absurd key h, fun h => absurd h hcase⟩, fun h => absurd key h⟩

/-- C17, witness: with `send_head` 255 and `acknowledge_head` 0 the code answers true although
`(send_head + 1) mod 256` equals `acknowledge_head`. -/
theorem C17_ready_to_send_without_wraparound_witness :
    wrap_example.acknowledge_head < 256 ∧ wrap_example.send_head < 256 ∧
    ready_to_send wrap_example = true ∧ ready_to_send_wraparound wrap_example = false :=
  ⟨by decide, by decide,
    (C17_ready_to_send_without_wraparound wrap_example (by decide) (by decide)).2 (by decide)⟩

/-- C20 (checksum is never zero): for every byte sequence, of any length, `rudp::checksum` is a
16-bit value other than 0, and the checksum of the empty sequence is 0xFFFF. -/
theorem C20_checksum_never_zero (B : buffer_t) :
    checksum B ≠ 0 ∧ checksum B < 65536 ∧ checksum [] = 0xFFFF := by
  refine ⟨?_, ?_, rfl⟩
  · unfold checksum
    by_cases h : B.length = 0
    · rw [if_pos h]
      decide
    · rw [if_neg h]
      simp only []
      split_ifs <;> first | assumption | decide
  · unfold checksum
    by_cases h : B.length = 0
    · rw [if_pos h]
      decide
    · rw [if_neg h]
      simp only []
      split_ifs <;> first | exact Nat.mod_lt _ (by decide) | decide

/-! ## The walk of `update_receive_head` -/

/-- C19 (gap slot is empty after advancing): for every content of the receive ring and every
`receive_head`, let `r` be the length of the occupied run that starts at `receive_head`, counted
around the ring (`r = 256` when all slots are occupied).  After `update_receive_head` the new
`receive_head` is `receive_head + r` modulo 256, the slot at the new `receive_head` is empty,
every slot of the run has been emptied and no other slot has changed. -/
theorem C19_gap_slot_empty_after_advance (s : session) (received : List buffer_t)
    (hh : s.receive_head < 256) :
    ∃ r, r ≤ 256 ∧
      (∀ t, t < r → (s.receive_buffer ((s.receive_head + t) % 256)).isSome = true) ∧
      (r < 256 → s.receive_buffer ((s.receive_head + r) % 256) = none) ∧
      (update_receive_head s received).1.receive_head = (s.receive_head + r) % 256 ∧
      (update_receive_head s received).1.receive_buffer
        (update_receive_head s received).1.receive_head = none ∧
      (∀ t, t < r →
        (update_receive_head s received).1.receive_buffer ((s.receive_head + t) % 256) = none) ∧
      (∀ i, i < 256 → (∀ t, t < r → i ≠ (s.receive_head + t) % 256) →
        (update_receive_head s received).1.receive_buffer i = s.receive_buffer i) := by
  classical
  by_cases hall : ∀ i, i < 256 → (s.receive_buffer i).isSome = true
  · obtain ⟨h1, h2⟩ := update_receive_head_full s received hh hall
    refine ⟨256, le_refl _, fun t _ => hall _ (Nat.mod_lt _ (by norm_num)),
      fun h => absurd h (lt_irrefl _), by rw [h1]; omega, ?_, ?_, ?_⟩
    · rw [h1, h2, if_pos hh]
    · intro t _
      rw [h2, if_pos (Nat.mod_lt _ (by norm_num))]
    · intro i hi hne
      have := hne ((i + 256 - s.receive_head) % 256) (Nat.mod_lt _ (by norm_num))
      omega
  · have hex : ∃ t, t < 256 ∧ s.receive_buffer ((s.receive_head + t) % 256) = none := by
      push_neg at hall
      obtain ⟨i, hi, hn⟩ := hall
      refine ⟨(i + 256 - s.receive_head) % 256, Nat.mod_lt _ (by norm_num), ?_⟩
      rw [show (s.receive_head + (i + 256 - s.receive_head) % 256) % 256 = i by omega]
      cases h : s.receive_buffer i with
      | none => rfl
      | some b => rw [h] at hn; exact absurd rfl hn
    have hr := Nat.find_spec hex
    have hmin := fun t (ht : t < Nat.find hex) => Nat.find_min hex ht
    generalize Nat.find hex = r at hr hmin
    have hocc : ∀ t, t < r →
        (s.receive_buffer ((s.receive_head + t) % 256)).isSome = true := by
      intro t ht
      have := hmin t ht
      cases h : s.receive_buffer ((s.receive_head + t) % 256) with
      | none => exact absurd ⟨by omega, h⟩ this
      | some b => rfl
    obtain ⟨h1, h2, _⟩ := update_receive_head_run s received r hh (by omega) hocc hr.2
    refine ⟨r, by omega, hocc, fun _ => hr.2, h1, ?_, ?_, ?_⟩
    · rw [h1, h2, if_neg (by omega)]
      exact hr.2
    · intro t ht
      rw [h2, if_pos (by omega)]
    · intro i hi hne
      rw [h2, if_neg]
      intro hc
      have := hne ((i + 256 - s.receive_head) % 256) hc.2
      omega

/-- C19, witness: a run that wraps from slot 255 to slot 0, next to a gap at slot 1. -/
theorem C19_gap_slot_empty_after_advance_witness :
    wrapping_run_example.receive_head < 256 ∧
    ∃ r, r ≤ 256 ∧
      (∀ t, t < r → (wrapping_run_example.receive_buffer
        ((wrapping_run_example.receive_head + t) % 256)).isSome = true) ∧
      (r < 256 →
        wrapping_run_example.receive_buffer ((wrapping_run_example.receive_head + r) % 256) =
          none) ∧
      (update_receive_head wrapping_run_example []).1.receive_head =
        (wrapping_run_example.receive_head + r) % 256 ∧
      (update_receive_head wrapping_run_example []).1.receive_buffer
        (update_receive_head wrapping_run_example []).1.receive_head = none ∧
      (∀ t, t < r →
        (update_receive_head wrapping_run_example []).1.receive_buffer
          ((wrapping_run_example.receive_head + t) % 256) = none) ∧
      (∀ i, i < 256 → (∀ t, t < r → i ≠ (wrapping_run_example.receive_head + t) % 256) →
        (update_receive_head wrapping_run_example []).1.receive_buffer i =
          wrapping_run_example.receive_buffer i) :=
  ⟨by decide, C19_gap_slot_empty_after_advance wrapping_run_example [] (by decide)⟩

/-! ## Rejected datagrams -/

/-- C12 (amended): for every session state and every datagram of at least two bytes, `receive`
fails with `invalid_packet` and delivers nothing whenever the flags byte violates the role-bit
rule; or the header length is below 4 or above the size of the datagram; or the checksum in the
last two header bytes differs from the recomputed one; or ACK is set, the header length is at
least 6 and the acknowledgement number is outside the sequence window; or ACK is set and the
byte at offset 3, read after the checksum field has been zeroed in place, is outside the sequence
window; or the datagram is a SYN and the session is neither the client side nor in state
Initial. -/
theorem C12_rejection_conditions (s : session) (d : buffer_t) (r : List buffer_t)
    (_ : 2 ≤ d.length)
    (h : check_common_header d = false ∨ byte d 1 < 4 ∨ byte d 1 > d.length ∨
      from_be16 d (byte d 1 - 2) ≠
        checksum (if flag d 0x04 = true then zero_checksum d
                  else (zero_checksum d).take (byte d 1)) ∨
      (flag d 0x40 = true ∧ 6 ≤ byte d 1 ∧ is_valid_sequence_number s (byte d 3) = false) ∨
      (flag d 0x40 = true ∧ is_valid_sequence_number s (byte (zero_checksum d) 3) = false) ∨
      (flag d 0x80 = true ∧ s.client = false ∧ s.state ≠ session_state.initial)) :
    (receive s (some d) r).thrown = some error.invalid_packet ∧
    (receive s (some d) r).received = r := by
  by_cases c1 : check_common_header d = true
  swap
  · simp only [receive, c1, Bool.not_false, if_true, Bool.false_eq_true, not_false_eq_true]
    simp
  by_cases c2 : byte d 1 > d.length
  · simp only [receive, c1, c2, Bool.not_true, Bool.false_eq_true, if_false, if_true]
    simp
  by_cases c3 : byte d 1 < 4
  · simp only [receive, c1, c2, c3, Bool.not_true, Bool.false_eq_true, if_false, if_true]
    simp
  by_cases c4 : checksum_ok d = true
  swap
  · simp only [receive, c1, c2, c3, c4, Bool.not_true, Bool.false_eq_true, if_false, if_true]
    simp
  by_cases c5 : (flag d 0x40 && !is_valid_sequence_number s (byte (zero_checksum d) 3)) = true
  · simp only [receive, c1, c2, c3, c4, c5, Bool.not_true, Bool.false_eq_true, if_false, if_true]
    simp
  have h6 : flag d 0x80 = true ∧ s.client = false ∧ s.state ≠ session_state.initial := by
    rcases h with h | h | h | h | h | h | h
    · rw [h] at c1; exact absurd c1 (by decide)
    · exact absurd h c3
    · exact absurd h c2
    · exfalso
      apply h
      simpa [checksum_ok] using c4
    · exfalso
      apply c5
      rw [zero_checksum_byte d 3 (by omega), h.1, h.2.2]
      rfl
    · exfalso
      apply c5
      rw [h.1, h.2]
      rfl
    · exact h
  obtain ⟨hsyn, hcl, hst⟩ := h6
  have hg : (!s.client && s.state != session_state.initial) = true := by
    simp [hcl, hst]
  simp only [receive, c1, c2, c3, c4, c5, Bool.not_true, Bool.false_eq_true, if_false, if_true,
    hsyn, receive_syn, hg]
  simp

set_option maxRecDepth 100000 in
/-- C12, witness: an ACK with header length 6 whose acknowledgement number 7 is outside the
window of `syn_sent_example` is rejected. -/
theorem C12_rejection_conditions_witness :
    2 ≤ (with_checksum [0x40, 6, 0, 7, 0, 0]).length ∧
    (receive syn_sent_example (some (with_checksum [0x40, 6, 0, 7, 0, 0])) []).thrown =
      some error.invalid_packet ∧
    (receive syn_sent_example (some (with_checksum [0x40, 6, 0, 7, 0, 0])) []).received = [] :=
  ⟨by decide,
    C12_rejection_conditions syn_sent_example (with_checksum [0x40, 6, 0, 7, 0, 0]) []
      (by decide) (Or.inr (Or.inr (Or.inr (Or.inr (Or.inl (by decide))))))⟩

set_option maxRecDepth 100000 in
/-- C12, counterexample: the datagram `40 04 BF FB` has ACK set and the acknowledgement number
0xFB, which is outside the window of `syn_sent_example` (only 255 and 0 are valid); `receive`
zeroes the checksum field, which is the bytes 2 and 3, before it reads the acknowledgement
number, finds 0 and accepts the datagram. -/
theorem C12_overlapping_ack_accepted :
    2 ≤ overlapping_ack.length ∧ flag overlapping_ack 0x40 = true ∧
    is_valid_sequence_number syn_sent_example (byte overlapping_ack 3) = false ∧
    (receive syn_sent_example (some overlapping_ack) []).thrown = none := by
  decide

/-- C13 (failure kinds of `receive`): a SYN that passes the checks of the header, of the
checksum and of the acknowledgement number, arrives at a client or at a session in state
Initial and has a header length other than 28 makes `receive` fail with
`unable_to_deserialize_session_config`, thrown by the parsing constructor of `session_config`;
this is not `invalid_packet`, the only exception that the demultiplexer catches. -/
theorem C13_parse_error_escapes (s : session) (d : buffer_t) (r : List buffer_t)
    (hflags : check_common_header d = true) (h4 : 4 ≤ byte d 1) (hlen : byte d 1 ≤ d.length)
    (hsum : checksum_ok d = true) (hsyn : flag d 0x80 = true)
    (hack : flag d 0x40 = true → is_valid_sequence_number s (byte (zero_checksum d) 3) = true)
    (hfresh : s.client = true ∨ s.state = session_state.initial) (hsize : byte d 1 ≠ 28) :
    (receive s (some d) r).thrown = some error.unable_to_deserialize_session_config ∧
    (receive s (some d) r).received = r := by
  have hg : (!s.client && s.state != session_state.initial) = false := by
    rcases hfresh with h | h <;> simp [h]
  have h1 : byte (zero_checksum d) 1 = byte d 1 := zero_checksum_byte d 1 (by omega)
  have hp : session_config.parse (zero_checksum d) 4 (byte d 1 - 2) =
      .error error.unable_to_deserialize_session_config := by
    unfold session_config.parse
    rw [if_pos (by omega)]
  rw [receive_checked s d r hflags h4 hlen hsum hack, if_pos hsyn]
  simp only [receive_syn, hg, Bool.false_eq_true, if_false, h1, hp]
  exact ⟨trivial, trivial⟩

set_option maxRecDepth 100000 in
/-- C13, witness: the six-byte SYN `80 06 00 00 7F F9` sent to a fresh server. -/
theorem C13_parse_error_escapes_witness :
    short_syn = [0x80, 6, 0, 0, 0x7F, 0xF9] ∧
    (receive (session.new 0 0 [1, 2, 3]) (some short_syn) []).thrown =
      some error.unable_to_deserialize_session_config ∧
    (receive (session.new 0 0 [1, 2, 3]) (some short_syn) []).received = [] :=
  ⟨by decide,
    C13_parse_error_escapes (session.new 0 0 [1, 2, 3]) short_syn [] (by decide) (by decide)
      (by decide) (by decide) (by decide) (by decide) (by decide) (by decide)⟩

/-! ## Callbacks and the send window over traces -/

set_option maxRecDepth 100000 in
/-- C11 (completion callbacks fire at most once): the application sends one payload with the
callback `user 7`; the retransmission timer of its slot expires once, which stores the segment
and its callback a second time under the next sequence number; the acknowledgement of the peer
then releases both slots and the callback is invoked twice with `true`. -/
theorem C11_callback_invoked_twice :
    retransmission_example.called.count (send_cb.user 7, true) = 0 ∧
    (occupied retransmission_example).map (fun i => (retransmission_example.send_buffer i).2) =
      [send_cb.ignore, send_cb.user 7] ∧
    (occupied (expire_slot 5 retransmission_example)).map
      (fun i => ((expire_slot 5 retransmission_example).send_buffer i).2) =
      [send_cb.ignore, send_cb.user 7, send_cb.user 7] ∧
    acknowledged_after_retransmission.thrown = none ∧
    acknowledged_after_retransmission.s.called =
      [(send_cb.connect 0, true), (send_cb.ignore, true), (send_cb.user 7, true),
        (send_cb.user 7, true)] ∧
    acknowledged_after_retransmission.s.called.count (send_cb.user 7, true) = 2 := by
  decide

set_option maxRecDepth 100000 in
/-- C18, counterexample: in `window_overrun_example`, reached from a fresh session with both
counters at 0 without any exception, `acknowledge_head` is 5 and `send_head` is 8 while the
limit of the peer is 1: the window spans 3 slots, more than the limit plus one.  The EAK has
lowered `unacknowledged_packet_count` without moving `acknowledge_head`. -/
theorem C18_window_exceeds_limit :
    limited_example.unacknowledged_packet_count = 2 ∧
    (receive limited_example (some (peer_eak [5])) []).thrown = none ∧
    (receive limited_example (some (peer_eak [5])) []).s.unacknowledged_packet_count = 0 ∧
    window_overrun_example.remote_config.max_out_of_standing_segs = 1 ∧
    window_overrun_example.acknowledge_head = 5 ∧ window_overrun_example.send_head = 8 ∧
    (window_overrun_example.send_head + 256 - window_overrun_example.acknowledge_head) % 256 >
      window_overrun_example.remote_config.max_out_of_standing_segs + 1 := by
  decide

theorem send_syn_counter (s s' : session) (buf : buffer_t) (fr : Bool) (cbs : List send_cb)
    (h : send_syn s buf fr = .ok (s', cbs)) :
    s'.unacknowledged_packet_count = s.unacknowledged_packet_count ∧
    s'.remote_config = s.remote_config := by
  simp only [send_syn] at h
  split at h
  · cases h
  · split at h
    · cases h
    · cases h; exact ⟨rfl, rfl⟩

theorem send_transmit_remote_config (s : session) (p : Nat) (buf : buffer_t) (cb : send_cb) :
    (send_transmit s p buf cb).remote_config = s.remote_config := by
  simp only [send_transmit, reset_cumulative_ack_counter, set_null_segment_timer,
    set_retransmission_timer]
  split_ifs <;> rfl

/-- A call of `session::send` either hands nothing to the socket, or finds `ready_to_send` true,
hands over one datagram and raises `unacknowledged_packet_count` by one. -/
theorem send_body_flow (s : session) (p : Nat) (r : Bool) (cb : send_cb) (fr : Bool) :
    (send_body s (some p) r cb fr).s.sent = s.sent ∨
    (ready_to_send s = true ∧
      (send_body s (some p) r cb fr).s.sent.length = s.sent.length + 1 ∧
      (send_body s (some p) r cb fr).s.unacknowledged_packet_count =
        (s.unacknowledged_packet_count + 1) % 2 ^ 64 ∧
      (send_body s (some p) r cb fr).s.remote_config = s.remote_config) := by
  simp only [send_body]
  split_ifs with h1 h2 h3 h4 h5 h6
  · exact Or.inl (invoke_sent _ _ _)
  · exact Or.inl rfl
  · exact Or.inl rfl
  · exact Or.inl rfl
  · exact Or.inl rfl
  · split
    · rename_i h; exact Or.inl (send_syn_sent_error _ _ _ _ _ h)
    · rename_i s1 cbs1 h
      obtain ⟨e1, e2⟩ := send_syn_sent _ _ _ _ _ h
      obtain ⟨e3, e4⟩ := send_syn_counter _ _ _ _ _ h
      refine Or.inr ⟨by simpa using h2, ?_, ?_, ?_⟩
      · simp only [result.ok]
        rw [invoke_all_sent, send_transmit_sent, e1, List.length_append]
        rfl
      · simp only [result.ok]
        rw [show (invoke_all (send_transmit s1 p (s.heap p) cb) cbs1
            false).unacknowledged_packet_count =
            (send_transmit s1 p (s.heap p) cb).unacknowledged_packet_count from
          congrArg (fun v => v.2.2.2.2.2.2.2.2.1) (invoke_all_view cbs1 _ false),
          (send_transmit_fields s1 p (s.heap p) cb).2.2.2.2, e3]
      · simp only [result.ok]
        rw [show (invoke_all (send_transmit s1 p (s.heap p) cb) cbs1 false).remote_config =
            (send_transmit s1 p (s.heap p) cb).remote_config from
          congrArg (fun v => v.2.1) (invoke_all_view cbs1 _ false),
          send_transmit_remote_config, e4]
  · split
    · rename_i h; cases h
    · rename_i h; cases h
      refine Or.inr ⟨by simpa using h2, ?_, ?_, ?_⟩
      · simp only [result.ok]
        rw [invoke_all_sent, send_transmit_sent, List.length_append]
        rfl
      · simp only [result.ok]
        rw [show (invoke_all (send_transmit s p (s.heap p) cb) []
            false).unacknowledged_packet_count =
            (send_transmit s p (s.heap p) cb).unacknowledged_packet_count from
          congrArg (fun v => v.2.2.2.2.2.2.2.2.1) (invoke_all_view [] _ false),
          (send_transmit_fields s p (s.heap p) cb).2.2.2.2]
      · simp only [result.ok]
        rw [show (invoke_all (send_transmit s p (s.heap p) cb) [] false).remote_config =
            (send_transmit s p (s.heap p) cb).remote_config from
          congrArg (fun v => v.2.1) (invoke_all_view [] _ false),
          send_transmit_remote_config]

/-- C18 (amended): what `session::send` bounds is the counter, not the span of the window.
Whenever a call of `send` hands a datagram to the socket, `unacknowledged_packet_count` was at
most `remote_config.max_out_of_standing_segs` and `send_head + 1` differed from
`acknowledge_head` when it was called; the call hands over exactly one datagram, raises the
counter by one and leaves `remote_config` alone, so that the counter is at most the limit plus
one afterwards. -/
theorem C18_counter_bounded_at_transmission (s : session) (p : Nat) (resend : Bool)
    (cb : send_cb) (h : (send s (some p) resend cb).s.sent ≠ s.sent) :
    s.unacknowledged_packet_count ≤ s.remote_config.max_out_of_standing_segs ∧
    s.send_head + 1 ≠ s.acknowledge_head ∧
    (send s (some p) resend cb).s.sent.length = s.sent.length + 1 ∧
    (send s (some p) resend cb).s.unacknowledged_packet_count ≤
      (send s (some p) resend cb).s.remote_config.max_out_of_standing_segs + 1 := by
  rcases send_body_flow s p resend cb false with h0 | ⟨h1, h2, h3, h4⟩
  · exact absurd h0 h
  · have hr : s.send_head + 1 ≠ s.acknowledge_head ∧
        s.unacknowledged_packet_count ≤ s.remote_config.max_out_of_standing_segs := by
      simpa [ready_to_send] using h1
    refine ⟨hr.2, hr.1, h2, ?_⟩
    show (send_body s (some p) resend cb false).s.unacknowledged_packet_count ≤
      (send_body s (some p) resend cb false).s.remote_config.max_out_of_standing_segs + 1
    rw [h3, h4]
    have := Nat.mod_le (s.unacknowledged_packet_count + 1) (2 ^ 64)
    omega

set_option maxRecDepth 100000 in
/-- C18, witness: the data segment of `framed_example`, sent while only the SYN is outstanding. -/
theorem C18_counter_bounded_at_transmission_witness :
    (send framed_example (some 1) false (send_cb.user 1)).s.sent ≠ framed_example.sent ∧
    framed_example.unacknowledged_packet_count ≤
      framed_example.remote_config.max_out_of_standing_segs ∧
    (send framed_example (some 1) false (send_cb.user 1)).s.unacknowledged_packet_count ≤
      (send framed_example (some 1) false
        (send_cb.user 1)).s.remote_config.max_out_of_standing_segs + 1 :=
  have h := C18_counter_bounded_at_transmission framed_example 1 false (send_cb.user 1)
    (by decide)
  ⟨by decide, h.1, h.2.2.2⟩

/-! ## The checksum and its reference definition -/

theorem checksum_add_range (a v : Nat) (h1 : 1 ≤ a) (h2 : a ≤ 65535) (hv : v ≤ 65535) :
    1 ≤ checksum_add a v ∧ checksum_add a v ≤ 65535 ∧
    checksum_add a v % 65535 = (a + v) % 65535 := by
  unfold checksum_add
  split_ifs <;> omega

theorem checksum_accumulator_range : ∀ (b : buffer_t) (a : Nat), is_bytes b → 1 ≤ a →
    a ≤ 65535 →
    1 ≤ checksum_accumulator b a ∧ checksum_accumulator b a ≤ 65535 ∧
    checksum_accumulator b a % 65535 = (a + word_sum b) % 65535
  | [], a, _, h1, h2 => by
    simp only [checksum_accumulator, checksum_words, word_sum, List.length_nil]
    exact ⟨h1, h2, rfl⟩
  | [b0], a, hb, h1, h2 => by
    have h0 : b0 < 256 := hb b0 (List.mem_singleton.mpr rfl)
    have e : checksum_accumulator [b0] a = checksum_add a (b0 * 256) := by
      simp [checksum_accumulator, checksum_words, byte, Nat.shiftLeft_eq]
    rw [e]
    exact checksum_add_range a _ h1 h2 (by omega)
  | b0 :: b1 :: rest, a, hb, h1, h2 => by
    have h0 : b0 < 256 := hb b0 (List.mem_cons_self _ _)
    have hb1 : b1 < 256 := hb b1 (List.mem_cons_of_mem _ (List.mem_cons_self _ _))
    have hrest : is_bytes rest := fun x hx =>
      hb x (List.mem_cons_of_mem _ (List.mem_cons_of_mem _ hx))
    have hw : (b0 <<< 8) ||| b1 = b0 * 256 + b1 := or_shift8 b0 b1 hb1
    obtain ⟨c1, c2, c3⟩ := checksum_add_range a (b0 * 256 + b1) h1 h2 (by omega)
    have e : checksum_accumulator (b0 :: b1 :: rest) a =
        checksum_accumulator rest (checksum_add a (b0 * 256 + b1)) := by
      unfold checksum_accumulator
      have hl : (b0 :: b1 :: rest).length % 2 = rest.length % 2 := by
        simp only [List.length_cons]
        omega
      rw [hl]
      have hw2 : checksum_words (b0 :: b1 :: rest) a =
          checksum_words rest (checksum_add a (b0 * 256 + b1)) := by
        rw [checksum_words, hw]
      rw [hw2]
      by_cases hodd : rest.length % 2 ≠ 0
      · rw [if_pos hodd, if_pos hodd]
        have hne : rest.length ≠ 0 := by omega
        have hbyte : byte (b0 :: b1 :: rest) ((b0 :: b1 :: rest).length - 1) =
            byte rest (rest.length - 1) := by
          simp only [byte, List.length_cons]
          rw [show rest.length + 1 + 1 - 1 = (rest.length - 1) + 1 + 1 by omega]
          rfl
        rw [hbyte]
      · rw [if_neg hodd, if_neg hodd]
    obtain ⟨r1, r2, r3⟩ := checksum_accumulator_range rest _ hrest c1 c2
    rw [e]
    refine ⟨r1, r2, ?_⟩
    rw [r3, word_sum]
    omega

theorem checksum_eq_accumulator (B : buffer_t) (h : B.length ≠ 0) :
    checksum B =
      if (2 ^ 32 - 1 - checksum_accumulator B 0xFFFF) % 2 ^ 32 % 2 ^ 16 = 0 then 0xFFFF
      else (2 ^ 32 - 1 - checksum_accumulator B 0xFFFF) % 2 ^ 32 % 2 ^ 16 := by
  unfold checksum checksum_accumulator
  rw [if_neg h]

/-- C21 (checksum equals its reference definition): for every sequence of bytes `B`, with `S`
the sum of its big-endian 16-bit words, an odd trailing byte `b` counting as `b * 256`, and
`r = S mod 65535`, `rudp::checksum( B )` is 0xFFFF when `r = 0` and `0xFFFF - r` otherwise.
The empty sequence is included: its sum is 0 and its checksum 0xFFFF. -/
theorem C21_checksum_reference (B : buffer_t) (hB : is_bytes B) :
    checksum B = checksum_reference B := by
  by_cases h : B.length = 0
  · have : B = [] := List.length_eq_zero.mp h
    subst this
    rfl
  · obtain ⟨r1, r2, r3⟩ := checksum_accumulator_range B 0xFFFF hB (by norm_num) (by norm_num)
    rw [checksum_eq_accumulator B h]
    unfold checksum_reference
    generalize checksum_accumulator B 0xFFFF = a at r1 r2 r3
    generalize word_sum B = S at r3
    norm_num at r3 ⊢
    split_ifs <;> omega

/-- C21, witness: the two bytes `FF FF` sum to 65535, so that `r = 0` and the checksum is
0xFFFF. -/
theorem C21_checksum_reference_witness :
    is_bytes [0xFF, 0xFF] ∧ word_sum [0xFF, 0xFF] % 65535 = 0 ∧ checksum [0xFF, 0xFF] = 0xFFFF :=
  ⟨by decide, by decide, (C21_checksum_reference [0xFF, 0xFF] (by decide)).trans (by decide)⟩

/-! ## The configuration record -/

/-- The member `dump` overwrites every byte of a buffer of 22 bytes. -/
theorem dump_record (c : session_config) (b : buffer_t) (hb : b.length = 22) :
    c.dump b 0 22 = .ok (config_record c) := by
  rcases b with _ | ⟨x0, _ | ⟨x1, _ | ⟨x2, _ | ⟨x3, _ | ⟨x4, _ | ⟨x5, _ | ⟨x6, _ | ⟨x7, _ | ⟨x8, _ | ⟨x9, _ | ⟨x10, _ | ⟨x11, _ | ⟨x12, _ | ⟨x13, _ | ⟨x14, _ | ⟨x15, _ | ⟨x16, _ | ⟨x17, _ | ⟨x18, _ | ⟨x19, _ | ⟨x20, _ | ⟨x21, _ | ⟨x22, t⟩⟩⟩⟩⟩⟩⟩⟩⟩⟩⟩⟩⟩⟩⟩⟩⟩⟩⟩⟩⟩⟩⟩
  all_goals first
    | (simp at hb; done)
    | simp [session_config.dump, to_be16, to_be32, config_record]

theorem config_record_wire_layout (c : session_config) (hc : c.in_range) :
    config_record c = wire_layout c := by
  obtain ⟨h1, h2, h3, h4, h5, h6, h7, h8, h9, h10, h11, h12⟩ := hc
  unfold config_record wire_layout
  simp only [Nat.shiftRight_eq_div_pow]
  rw [Nat.mod_eq_of_lt h1, Nat.mod_eq_of_lt h2, Nat.mod_eq_of_lt h8, Nat.mod_eq_of_lt h9,
    Nat.mod_eq_of_lt h10, Nat.mod_eq_of_lt h11,
    show c.maximum_segment_size / 2 ^ 8 % 256 = c.maximum_segment_size / 256 by omega,
    show c.retransmission_timeout_value / 2 ^ 8 % 256 = c.retransmission_timeout_value / 256
      by omega,
    show c.cumulative_ack_timeout_value / 2 ^ 8 % 256 = c.cumulative_ack_timeout_value / 256
      by omega,
    show c.null_segment_timeout_value / 2 ^ 8 % 256 = c.null_segment_timeout_value / 256
      by omega,
    show c.transfer_state_timeout_value / 2 ^ 8 % 256 = c.transfer_state_timeout_value / 256
      by omega,
    show c.connection_identifier / 2 ^ 24 % 256 = c.connection_identifier / 2 ^ 24 by omega]

theorem parse_config_record (c : session_config) (hc : c.in_range) :
    session_config.parse (config_record c) 0 22 = .ok c := by
  obtain ⟨h1, h2, h3, h4, h5, h6, h7, h8, h9, h10, h11, h12⟩ := hc
  have e3 := from_be16_bytes (config_record c) 4 c.maximum_segment_size h3 rfl rfl
  have e4 := from_be16_bytes (config_record c) 6 c.retransmission_timeout_value h4 rfl rfl
  have e5 := from_be16_bytes (config_record c) 8 c.cumulative_ack_timeout_value h5 rfl rfl
  have e6 := from_be16_bytes (config_record c) 10 c.null_segment_timeout_value h6 rfl rfl
  have e7 := from_be16_bytes (config_record c) 12 c.transfer_state_timeout_value h7 rfl rfl
  have e12 := from_be32_bytes (config_record c) 18 c.connection_identifier h12 rfl rfl rfl rfl
  have b0 : byte (config_record c) 0 = 0x10 := rfl
  have b1 : byte (config_record c) (0 + 1) = c.max_out_of_standing_segs := Nat.mod_eq_of_lt h1
  have b2 : byte (config_record c) (0 + 2) = c.option_flags := Nat.mod_eq_of_lt h2
  have b14 : byte (config_record c) (0 + 14) = c.max_retrans := Nat.mod_eq_of_lt h8
  have b15 : byte (config_record c) (0 + 15) = c.max_cum_ack := Nat.mod_eq_of_lt h9
  have b16 : byte (config_record c) (0 + 16) = c.max_out_of_seq := Nat.mod_eq_of_lt h10
  have b17 : byte (config_record c) (0 + 17) = c.max_auto_reset := Nat.mod_eq_of_lt h11
  unfold session_config.parse
  rw [if_neg (by decide), b0, if_neg (by decide), b1, b2, b14, b15, b16, b17, e3, e4, e5, e6,
    e7, e12]

/-- C22 (configuration round trip): for every configuration whose twelve fields fit their
types, serializing it into any buffer of 22 bytes succeeds, and parsing the 22 bytes written
succeeds and yields the same configuration. -/
theorem C22_config_round_trip (c : session_config) (b : buffer_t) (hc : c.in_range)
    (hb : b.length = 22) :
    ∃ b', c.dump b 0 22 = .ok b' ∧ b'.length = 22 ∧ byte b' 0 = 0x10 ∧
      session_config.parse b' 0 b'.length = .ok c :=
  ⟨config_record c, dump_record c b hb, rfl, rfl, parse_config_record c hc⟩

/-- C22, witness: the default configuration with connection identifier 0x01020304, written
into a fresh buffer. -/
theorem C22_config_round_trip_witness :
    (session_config.default 0x01020304).in_range ∧ (new_buffer 22).length = 22 ∧
    ∃ b', (session_config.default 0x01020304).dump (new_buffer 22) 0 22 = .ok b' ∧
      b'.length = 22 ∧ byte b' 0 = 0x10 ∧
      session_config.parse b' 0 b'.length = .ok (session_config.default 0x01020304) :=
  ⟨default_in_range _, by decide,
    C22_config_round_trip (session_config.default 0x01020304) (new_buffer 22)
      (default_in_range _) (by decide)⟩

/-- C23 (configuration wire layout): for every configuration whose fields fit their types,
`dump` turns a buffer of 22 bytes into the marker 0x10, `max_out_of_standing_segs`,
`option_flags`, a zero byte, the five 16-bit values high byte first at the offsets 4, 6, 8, 10
and 12, the four bytes `max_retrans`, `max_cum_ack`, `max_out_of_seq`, `max_auto_reset` at the
offsets 14 to 17, and `connection_identifier` high byte first at offset 18. -/
theorem C23_config_wire_layout (c : session_config) (b : buffer_t) (hc : c.in_range)
    (hb : b.length = 22) :
    c.dump b 0 22 = .ok (wire_layout c) ∧ (wire_layout c).length = 22 ∧
    is_bytes (wire_layout c) := by
  refine ⟨by rw [dump_record c b hb, config_record_wire_layout c hc], rfl, ?_⟩
  obtain ⟨h1, h2, h3, h4, h5, h6, h7, h8, h9, h10, h11, h12⟩ := hc
  intro x hx
  simp only [wire_layout, List.mem_cons, List.mem_singleton, List.not_mem_nil, or_false] at hx
  norm_num at h12
  rcases hx with h | h | h | h | h | h | h | h | h | h | h | h | h | h | h | h | h | h | h | h |
    h | h <;> (subst h; omega)

/-- C23, witness: the default configuration with connection identifier 0x01020304. -/
theorem C23_config_wire_layout_witness :
    (session_config.default 0x01020304).in_range ∧ (new_buffer 22).length = 22 ∧
    (session_config.default 0x01020304).dump (new_buffer 22) 0 22 =
      .ok [0x10, 64, 2, 0, 5, 70, 3, 232, 1, 244, 3, 232, 3, 232, 3, 32, 32, 0, 1, 2, 3, 4] :=
  ⟨default_in_range _, by decide,
    (C23_config_wire_layout (session_config.default 0x01020304) (new_buffer 22)
      (default_in_range _) (by decide)).1⟩

/-- C24, counterexample: a sequence of 22 bytes whose first byte is 0x11 makes the parsing
constructor fail with `invalid_packet`, a sequence of 21 bytes with
`unable_to_deserialize_session_config`: the two failures are of different kinds. -/
theorem C24_marker_error_is_invalid_packet :
    session_config.parse (0x11 :: new_buffer 21) 0 (0x11 :: new_buffer 21).length =
      .error error.invalid_packet ∧
    session_config.parse (new_buffer 21) 0 (new_buffer 21).length =
      .error error.unable_to_deserialize_session_config ∧
    error.invalid_packet ≠ error.unable_to_deserialize_session_config :=
  ⟨rfl, rfl, by decide⟩

/-- C24 (amended): for every byte sequence, the parsing constructor fails with
`unable_to_deserialize_session_config` exactly when the length is not 22, fails with
`invalid_packet` exactly when the length is 22 and the first byte is not 0x10, and succeeds
exactly when the length is 22 and the first byte is 0x10. -/
theorem C24_config_parse_errors (b : buffer_t) :
    (session_config.parse b 0 b.length = .error error.unable_to_deserialize_session_config ↔
      b.length ≠ 22) ∧
    (session_config.parse b 0 b.length = .error error.invalid_packet ↔
      b.length = 22 ∧ byte b 0 ≠ 0x10) ∧
    ((∃ c, session_config.parse b 0 b.length = .ok c) ↔ b.length = 22 ∧ byte b 0 = 0x10) := by
  unfold session_config.parse
  by_cases h1 : b.length = 22
  · have e : ¬ ((b.length : Int) - ((0 : Nat) : Int) ≠ 22) := by
      rw [h1]
      decide
    rw [if_neg e]
    by_cases h2 : byte b 0 = 0x10
    · rw [if_neg (not_not.mpr h2)]
      refine ⟨⟨(fun h => by cases h), fun h => absurd h1 h⟩,
        ⟨(fun h => by cases h), fun h => absurd h2 h.2⟩, ⟨fun _ => ⟨h1, h2⟩, fun _ => ⟨_, rfl⟩⟩⟩
    · rw [if_pos h2]
      refine ⟨⟨(fun h => by cases h), fun h => absurd h1 h⟩,
        ⟨fun _ => ⟨h1, h2⟩, fun _ => rfl⟩, ⟨fun h => ?_, fun h => absurd h.2 h2⟩⟩
      obtain ⟨c, hc⟩ := h
      cases hc
  · have e : (b.length : Int) - ((0 : Nat) : Int) ≠ 22 := by
      intro h
      apply h1
      omega
    rw [if_pos e]
    refine ⟨⟨fun _ => h1, fun _ => rfl⟩, ⟨(fun h => by cases h), fun h => absurd h.1 h1⟩,
      ⟨fun h => ?_, fun h => absurd h.1 h1⟩⟩
    obtain ⟨c, hc⟩ := h
    cases hc

/-- C25 (merge is a pointwise minimum with a frame): after `a &= b` each of the four timeouts
and each of `max_retrans`, `max_cum_ack`, `max_out_of_seq`, `max_auto_reset` of `a` is the
minimum of the old value and the value of `b`, and `max_out_of_standing_segs`, `option_flags`,
`maximum_segment_size` and `connection_identifier` of `a` are what they were. -/
theorem C25_merge_pointwise_minimum (a b : session_config) :
    (a.merge b).retransmission_timeout_value =
      min a.retransmission_timeout_value b.retransmission_timeout_value ∧
    (a.merge b).cumulative_ack_timeout_value =
      min a.cumulative_ack_timeout_value b.cumulative_ack_timeout_value ∧
    (a.merge b).null_segment_timeout_value =
      min a.null_segment_timeout_value b.null_segment_timeout_value ∧
    (a.merge b).transfer_state_timeout_value =
      min a.transfer_state_timeout_value b.transfer_state_timeout_value ∧
    (a.merge b).max_retrans = min a.max_retrans b.max_retrans ∧
    (a.merge b).max_cum_ack = min a.max_cum_ack b.max_cum_ack ∧
    (a.merge b).max_out_of_seq = min a.max_out_of_seq b.max_out_of_seq ∧
    (a.merge b).max_auto_reset = min a.max_auto_reset b.max_auto_reset ∧
    (a.merge b).max_out_of_standing_segs = a.max_out_of_standing_segs ∧
    (a.merge b).option_flags = a.option_flags ∧
    (a.merge b).maximum_segment_size = a.maximum_segment_size ∧
    (a.merge b).connection_identifier = a.connection_identifier :=
  ⟨rfl, rfl, rfl, rfl, rfl, rfl, rfl, rfl, rfl, rfl, rfl, rfl⟩

/-- C26 (negotiation reaches agreement): after `self &= remote` followed by `remote &= self`
every timeout and every one of `max_retrans`, `max_cum_ack`, `max_out_of_seq`, `max_auto_reset`
is the same on both sides and is the minimum of the two original values, and repeating either
merge changes nothing. -/
theorem C26_negotiation_agreement (self remote : session_config) :
    (self.merge remote).retransmission_timeout_value =
      (remote.merge (self.merge remote)).retransmission_timeout_value ∧
    (self.merge remote).cumulative_ack_timeout_value =
      (remote.merge (self.merge remote)).cumulative_ack_timeout_value ∧
    (self.merge remote).null_segment_timeout_value =
      (remote.merge (self.merge remote)).null_segment_timeout_value ∧
    (self.merge remote).transfer_state_timeout_value =
      (remote.merge (self.merge remote)).transfer_state_timeout_value ∧
    (self.merge remote).max_retrans = (remote.merge (self.merge remote)).max_retrans ∧
    (self.merge remote).max_cum_ack = (remote.merge (self.merge remote)).max_cum_ack ∧
    (self.merge remote).max_out_of_seq = (remote.merge (self.merge remote)).max_out_of_seq ∧
    (self.merge remote).max_auto_reset = (remote.merge (self.merge remote)).max_auto_reset ∧
    (remote.merge (self.merge remote)).retransmission_timeout_value =
      min self.retransmission_timeout_value remote.retransmission_timeout_value ∧
    (remote.merge (self.merge remote)).cumulative_ack_timeout_value =
      min self.cumulative_ack_timeout_value remote.cumulative_ack_timeout_value ∧
    (remote.merge (self.merge remote)).null_segment_timeout_value =
      min self.null_segment_timeout_value remote.null_segment_timeout_value ∧
    (remote.merge (self.merge remote)).transfer_state_timeout_value =
      min self.transfer_state_timeout_value remote.transfer_state_timeout_value ∧
    (remote.merge (self.merge remote)).max_retrans = min self.max_retrans remote.max_retrans ∧
    (remote.merge (self.merge remote)).max_cum_ack = min self.max_cum_ack remote.max_cum_ack ∧
    (remote.merge (self.merge remote)).max_out_of_seq =
      min self.max_out_of_seq remote.max_out_of_seq ∧
    (remote.merge (self.merge remote)).max_auto_reset =
      min self.max_auto_reset remote.max_auto_reset ∧
    (self.merge remote).merge (remote.merge (self.merge remote)) = self.merge remote ∧
    (remote.merge (self.merge remote)).merge (self.merge remote) =
      remote.merge (self.merge remote) := by
  simp only [session_config.merge, session_config.mk.injEq]
  refine ⟨?_, ?_, ?_, ?_, ?_, ?_, ?_, ?_, ?_, ?_, ?_, ?_, ?_, ?_, ?_, ?_, ?_, ?_⟩ <;>
    simp only [Nat.min_def] <;> (repeat' constructor) <;> split_ifs <;> omega

/-! ## The delayed acknowledgement -/

set_option maxRecDepth 100000 in
/-- C27 (delayed-ACK threshold): with the negotiated `max_cum_ack` 0, the Opened session
`delayed_ack_example 0` (counter 0, two datagrams sent in the handshake) receives the data
segment numbered 21: it is delivered, no datagram is emitted, the counter is 1 and the
cumulative-ack timer is armed.  The ACK is emitted while the second data segment is processed,
as it is with `max_cum_ack` 1. -/
theorem C27_no_acknowledgement_at_threshold_zero :
    (delayed_ack_example 0).state = session_state.opened ∧
    (delayed_ack_example 0).self_config.max_cum_ack = 0 ∧
    (delayed_ack_example 0).cumulative_ack_count = 0 ∧
    (delayed_ack_example 0).sent.length = 2 ∧
    (delayed_ack_trace 0 2).map (fun r => (r.thrown, r.received.length, r.s.sent.length,
        r.s.cumulative_ack_count, r.s.cumulative_ack_timer)) =
      [(none, 1, 2, 1, true), (none, 1, 3, 0, false)] ∧
    (delayed_ack_trace 0 2).map (fun r => r.s.sent.getLast?) =
      [some [64, 6, 4, 20, 187, 229], some [64, 6, 5, 22, 186, 227]] ∧
    (delayed_ack_example 1).self_config.max_cum_ack = 1 ∧
    (delayed_ack_trace 1 2).map (fun r => (r.thrown, r.received.length, r.s.sent.length,
        r.s.cumulative_ack_count, r.s.cumulative_ack_timer)) =
      [(none, 1, 2, 1, true), (none, 1, 3, 0, false)] := by
  decide

/-! ## Closing and the SYN collision -/

/-- The members that `close` sets, and the log of callbacks, which it leaves alone. -/
theorem close_fields (s : session) :
    (close s).state = session_state.opened ∧ (close s).called = s.called ∧
    (close s).on_closed = s.on_closed + 1 := by
  have h := clear_retransmission_timer_loop_frame ((255 + 256 - 0) % 256)
    { s with state := session_state.opened, cumulative_ack_timer := false,
             null_segment_timer := false } 0
  simp only [close, cancel_all_timers, clear_retransmission_timer]
  generalize clear_retransmission_timer_loop ((255 + 256 - 0) % 256)
    { s with state := session_state.opened, cumulative_ack_timer := false,
             null_segment_timer := false } 0 = L at h ⊢
  rw [h]
  exact ⟨rfl, rfl, rfl⟩

/-- C29 (closing leaves the session Closed): after `close()` the state of the session is
Opened, whatever it was, and the on-closed hook has been invoked once. -/
theorem C29_close_sets_opened (s : session) :
    (close s).state = session_state.opened ∧ (close s).state ≠ session_state.closed ∧
    (close s).on_closed = s.on_closed + 1 :=
  ⟨(close_fields s).1, by rw [(close_fields s).1]; decide, (close_fields s).2.2⟩

theorem invoke_called (s : session) (cb : send_cb) (b : Bool) :
    (invoke s cb b).called = s.called ++ [(cb, b)] := by
  unfold invoke
  split
  · rw [(close_fields _).2.1]
  · rfl

theorem invoke_all_called (cbs : List send_cb) (s : session) (b : Bool) :
    (invoke_all s cbs b).called = s.called ++ cbs.map (fun cb => (cb, b)) := by
  unfold invoke_all
  induction cbs generalizing s with
  | nil => simp
  | cons c cs ih =>
    rw [List.foldl_cons, ih, invoke_called, List.map_cons, List.append_assoc]
    rfl

theorem send_transmit_called (s : session) (p : Nat) (buf : buffer_t) (cb : send_cb) :
    (send_transmit s p buf cb).called = s.called := by
  simp only [send_transmit, reset_cumulative_ack_counter, set_null_segment_timer,
    set_retransmission_timer]
  split_ifs <;> rfl

theorem filterMap_filter_map {α β : Type} (l : List α) (p : α → Bool) (g : α → β) :
    l.filterMap (fun t => if p t = true then some (g t) else none) = (l.filter p).map g := by
  induction l with
  | nil => rfl
  | cons a l ih =>
    by_cases h : p a = true
    · simp [List.filterMap_cons, List.filter_cons, h, ih]
    · simp [List.filterMap_cons, List.filter_cons, h, ih]

/-- The callbacks that the SYN branch of `send` captures are those of the occupied slots, in
ascending order of the slots. -/
theorem occupied_callbacks_occupied (s : session) :
    occupied_callbacks s.send_buffer 256 0 = (occupied s).map (fun i => (s.send_buffer i).2) := by
  rw [occupied_callbacks_eq]
  simp only [Nat.zero_add]
  exact filterMap_filter_map (List.range 256) (fun i => (s.send_buffer i).1.isSome)
    (fun i => (s.send_buffer i).2)

/-- A SYN segment that passes the checks of `send` and whose configuration record parses is
transmitted from the state `syn_state`, and the captured callbacks are invoked with `false`. -/
theorem send_syn_transmits (s : session) (p : Nat) (resend : Bool) (cb : send_cb)
    (c : session_config) (hsyn : flag (s.heap p) 0x80 = true)
    (hflags : check_common_header (s.heap p) = true)
    (hsize : 4 ≤ byte (s.heap p) 1 ∧ byte (s.heap p) 1 ≤ (s.heap p).length)
    (hready : ready_to_send s = true)
    (hparse : session_config.parse (s.heap p) 4 (byte (s.heap p) 1 - 2) = .ok c) :
    send s (some p) resend cb =
      result.ok (invoke_all (send_transmit (syn_state s c) p (s.heap p) cb)
        (occupied_callbacks s.send_buffer 256 0) false) := by
  simp only [send, send_body, hsyn, hflags, hready, Bool.not_true, Bool.and_false,
    Bool.false_and, Bool.false_eq_true, if_false, if_true, send_syn, hparse, syn_state]
  rw [if_neg (not_lt.mpr hsize.2), if_neg (not_lt.mpr hsize.1)]

/-- C28 (SYN collision): when `send` transmits a SYN segment (the checks of the header pass,
the send window has room and the configuration record of the segment parses), the callback of
every occupied slot of the send ring is invoked once with `false`, in ascending order of the
slots and after the datagram has been handed to the socket; afterwards the slot of the SYN,
numbered by `rand()`, is the only occupied slot and `acknowledge_head` is the sequence number
of the SYN. -/
theorem C28_syn_collision (s : session) (p : Nat) (resend : Bool) (cb : send_cb)
    (c : session_config) (hsyn : flag (s.heap p) 0x80 = true)
    (hflags : check_common_header (s.heap p) = true)
    (hlen : byte (s.heap p) 1 ≤ (s.heap p).length) (hready : ready_to_send s = true)
    (hparse : session_config.parse (s.heap p) 4 (byte (s.heap p) 1 - 2) = .ok c) :
    (send s (some p) resend cb).thrown = none ∧
    (send s (some p) resend cb).s.called =
      s.called ++ (occupied s).map (fun i => ((s.send_buffer i).2, false)) ∧
    (∀ i, ((send s (some p) resend cb).s.send_buffer i).1 =
      if i = s.rand.headD 0 % 256 then some p else none) ∧
    (send s (some p) resend cb).s.send_buffer (s.rand.headD 0 % 256) = (some p, cb) ∧
    (send s (some p) resend cb).s.acknowledge_head = s.rand.headD 0 % 256 ∧
    ∃ d, (send s (some p) resend cb).s.sent = s.sent ++ [d] ∧
      byte d 2 = s.rand.headD 0 % 256 := by
  have h28 : byte (s.heap p) 1 = 28 := by
    by_contra hne
    unfold session_config.parse at hparse
    rw [if_pos (by omega)] at hparse
    cases hparse
  rw [send_syn_transmits s p resend cb c hsyn hflags ⟨by omega, hlen⟩ hready hparse]
  obtain ⟨_, k2, _, k4, _⟩ := send_transmit_fields (syn_state s c) p (s.heap p) cb
  have v := invoke_all_view (occupied_callbacks s.send_buffer 256 0)
    (send_transmit (syn_state s c) p (s.heap p) cb) false
  have vb : (invoke_all (send_transmit (syn_state s c) p (s.heap p) cb)
      (occupied_callbacks s.send_buffer 256 0) false).send_buffer =
      (send_transmit (syn_state s c) p (s.heap p) cb).send_buffer :=
    congrArg (fun v => v.2.2.2.2.1) v
  have va : (invoke_all (send_transmit (syn_state s c) p (s.heap p) cb)
      (occupied_callbacks s.send_buffer 256 0) false).acknowledge_head =
      (send_transmit (syn_state s c) p (s.heap p) cb).acknowledge_head :=
    congrArg (fun v => v.2.2.2.2.2.2.1) v
  refine ⟨rfl, ?_, ?_, ?_, ?_, ?_⟩
  · show (invoke_all _ _ false).called = _
    rw [invoke_all_called, send_transmit_called, occupied_callbacks_occupied, List.map_map]
    rfl
  · intro i
    show ((invoke_all _ _ false).send_buffer i).1 = _
    rw [vb, k2]
    show (if i = s.rand.headD 0 % 256 then (some p, cb) else (none, (s.send_buffer i).2)).1 = _
    split_ifs <;> rfl
  · show (invoke_all _ _ false).send_buffer _ = _
    rw [vb, k2]
    exact if_pos rfl
  · show (invoke_all _ _ false).acknowledge_head = _
    rw [va, k4]
    rfl
  · refine ⟨stamp (s.heap p) (s.rand.headD 0 % 256) s.receive_head, ?_, ?_⟩
    · show (invoke_all _ _ false).sent = _
      rw [invoke_all_sent, send_transmit_sent]
      rfl
    · rw [stamp_byte_low _ _ _ _ (by omega), stamp_header_byte2 _ _ _ (by omega)]

set_option maxRecDepth 100000 in
theorem collision_example_heap :
    collision_example.heap 4 = syn_segment (session_config.default 1) false := by
  decide

set_option maxRecDepth 100000 in
/-- C28, witness: a second SYN sent while the first SYN and three data segments are outstanding
in the slots 10 to 13; `rand()` returns 0 for the new sequence number. -/
theorem C28_syn_collision_witness :
    occupied collision_example = [10, 11, 12, 13] ∧
    (send collision_example (some 4) false (send_cb.connect 9)).thrown = none ∧
    (send collision_example (some 4) false (send_cb.connect 9)).s.called =
      [(send_cb.connect 0, false), (send_cb.user 1, false), (send_cb.user 2, false),
        (send_cb.user 3, false)] ∧
    (send collision_example (some 4) false (send_cb.connect 9)).s.send_buffer 0 =
      (some 4, send_cb.connect 9) ∧
    (send collision_example (some 4) false (send_cb.connect 9)).s.acknowledge_head = 0 :=
  have h := C28_syn_collision collision_example 4 false (send_cb.connect 9)
    (session_config.default 1) (by rw [collision_example_heap]; decide)
    (by rw [collision_example_heap]; decide) (by rw [collision_example_heap]; decide)
    (by decide)
    (by rw [collision_example_heap]; exact parse_syn_segment _ _ (default_in_range 1))
  ⟨by decide, h.1, h.2.1.trans (by decide), h.2.2.2.1.trans (by decide),
    h.2.2.2.2.1.trans (by decide)⟩

/-! ## The demultiplexer (`class rudp_server` of `rudp.hpp`) -/

/-- C30 (demultiplexer send to an unknown connection): when the connection identifier has no
binding, or the bound endpoint has no entry in `sessions` or a null one, `rudp_server::send`
invokes the callback once with `false`, throws nothing and leaves both maps, and with them
every session, as they were.  When the identifier is bound to an endpoint with a live session,
the payload is handed to `send` of that session with the callback, the other entries of
`sessions` and the bindings are as they were, and the server invokes no callback itself. -/
theorem C30_demultiplexer_send (srv : rudp_server) (session_id : Nat) (payload : buffer_t)
    (cb : send_cb) :
    ((srv.session_bindings session_id = none ∨
        ∃ ep, srv.session_bindings session_id = some ep ∧
          (srv.sessions ep = none ∨ srv.sessions ep = some none)) →
      (srv.send session_id payload cb).1.called = srv.called ++ [(cb, false)] ∧
      (srv.send session_id payload cb).1.sessions = srv.sessions ∧
      (srv.send session_id payload cb).1.session_bindings = srv.session_bindings ∧
      (srv.send session_id payload cb).2 = none) ∧
    (∀ ep sess, srv.session_bindings session_id = some ep →
      srv.sessions ep = some (some sess) →
      (srv.send session_id payload cb).1.sessions ep =
        some (some (send_data sess payload cb).s) ∧
      (∀ e, e ≠ ep → (srv.send session_id payload cb).1.sessions e = srv.sessions e) ∧
      (srv.send session_id payload cb).1.session_bindings = srv.session_bindings ∧
      (srv.send session_id payload cb).1.called = srv.called ∧
      (srv.send session_id payload cb).2 = (send_data sess payload cb).thrown) := by
  constructor
  · intro h
    have e : srv.send session_id payload cb =
        ({ srv with called := srv.called ++ [(cb, false)] }, none) := by
      rcases h with h | ⟨ep, h1, h2 | h2⟩
      · simp only [rudp_server.send, h]
      · simp only [rudp_server.send, h1, h2]
      · simp only [rudp_server.send, h1, h2]
    rw [e]
    exact ⟨rfl, rfl, rfl, rfl⟩
  · intro ep sess h1 h2
    have e : srv.send session_id payload cb =
        ({ srv with sessions := fun e => if e = ep then some (some (send_data sess payload cb).s)
                                         else srv.sessions e },
          (send_data sess payload cb).thrown) := by
      simp only [rudp_server.send, h1, h2]
    rw [e]
    exact ⟨if_pos rfl, fun e he => if_neg he, rfl, rfl, rfl⟩

set_option maxRecDepth 100000 in
/-- C30, witness: the identifier 4 is not bound, the identifiers 2 and 3 are bound to endpoints
without a live session, and the identifier 1 is bound to the endpoint 7. -/
theorem C30_demultiplexer_send_witness :
    (server_example.send 4 [1, 2] (send_cb.user 1)).1.called = [(send_cb.user 1, false)] ∧
    (server_example.send 2 [1, 2] (send_cb.user 1)).1.called = [(send_cb.user 1, false)] ∧
    (server_example.send 3 [1, 2] (send_cb.user 1)).1.called = [(send_cb.user 1, false)] ∧
    (server_example.send 3 [1, 2] (send_cb.user 1)).1.sessions = server_example.sessions ∧
    (server_example.send 1 [1, 2] (send_cb.user 1)).1.sessions 7 =
      some (some (send_data opened_example [1, 2] (send_cb.user 1)).s) ∧
    (server_example.send 1 [1, 2] (send_cb.user 1)).1.called = [] :=
  have h4 := (C30_demultiplexer_send server_example 4 [1, 2] (send_cb.user 1)).1
    (Or.inl (by decide))
  have h2 := (C30_demultiplexer_send server_example 2 [1, 2] (send_cb.user 1)).1
    (Or.inr ⟨8, by decide, Or.inr (by rfl)⟩)
  have h3 := (C30_demultiplexer_send server_example 3 [1, 2] (send_cb.user 1)).1
    (Or.inr ⟨9, by decide, Or.inl (by rfl)⟩)
  have h1 := (C30_demultiplexer_send server_example 1 [1, 2] (send_cb.user 1)).2 7
    opened_example (by decide) (by rfl)
  ⟨h4.1, h2.1, h3.1, h3.2.1, h1.1, h1.2.2.2.1⟩

/-! ## Detection of a corrupted byte -/

/-- The checksum of a sequence of bytes is given by the reference definition. -/
theorem checksum_is_reference (B : buffer_t) (hB : is_bytes B) :
    checksum B = checksum_reference B := by
  by_cases h : B.length = 0
  · have : B = [] := List.length_eq_zero.mp h
    subst this
    rfl
  · obtain ⟨r1, r2, r3⟩ := checksum_accumulator_range B 0xFFFF hB (by norm_num) (by norm_num)
    rw [checksum_eq_accumulator B h]
    unfold checksum_reference
    generalize checksum_accumulator B 0xFFFF = a at r1 r2 r3
    generalize word_sum B = S at r3
    norm_num at r3 ⊢
    split_ifs <;> omega

/-- Replacing the byte at index `i` changes the word sum by the difference of the two bytes,
weighted by 256 at an even index and by 1 at an odd one. -/
theorem word_sum_set : ∀ (B : buffer_t) (i v : Nat), i < B.length →
    word_sum (B.set i v) + byte B i * (if i % 2 = 0 then 256 else 1) =
      word_sum B + v * (if i % 2 = 0 then 256 else 1)
  | [], i, v, h => by simp at h
  | [b0], i, v, h => by
    have : i = 0 := by simpa using h
    subst this
    simp only [List.set_cons_zero, word_sum, byte, List.getD_cons_zero, Nat.zero_mod, if_true]
    omega
  | b0 :: b1 :: rest, 0, v, _ => by
    simp only [List.set_cons_zero, word_sum, byte, List.getD_cons_zero, Nat.zero_mod, if_true]
    omega
  | b0 :: b1 :: rest, 1, v, _ => by
    simp only [List.set_cons_succ, List.set_cons_zero, word_sum, byte, List.getD_cons_succ,
      List.getD_cons_zero, show ¬ (1 % 2 = 0) by decide, if_false]
    omega
  | b0 :: b1 :: rest, i + 2, v, h => by
    have ih := word_sum_set rest i v (by simpa using h)
    have hp : (i + 2) % 2 = i % 2 := by omega
    simp only [List.set_cons_succ, word_sum, byte, List.getD_cons_succ, hp]
    simp only [byte] at ih
    omega

theorem is_bytes_set (B : buffer_t) (i v : Nat) (hB : is_bytes B) (hv : v < 256) :
    is_bytes (B.set i v) := by
  intro x hx
  rcases List.mem_or_eq_of_mem_set hx with h | h
  · exact hB x h
  · rw [h]; exact hv

theorem byte_lt (B : buffer_t) (i : Nat) (hB : is_bytes B) : byte B i < 256 := by
  unfold byte
  rw [List.getD_eq_getElem?_getD]
  cases h : B[i]? with
  | none => simp
  | some x =>
    simp only [Option.getD_some]
    obtain ⟨hi, hx⟩ := List.getElem?_eq_some_iff.mp h
    exact hB x (hx ▸ List.getElem_mem hi)

/-- C34 (single-byte corruption is always detected): for every sequence of bytes `B`, every
index `i` below its length and every byte value `v` other than `B[i]`, the checksum of `B` with
`B[i]` replaced by `v` differs from the checksum of `B`. -/
theorem C34_single_byte_corruption_detected (B : buffer_t) (i v : Nat) (hB : is_bytes B)
    (hi : i < B.length) (hv : v < 256) (hne : v ≠ byte B i) :
    checksum (B.set i v) ≠ checksum B := by
  rw [checksum_is_reference B hB, checksum_is_reference _ (is_bytes_set B i v hB hv)]
  have hs := word_sum_set B i v hi
  have ha := byte_lt B i hB
  unfold checksum_reference
  generalize word_sum (B.set i v) = S' at hs
  generalize word_sum B = S at hs
  generalize byte B i = a at hs ha hne
  have hres : S' % 65535 ≠ S % 65535 := by
    by_cases hp : i % 2 = 0
    · rw [if_pos hp] at hs
      omega
    · rw [if_neg hp] at hs
      omega
  norm_num
  split_ifs <;> omega

/-- C34, witness: the datagram `44 06 00 FF B6 F8 01 02 03` with its payload byte 2 replaced
by 3. -/
theorem C34_single_byte_corruption_detected_witness :
    is_bytes [68, 6, 0, 255, 182, 248, 1, 2, 3] ∧
    checksum ([68, 6, 0, 255, 182, 248, 1, 2, 3].set 7 3) ≠
      checksum [68, 6, 0, 255, 182, 248, 1, 2, 3] :=
  ⟨by decide,
    C34_single_byte_corruption_detected [68, 6, 0, 255, 182, 248, 1, 2, 3] 7 3 (by decide)
      (by decide) (by decide) (by decide)⟩

set_option maxRecDepth 100000 in
/-- C31 (the counter matches the ring), refuted: a fresh session whose counter starts at 0 calls
`connect` (its SYN is stored in slot 10 and counted) and then receives the SYN of the peer.  The
answer, a SYN-ACK, goes through the SYN branch of `send`, which empties the send ring without
touching `unacknowledged_packet_count`: afterwards the counter is 2 while slot 30 is the only
slot of the send ring that is occupied. -/
theorem C31_counter_exceeds_occupied_slots :
    (connect (session.new 0 0 [1, 2, 10, 30]) 0).thrown = none ∧
    (connect (session.new 0 0 [1, 2, 10, 30]) 0).s.unacknowledged_packet_count = 1 ∧
    occupied (connect (session.new 0 0 [1, 2, 10, 30]) 0).s = [10] ∧
    simultaneous_open_example.thrown = none ∧
    simultaneous_open_example.s.unacknowledged_packet_count = 2 ∧
    occupied simultaneous_open_example.s = [30] := by
  decide

/-- C36 (rejection is atomic), refuted for the rejection raised by the constructor of
`session_config`: a SYN that passes the flag, header-length and checksum tests (and the
acknowledgement test when ACK is set), arrives at a client or at a session in state Initial,
has a header of 28 bytes and a configuration record that does not start with the marker 0x10,
is rejected with `invalid_packet` after `receive` has emptied the receive ring and has set
`receive_head` to the sequence number of the datagram. -/
theorem C36_rejected_after_receive_ring_reset (s : session) (d : buffer_t)
    (received : List buffer_t)
    (hflags : check_common_header d = true) (hsize : byte d 1 = 28) (hlen : 28 ≤ d.length)
    (hsum : checksum_ok d = true) (hsyn : flag d 0x80 = true)
    (hack : flag d 0x40 = true → is_valid_sequence_number s (byte d 3) = true)
    (hrole : s.client = true ∨ s.state = session_state.initial)
    (hmarker : byte d 4 ≠ 0x10) :
    receive s (some d) received =
      ⟨{ s with receive_buffer := fun _ => none, receive_head := byte d 2 }, received,
        some error.invalid_packet⟩ := by
  have b1 : byte (zero_checksum d) 1 = 28 := by
    rw [zero_checksum_byte d 1 (by omega), hsize]
  have b2 : byte (zero_checksum d) 2 = byte d 2 := zero_checksum_byte d 2 (by omega)
  have b3 : byte (zero_checksum d) 3 = byte d 3 := zero_checksum_byte d 3 (by omega)
  have b4 : byte (zero_checksum d) 4 = byte d 4 := zero_checksum_byte d 4 (by omega)
  rw [receive_checked s d received hflags (by omega) (by omega) hsum (by rw [b3]; exact hack)]
  have hgate : (!s.client && s.state != session_state.initial) = false := by
    rcases hrole with h | h
    · rw [h]; rfl
    · rw [h]; simp
  have hparse : session_config.parse (zero_checksum d) 4 (28 - 2) = .error error.invalid_packet := by
    simp only [session_config.parse, b4]
    rw [if_neg (by norm_num), if_pos hmarker]
  have e : receive_syn s (zero_checksum d) =
      .error ({ s with receive_buffer := fun _ => none, receive_head := byte d 2 },
        error.invalid_packet) := by
    simp only [receive_syn, hgate, b1, b2, hparse, Bool.false_eq_true, if_false]
  rw [if_pos hsyn, e]

set_option maxRecDepth 100000 in
/-- C36, witness: an established client holds the segment 22 of the peer in its receive ring,
waiting for the segment 21; the SYN `bad_marker_syn` is rejected with `invalid_packet`, the
buffered segment is gone and `receive_head` has moved from 21 to 7. -/
theorem C36_rejected_after_receive_ring_reset_witness :
    buffered_example.receive_head = 21 ∧
    buffered_example.receive_buffer 22 = some (zero_checksum (peer_data 22 [9])) ∧
    (receive buffered_example (some bad_marker_syn) []).thrown = some error.invalid_packet ∧
    (receive buffered_example (some bad_marker_syn) []).s.receive_buffer 22 = none ∧
    (receive buffered_example (some bad_marker_syn) []).s.receive_head = 7 :=
  have h := C36_rejected_after_receive_ring_reset buffered_example bad_marker_syn []
    (by decide) (by decide) (by decide) (by decide) (by decide) (fun h => by revert h; decide)
    (Or.inl (by decide)) (by decide)
  ⟨by decide, by decide, by rw [h], by rw [h], by rw [h]; decide⟩

/-- C35 (occupied slots lie inside the send window), refuted: a client whose SYN is numbered 0
and whose peer advertises the limit 255 sends its ACK and 254 payloads without an
acknowledgement arriving.  Every one of the 255 sends is transmitted, the last one from
`send_head` 255 (where `send_head + 1` is 256 in `int` and differs from `acknowledge_head` 0).
Afterwards `send_head` equals `acknowledge_head`, so the window is empty, and all 256 slots of
the send ring are occupied: none of them lies inside the window. -/
theorem C35_occupied_slot_outside_window :
    full_ring_example.send_head = 0 ∧ full_ring_example.acknowledge_head = 0 ∧
    full_ring_example.sent.length = 256 ∧ full_ring_example.pending = [] ∧
    full_ring_example.unacknowledged_packet_count = 256 ∧
    (∀ i < 256, (full_ring_example.send_buffer i).1.isSome = true ∧
      in_send_window full_ring_example i = false) := by
  decide!

theorem zero_checksum_flag (d : buffer_t) (m : Nat) (h : 4 ≤ byte d 1) :
    flag (zero_checksum d) m = flag d m := by
  unfold flag
  rw [zero_checksum_byte d 0 (by omega)]

theorem tcs_excludes_syn (d : buffer_t) (h : check_common_header d = true)
    (htcs : flag d 0x02 = true) : flag d 0x80 = false := by
  revert h htcs
  unfold check_common_header
  generalize flag d 0x80 = a
  generalize flag d 0x40 = b
  generalize flag d 0x20 = c
  generalize flag d 0x10 = e
  generalize flag d 0x08 = f
  generalize flag d 0x02 = g
  revert a b c e f g
  decide

theorem accesses_in_range (b : buffer_t) (last i : Nat)
    (h : i ∈ session_config.accesses b 4 last) : i < last := by
  unfold session_config.accesses at h
  split_ifs at h with h1 h2
  · simp at h
  · simp only [List.mem_singleton] at h
    push_neg at h1
    omega
  · push_neg at h1
    simp only [List.mem_append, List.mem_cons, List.mem_singleton, List.not_mem_nil, or_false,
      List.mem_range'_1] at h
    omega

/-- C37 (`receive` never reads outside the datagram), refuted for a TCS segment of four bytes:
for a datagram that passes the flag, header-length and checksum tests, every index at which
`receive` accesses the datagram afterwards is below the datagram length exactly when it is not
the case that TCS is set, the datagram has four bytes and the acknowledgement test (made on the
zeroed byte 3 when ACK is set) passes; in that case `(*incoming)[ 4 ]` is read one past the
end. -/
theorem C37_reads_in_range_unless_short_tcs (s : session) (d : buffer_t)
    (hflags : check_common_header d = true) (h4 : 4 ≤ byte d 1) (hlen : byte d 1 ≤ d.length) :
    (∀ i ∈ receive_accesses s (zero_checksum d), i < d.length) ↔
      ¬ (flag d 0x02 = true ∧ d.length = 4 ∧
          (flag d 0x40 = true →
            is_valid_sequence_number s (byte (zero_checksum d) 3) = true)) := by
  have b1 : byte (zero_checksum d) 1 = byte d 1 := zero_checksum_byte d 1 (by omega)
  have fl : ∀ m, flag (zero_checksum d) m = flag d m := fun m => zero_checksum_flag d m h4
  constructor
  · intro hall ⟨htcs, hsize, hack⟩
    have hsyn := tcs_excludes_syn d hflags htcs
    have hv : (flag d 0x40 && !is_valid_sequence_number s (byte (zero_checksum d) 3)) = false := by
      cases hf : flag d 0x40 with
      | false => rfl
      | true => rw [hack hf]; rfl
    have hmem : 4 ∈ receive_accesses s (zero_checksum d) := by
      simp only [receive_accesses, fl, hsyn, htcs, hv, Bool.false_and, Bool.false_eq_true,
        if_false, if_true]
      split_ifs <;> simp
    have := hall 4 hmem
    omega
  · intro hno i hi
    have hshort : flag d 0x02 = true →
        (flag d 0x40 && !is_valid_sequence_number s (byte (zero_checksum d) 3)) = false →
        4 < d.length := by
      intro htcs hv
      by_contra hc
      apply hno
      refine ⟨htcs, by omega, ?_⟩
      intro hf
      rw [hf] at hv
      simpa using hv
    have hcfg := accesses_in_range (zero_checksum d) (byte d 1 - 2) i
    have hrange : i ∈ List.range' 4 (byte d 1 - 6) → i < d.length := by
      intro h
      rw [List.mem_range'_1] at h
      omega
    unfold receive_accesses at hi
    simp only [fl, b1] at hi
    generalize hR : (if flag d 0x80 = true then receive_syn s (zero_checksum d)
      else Except.ok s) = R at hi
    generalize hrej : (flag d 0x40 &&
      !is_valid_sequence_number s (byte (zero_checksum d) 3)) = rej at hi hshort
    generalize (!s.client && s.state != session_state.initial) = gate at hi
    generalize session_config.accesses (zero_checksum d) 4 (byte d 1 - 2) = cfg at hi hcfg
    generalize List.range' 4 (byte d 1 - 6) = rng at hi hrange
    generalize hsize : (byte d 1 != (zero_checksum d).length) = has_data at hi
    generalize flag d 0x80 = syn at hi
    generalize flag d 0x40 = ack at hi
    generalize flag d 0x20 = eak at hi
    generalize htcs : flag d 0x02 = tcs at hi hshort
    cases rej with
    | true =>
      simp only [if_true] at hi
      cases ack <;> simp at hi <;> omega
    | false =>
      have hlong := fun h => hshort h rfl
      simp only [Bool.false_eq_true, if_false] at hi
      cases R with
      | error e =>
        simp only [] at hi
        cases ack <;> cases syn <;> cases gate <;>
          simp only [List.mem_append, List.mem_cons, List.mem_singleton, List.not_mem_nil,
            or_false, if_true, if_false, Bool.false_eq_true, Bool.and_true, Bool.and_false,
            Bool.not_true, Bool.not_false, Bool.true_and, Bool.false_and] at hi <;>
          first
          | omega
          | (rcases hi with hi | hi
             · omega
             · have := hcfg hi; omega)
      | ok s1 =>
        simp only [] at hi
        generalize ((if tcs = true then receive_tcs s1 (zero_checksum d) else s1).receive_buffer
          (byte (zero_checksum d) 2)).isSome = c1 at hi
        generalize (result.and_then _ _).thrown.isSome = c2 at hi
        by_cases hm : i ∈ cfg
        · have := hcfg hm
          omega
        · by_cases hr : i ∈ rng
          · exact hrange hr
          · have hlong2 : tcs = true → 4 < d.length := hlong
            cases c1 <;> cases c2 <;> cases tcs <;> cases ack <;> cases eak <;>
              simp only [List.mem_append, List.mem_cons, List.mem_singleton, List.not_mem_nil,
                or_false, false_or, if_true, if_false, Bool.false_eq_true, Bool.and_true,
                Bool.and_false, Bool.not_true, Bool.not_false, Bool.true_and, Bool.false_and,
                Bool.true_or, Bool.or_true, Bool.or_false, Bool.false_or, hm, hr, or_self,
                decide_eq_true_eq, true_implies, imp_self] at hi hlong2 <;>
              (try split_ifs at hi) <;>
              (try simp only [List.mem_append, List.mem_cons, List.mem_singleton,
                List.not_mem_nil, or_false, false_or, hm, hr, or_self] at hi) <;>
              omega

/-- C37, witness: the TCS segment `02 04 FD FB` arrives at a fresh session; it passes the tests
and `receive` reads the adjustment from index 4 of a datagram of four bytes. -/
theorem C37_reads_in_range_unless_short_tcs_witness :
    check_common_header short_tcs = true ∧ checksum_ok short_tcs = true ∧
    short_tcs.length = 4 ∧
    4 ∈ receive_accesses (session.new 0 0 []) (zero_checksum short_tcs) ∧
    ¬ (∀ i ∈ receive_accesses (session.new 0 0 []) (zero_checksum short_tcs),
        i < short_tcs.length) :=
  ⟨by decide, by decide, by decide, by decide,
    fun h => (C37_reads_in_range_unless_short_tcs (session.new 0 0 []) short_tcs (by decide)
      (by decide) (by decide)).mp h ⟨by decide, by decide, fun h => by revert h; decide⟩⟩

theorem zero_checksum_sequence_number (d : buffer_t) (h4 : 4 ≤ byte d 1)
    (hlen : byte d 1 ≤ d.length) : byte (zero_checksum d) 2 = sequence_number_used d := by
  unfold sequence_number_used
  split_ifs with h
  · exact zero_checksum_byte d 2 (by omega)
  · have h1 : byte d 1 = 4 := by omega
    unfold zero_checksum to_be16
    rw [h1, byte_set_ne _ _ _ _ (by omega), byte_set_eq _ _ _ (by omega)]
    rfl

theorem zero_checksum_acknowledgement_number (d : buffer_t) (h4 : 4 ≤ byte d 1)
    (hlen : byte d 1 ≤ d.length) : byte (zero_checksum d) 3 = acknowledgement_number_used d := by
  unfold acknowledgement_number_used
  split_ifs with h
  · exact zero_checksum_byte d 3 (by omega)
  · unfold zero_checksum to_be16
    rcases (show byte d 1 = 4 ∨ byte d 1 = 5 by omega) with h1 | h1
    · rw [h1, byte_set_eq _ _ _ (by simp; omega)]
    · rw [h1, byte_set_ne _ _ _ _ (by omega), byte_set_eq _ _ _ (by omega)]
      rfl

set_option maxRecDepth 100000 in
/-- C32, counterexample: with a header of four bytes the sequence and acknowledgement numbers
are not read as they arrived.  The RST segment `10 04 EF FB` arrives at `connected_example`
(`receive_head` 21): its byte 2 is 0xEF, and it is buffered in slot 0 while slot 0xEF stays
empty.  The ACK segment `40 04 BF FB` arrives at `syn_sent_example` (the SYN numbered 0
outstanding): its byte 3 is 0xFB, and the acknowledgement number processed is 0, which
releases the SYN and invokes the callback of `connect`. -/
theorem C32_checksum_field_read_as_numbers :
    check_common_header overlapping_rst = true ∧ checksum_ok overlapping_rst = true ∧
    byte overlapping_rst 2 = 0xEF ∧
    (receive connected_example (some overlapping_rst) []).thrown = none ∧
    (receive connected_example (some overlapping_rst) []).s.receive_buffer 0 =
      some [0x10, 4, 0, 0] ∧
    (receive connected_example (some overlapping_rst) []).s.receive_buffer 0xEF = none ∧
    check_common_header overlapping_ack = true ∧ checksum_ok overlapping_ack = true ∧
    byte overlapping_ack 3 = 0xFB ∧
    syn_sent_example.acknowledge_head = 0 ∧ syn_sent_example.called = [] ∧
    (receive syn_sent_example (some overlapping_ack) []).thrown = none ∧
    (receive syn_sent_example (some overlapping_ack) []).s.acknowledge_head = 1 ∧
    (receive syn_sent_example (some overlapping_ack) []).s.called =
      [(send_cb.connect 0, true)] := by
  decide

/-- C32 (sequence and acknowledgement numbers as received), amended: for every datagram that
passes the flag, header-length and checksum tests, the numbers that `receive` uses are those of
the datagram with its checksum field zeroed: the sequence number is byte 2 as it arrived when
the header has at least five bytes and 0 otherwise, the acknowledgement number is byte 3 as it
arrived when the header has at least six bytes and 0 otherwise.  With ACK set and that
acknowledgement number outside the window the datagram is rejected; otherwise, after the SYN
and TCS branches, the datagram is dropped when the slot of that sequence number is occupied,
and else stored in that slot; and the acknowledgement processing that follows hands that
acknowledgement number to `update_ack`. -/
theorem C32_numbers_read_after_zeroing (s : session) (d : buffer_t) (received : List buffer_t)
    (hflags : check_common_header d = true) (h4 : 4 ≤ byte d 1) (hlen : byte d 1 ≤ d.length)
    (hsum : checksum_ok d = true) :
    byte (zero_checksum d) 2 = sequence_number_used d ∧
    byte (zero_checksum d) 3 = acknowledgement_number_used d ∧
    (6 ≤ byte d 1 → sequence_number_used d = byte d 2 ∧
      acknowledgement_number_used d = byte d 3) ∧
    (flag d 0x40 = true →
      is_valid_sequence_number s (acknowledgement_number_used d) = false →
      receive s (some d) received = ⟨s, received, some error.invalid_packet⟩) ∧
    ((flag d 0x40 = true →
        is_valid_sequence_number s (acknowledgement_number_used d) = true) →
      receive s (some d) received =
        match (if flag d 0x80 = true then receive_syn s (zero_checksum d) else .ok s) with
        | .error (s, e) => ⟨s, received, some e⟩
        | .ok s =>
          let s := if flag d 0x02 = true then receive_tcs s (zero_checksum d) else s
          if (s.receive_buffer (sequence_number_used d)).isSome then ⟨s, received, none⟩
          else
            let u := update_receive_head
              { s with receive_buffer :=
                         fun i => if i = sequence_number_used d then some (zero_checksum d)
                                  else s.receive_buffer i } received
            ⟨(receive_tail u.1 (zero_checksum d)).s, u.2,
              (receive_tail u.1 (zero_checksum d)).thrown⟩) ∧
    (∀ t : session, flag d 0x40 = true →
      receive_tail t (zero_checksum d) =
        (answer_syn (update_ack t (acknowledgement_number_used d)).1 (flag d 0x80) true).and_then
          fun s =>
        (if (byte d 1 != d.length) || flag d 0x02 then increment_cumulative_ack_counter s
         else result.ok s).and_then fun s =>
        let e := if flag d 0x20 && byte d 1 > 6 then
                   receive_eak s (zero_checksum d)
                     (update_ack t (acknowledgement_number_used d)).2
                 else (result.ok s, (update_ack t (acknowledgement_number_used d)).2)
        e.1.and_then fun s =>
        (answer_nul_eak s (flag d 0x08)).and_then fun s =>
        (send_pending s.pending.length s).and_then fun s =>
        result.ok (invoke_all s e.2 true)) := by
  have hseq := zero_checksum_sequence_number d h4 hlen
  have hackn := zero_checksum_acknowledgement_number d h4 hlen
  have b1 : byte (zero_checksum d) 1 = byte d 1 := zero_checksum_byte d 1 (by omega)
  have fl : ∀ m, flag (zero_checksum d) m = flag d m := by
    intro m
    unfold flag
    rw [zero_checksum_byte d 0 (by omega)]
  refine ⟨hseq, hackn, ?_, ?_, ?_, ?_⟩
  · intro h6
    unfold sequence_number_used acknowledgement_number_used
    rw [if_pos (by omega), if_pos h6]
    exact ⟨rfl, rfl⟩
  · intro hack hinv
    have hlt : ¬ (byte d 1 > d.length) := by omega
    have h4n : ¬ (byte d 1 < 4) := by omega
    simp only [receive, hflags, hsum, hack, hackn, hinv, hlt, h4n, Bool.not_true,
      Bool.not_false, Bool.and_true, Bool.false_eq_true, if_false, if_true]
  · intro hack
    rw [receive_checked s d received hflags h4 hlen hsum (by rw [hackn]; exact hack)]
    simp only [receive_store, hseq]
  · intro t hack
    simp only [receive_tail, fl, b1, hackn, hack, zero_checksum_length, if_true]

/-- C32, witness: the data segment `44 06 05 FF B6 F3 01 02 03`, with a header of six bytes,
arrives at a fresh session. -/
theorem C32_numbers_read_after_zeroing_witness :
    byte (zero_checksum (data_segment 5 [1, 2, 3])) 2 = 5 ∧
    byte (zero_checksum (data_segment 5 [1, 2, 3])) 3 = 255 :=
  have h := C32_numbers_read_after_zeroing (session.new 0 0 []) (data_segment 5 [1, 2, 3]) []
    (by decide) (by decide) (by decide) (by decide)
  ⟨h.1.trans (by decide), h.2.1.trans (by decide)⟩

/-! ## Deferred sends -/

theorem and_then_ok (r : result) (f : session → result) (h : (r.and_then f).thrown = none) :
    r.thrown = none ∧ r.and_then f = f r.s := by
  cases hr : r.thrown with
  | none => exact ⟨rfl, by simp only [result.and_then, hr]⟩
  | some e =>
    simp only [result.and_then, hr] at h
    cases h

theorem and_then_settles (r : result) (f : session → result) (P : session → Prop)
    (hf : r.thrown = none → (f r.s).thrown = none → P (f r.s).s)
    (h : (r.and_then f).thrown = none) : P (r.and_then f).s := by
  obtain ⟨h1, e⟩ := and_then_ok r f h
  rw [e] at h ⊢
  exact hf h1 h

theorem view_flow (a b : session) (h : transfer_view a = transfer_view b) :
    a.pending = b.pending ∧ ready_to_send a = ready_to_send b ∧ a.sent = b.sent ∧
    a.heap = b.heap ∧ a.receive_head = b.receive_head := by
  simp only [transfer_view, Prod.mk.injEq] at h
  obtain ⟨_, h2, _, h4, _, h6, h7, _, h9, h10, _, _, h13, _, _, h16⟩ := h
  refine ⟨h10, ?_, h16, h13, h4⟩
  unfold ready_to_send
  rw [h6, h7, h9, h2]

theorem send_syn_flow (s s' : session) (buf : buffer_t) (fr : Bool) (cbs : List send_cb)
    (h : send_syn s buf fr = .ok (s', cbs)) :
    s'.sent = s.sent ∧ s'.pending = s.pending ∧ s'.heap = s.heap ∧
    s'.receive_head = s.receive_head := by
  simp only [send_syn] at h
  split at h
  · cases h
  · split at h
    · cases h
    · cases h; exact ⟨rfl, rfl, rfl, rfl⟩

theorem send_transmit_pending (s : session) (p : Nat) (buf : buffer_t) (cb : send_cb) :
    (send_transmit s p buf cb).pending = s.pending := by
  simp only [send_transmit, reset_cumulative_ack_counter, set_null_segment_timer,
    set_retransmission_timer]
  split_ifs <;> rfl

/-- A deferred segment sent again by the loop at the end of `receive`, with `ready_to_send`
true: unless an exception is thrown, one datagram is handed to the socket, the stamped segment,
and `pending` is left as it is. -/
theorem send_ready (s : session) (p : Nat) (cb : send_cb) (hready : ready_to_send s = true)
    (hok : (send s (some p) true cb).thrown = none) :
    (∃ seq, (send s (some p) true cb).s.sent = s.sent ++ [stamp (s.heap p) seq s.receive_head]) ∧
    (send s (some p) true cb).s.pending = s.pending ∧
    (send s (some p) true cb).s.receive_head = s.receive_head ∧
    (∀ q, q ≠ p → (send s (some p) true cb).s.heap q = s.heap q) := by
  simp only [send, send_body, hready, Bool.not_true, Bool.false_and, Bool.false_eq_true,
    if_false] at hok ⊢
  generalize hm : (if flag (s.heap p) 0x80 = true then send_syn s (s.heap p) false
    else Except.ok (s, [])) = M at hok ⊢
  split_ifs at hok ⊢ with h1 h2 h3
  · cases hok
  · cases hok
  · cases hok
  · rcases M with ⟨s1, e⟩ | ⟨s1, cbs⟩
    · cases hok
    · simp only [] at hok ⊢
      have hs1 : s1.sent = s.sent ∧ s1.pending = s.pending ∧ s1.heap = s.heap ∧
          s1.receive_head = s.receive_head := by
        split_ifs at hm with hsyn
        · exact send_syn_flow _ _ _ _ _ hm
        · cases hm; exact ⟨rfl, rfl, rfl, rfl⟩
      obtain ⟨v1, _, v3, v4, v5⟩ := view_flow _ _
        (invoke_all_view cbs (send_transmit s1 p (s.heap p) cb) false)
      have t1 := send_transmit_sent s1 p (s.heap p) cb
      have t2 := send_transmit_pending s1 p (s.heap p) cb
      have t3 := (send_transmit_fields s1 p (s.heap p) cb).2.2.1
      have t4 := (send_transmit_rx s1 p (s.heap p) cb).2
      refine ⟨⟨s1.send_head, ?_⟩, ?_, ?_, ?_⟩
      · show (invoke_all _ _ _).sent = _
        rw [v3, t1, hs1.1, hs1.2.2.2]
      · show (invoke_all _ _ _).pending = _
        rw [v1, t2, hs1.2.1]
      · show (invoke_all _ _ _).receive_head = _
        rw [v5, t4, hs1.2.2.2]
      · intro q hq
        show (invoke_all _ _ _).heap q = _
        rw [v4, t3, hs1.2.2.1]
        simp only [if_neg hq]

theorem send_null_flow (s : session) (cb : send_cb) :
    (send s none true cb).s.pending = s.pending ∧
    ready_to_send (send s none true cb).s = ready_to_send s := by
  obtain ⟨v1, v2, _⟩ := view_flow _ _ (invoke_view s cb false)
  exact ⟨v1, v2⟩

/-- The loop at the end of `receive` stops with `pending` empty or `ready_to_send` false. -/
theorem send_pending_settles (n : Nat) : ∀ (s : session), s.pending.length ≤ n →
    (send_pending n s).thrown = none →
    (send_pending n s).s.pending = [] ∨ ready_to_send (send_pending n s).s = false := by
  induction n with
  | zero =>
    intro s hn _
    exact Or.inl (List.length_eq_zero.mp (Nat.le_zero.mp hn))
  | succ n ih =>
    intro s hn hok
    unfold send_pending at hok ⊢
    by_cases hready : ready_to_send s = true
    · rw [if_pos hready] at hok ⊢
      cases hp : s.pending with
      | nil =>
        simp only [hp] at hok ⊢
        exact Or.inl hp
      | cons front rest =>
        simp only [hp] at hok ⊢
        refine and_then_settles _ _
          (fun t => t.pending = [] ∨ ready_to_send t = false) (fun h1 h2 => ?_) hok
        refine ih _ ?_ h2
        have hpend : (send s front.1 true front.2).s.pending = s.pending := by
          cases hf : front.1 with
          | none => exact (send_null_flow s front.2).1
          | some p =>
            rw [hf] at h1
            exact (send_ready s p front.2 hready h1).2.1
        show (send s front.1 true front.2).s.pending.tail.length ≤ n
        rw [hpend, hp]
        rw [hp] at hn
        simpa using hn
    · rw [if_neg hready]
      exact Or.inr (by simpa using hready)

theorem forall2_imp_of_mem {α β : Type} {R S : α → β → Prop} {l1 : List α} {l2 : List β}
    (h : List.Forall₂ R l1 l2) (hi : ∀ a ∈ l1, ∀ b, R a b → S a b) : List.Forall₂ S l1 l2 := by
  induction h with
  | nil => exact .nil
  | cons hab _ ih =>
    exact .cons (hi _ (List.mem_cons_self _ _) _ hab)
      (ih (fun a ha b => hi a (List.mem_cons_of_mem _ ha) b))

/-- The loop at the end of `receive` takes the entries of `pending` from the front: the
datagrams it hands to the socket are, in order, the stamped segments of the entries taken. -/
theorem send_pending_order (n : Nat) : ∀ (s : session),
    (send_pending n s).thrown = none → (∀ e ∈ s.pending, e.1.isSome = true) →
    (s.pending.map Prod.fst).Nodup →
    ∃ k L, k ≤ s.pending.length ∧ (send_pending n s).s.pending = s.pending.drop k ∧
      (send_pending n s).s.sent = s.sent ++ L ∧
      List.Forall₂ (transmitted_as s) (s.pending.take k) L := by
  induction n with
  | zero =>
    intro s _ _ _
    exact ⟨0, [], Nat.zero_le _, rfl, (List.append_nil _).symm, by simp⟩
  | succ n ih =>
    intro s hok hptr hnd
    unfold send_pending at hok ⊢
    by_cases hready : ready_to_send s = true
    · rw [if_pos hready] at hok ⊢
      cases hp : s.pending with
      | nil =>
        simp only [hp] at hok ⊢
        exact ⟨0, [], Nat.zero_le _, hp, (List.append_nil _).symm, by simp⟩
      | cons front rest =>
        simp only [hp] at hok ⊢
        obtain ⟨h1, e⟩ := and_then_ok _ _ hok
        rw [e] at hok ⊢
        obtain ⟨p, hf⟩ := Option.isSome_iff_exists.mp (hptr front (by rw [hp]; simp))
        rw [hf] at h1 hok ⊢
        obtain ⟨⟨seq, g1⟩, g2, g3, g4⟩ := send_ready s p front.2 hready h1
        rw [hp] at hnd hptr
        have hnd2 : (rest.map Prod.fst).Nodup := (List.nodup_cons.mp hnd).2
        have hnot : front.1 ∉ rest.map Prod.fst := (List.nodup_cons.mp hnd).1
        generalize hs1 : ({ (send s (some p) true front.2).s with
          pending := (send s (some p) true front.2).s.pending.tail } : session) = s1 at hok ⊢
        have p1 : s1.pending = rest := by rw [← hs1]; show List.tail _ = _; rw [g2, hp]; rfl
        have p2 : s1.sent = s.sent ++ [stamp (s.heap p) seq s.receive_head] := by
          rw [← hs1]; exact g1
        have p3 : s1.receive_head = s.receive_head := by rw [← hs1]; exact g3
        have p4 : ∀ q, q ≠ p → s1.heap q = s.heap q := by rw [← hs1]; exact g4
        obtain ⟨k, L, k1, k2, k3, k4⟩ := ih s1 hok
          (by rw [p1]; exact fun e he => hptr e (List.mem_cons_of_mem _ he))
          (by rw [p1]; exact hnd2)
        rw [p1] at k1 k2 k4
        refine ⟨k + 1, stamp (s.heap p) seq s.receive_head :: L, by simpa using k1, ?_, ?_, ?_⟩
        · rw [k2]; rfl
        · rw [k3, p2, List.append_assoc]; rfl
        · rw [List.take_succ_cons]
          refine .cons ⟨by rw [hp]; simp, p, seq, hf, rfl⟩ ?_
          refine forall2_imp_of_mem k4 ?_
          intro a ha b ⟨_, q, sq, hq, hb⟩
          have harest : a ∈ rest := List.mem_of_mem_take ha
          have hqp : q ≠ p := by
            intro h
            apply hnot
            rw [hf, ← h, ← hq]
            exact List.mem_map_of_mem _ harest
          exact ⟨by rw [hp]; exact List.mem_cons_of_mem _ harest, q, sq, hq,
            by rw [hb, p4 q hqp, p3]⟩
    · rw [if_neg hready]
      exact ⟨0, [], Nat.zero_le _, rfl, (List.append_nil _).symm, by simp⟩

/-- When the part of `receive` after `update_receive_head` returns, `pending` is empty or
`ready_to_send` is false. -/
theorem receive_tail_settles (s : session) (Z : buffer_t)
    (hok : (receive_tail s Z).thrown = none) :
    (receive_tail s Z).s.pending = [] ∨ ready_to_send (receive_tail s Z).s = false := by
  simp only [receive_tail] at hok ⊢
  refine and_then_settles _ _ (fun t => t.pending = [] ∨ ready_to_send t = false)
    (fun _ h1 => ?_) hok
  refine and_then_settles _ _ (fun t => t.pending = [] ∨ ready_to_send t = false)
    (fun _ h2 => ?_) h1
  refine and_then_settles _ _ (fun t => t.pending = [] ∨ ready_to_send t = false)
    (fun _ h3 => ?_) h2
  refine and_then_settles _ _ (fun t => t.pending = [] ∨ ready_to_send t = false)
    (fun _ h4 => ?_) h3
  refine and_then_settles _ _ (fun t => t.pending = [] ∨ ready_to_send t = false)
    (fun h5 _ => ?_) h4
  obtain ⟨v1, v2, _⟩ := view_flow _ _ (invoke_all_view
    (if (flag Z 0x20 && decide (byte Z 1 > 6)) = true then
      receive_eak _ Z (if flag Z 0x40 = true then update_ack s (byte Z 3) else (s, [])).2
     else (result.ok _, (if flag Z 0x40 = true then update_ack s (byte Z 3) else (s, [])).2)).2
    (send_pending _ _).s true)
  show (invoke_all _ _ _).pending = [] ∨ ready_to_send (invoke_all _ _ _) = false
  rw [v1, v2]
  exact send_pending_settles _ _ (le_refl _) h5

theorem receive_syn_ring (s s1 : session) (Z : buffer_t) (h : receive_syn s Z = .ok s1) :
    s1.receive_buffer = fun _ => none := by
  simp only [receive_syn] at h
  split_ifs at h
  split at h
  · cases h
  · cases h; rfl

theorem receive_tcs_flow (s : session) (Z : buffer_t) :
    (receive_tcs s Z).pending = s.pending ∧
    ready_to_send (receive_tcs s Z) = ready_to_send s ∧
    (receive_tcs s Z).sent = s.sent ∧
    ((s.receive_buffer = fun _ => none) → (receive_tcs s Z).receive_buffer = fun _ => none) := by
  simp only [receive_tcs]
  split_ifs
  · refine ⟨rfl, rfl, rfl, ?_⟩
    intro h
    simp only [h]
  · exact ⟨rfl, rfl, rfl, id⟩

/-- A call of `receive` that returns either left at the duplicate test, with `pending`, the
outcome of `ready_to_send` and the datagrams transmitted as on entry, or ends with `pending`
empty or `ready_to_send` false. -/
theorem receive_settles (s : session) (d : Option buffer_t) (received : List buffer_t)
    (hok : (receive s d received).thrown = none) :
    ((receive s d received).s.pending = [] ∨
      ready_to_send (receive s d received).s = false) ∨
    ((receive s d received).s.pending = s.pending ∧
      ready_to_send (receive s d received).s = ready_to_send s ∧
      (receive s d received).s.sent = s.sent) := by
  cases d with
  | none => exact Or.inr ⟨rfl, rfl, rfl⟩
  | some d =>
    simp only [receive] at hok ⊢
    by_cases c1 : (!check_common_header d) = true
    · rw [if_pos c1] at hok; cases hok
    rw [if_neg c1] at hok ⊢
    by_cases c2 : byte d 1 > d.length
    · rw [if_pos c2] at hok; cases hok
    rw [if_neg c2] at hok ⊢
    by_cases c3 : byte d 1 < 4
    · rw [if_pos c3] at hok; cases hok
    rw [if_neg c3] at hok ⊢
    by_cases c4 : (!checksum_ok d) = true
    · rw [if_pos c4] at hok; cases hok
    rw [if_neg c4] at hok ⊢
    by_cases c5 : (flag d 0x40 && !is_valid_sequence_number s (byte (zero_checksum d) 3)) = true
    · rw [if_pos c5] at hok; cases hok
    rw [if_neg c5] at hok ⊢
    generalize hm : (if flag d 0x80 = true then receive_syn s (zero_checksum d)
      else Except.ok s) = M at hok ⊢
    rcases M with ⟨s1, e⟩ | s1
    · cases hok
    · simp only [] at hok ⊢
      generalize hs2 : (if flag d 0x02 = true then receive_tcs s1 (zero_checksum d) else s1) = s2
        at hok ⊢
      simp only [receive_store] at hok ⊢
      by_cases hocc : (s2.receive_buffer (byte (zero_checksum d) 2)).isSome = true
      · rw [if_pos hocc] at hok ⊢
        right
        by_cases hsyn : flag d 0x80 = true
        · exfalso
          rw [if_pos hsyn] at hm
          have r1 := receive_syn_ring _ _ _ hm
          have r2 : s2.receive_buffer = fun _ => none := by
            rw [← hs2]
            split_ifs
            · exact (receive_tcs_flow s1 _).2.2.2 r1
            · exact r1
          rw [r2] at hocc
          cases hocc
        · rw [if_neg hsyn] at hm
          cases hm
          rw [← hs2]
          split_ifs
          · exact ⟨(receive_tcs_flow s _).1, (receive_tcs_flow s _).2.1,
              (receive_tcs_flow s _).2.2.1⟩
          · exact ⟨rfl, rfl, rfl⟩
      · rw [if_neg hocc] at hok ⊢
        left
        exact receive_tail_settles _ _ hok

end rudp
